import Mathlib

/-!
# fmod_flutter: the event-instance registry of the native bridges

A shallow embedding of `windows/fmod_bridge.cpp` (class `FmodBridge`), of
`android/src/main/cpp/fmod_jni.cpp` (the `native*` JNI entry points) and of
the method-channel handler of `windows/fmod_flutter_plugin.cpp`.

The audio engine is an external collaborator.  It is modelled by

* a chronological log of the engine calls the bridge issued (`World.log`),
* an oracle `Env` giving, for the n-th engine call, the result the engine
  returns (`FMOD_OK` or not, the playback state written to the out parameter,
  whether an out pointer is non-null),
* a counter `World.next` from which the engine takes the handle of every
  object it creates, so a created handle was never handed out before.

Console and logcat output is not modelled.  Of the update thread of the Windows
bridge the model keeps the flag `running_` and whether the thread object is
joinable (`update_thread_`); the engine updates the thread issues are not in
the log.
-/

namespace FmodFlutter

/-- An engine-owned object (event instance, studio system, core system). -/
abbrev Handle := Nat

/-- A C `float`, carried as its IEEE-754 bit pattern; the bridge only forwards it. -/
abbrev F32 := Nat

/-- The bit pattern of `1.0f`. -/
def F32.one : F32 := 0x3F800000

/-- The two stop modes of `FMOD_Studio_EventInstance_Stop`. -/
inductive FMOD_STUDIO_STOP_MODE where
  | FMOD_STUDIO_STOP_ALLOWFADEOUT
  | FMOD_STUDIO_STOP_IMMEDIATE
  deriving DecidableEq, Repr

/-- The playback states the engine reports for an event instance. -/
inductive FMOD_STUDIO_PLAYBACK_STATE where
  | FMOD_STUDIO_PLAYBACK_PLAYING
  | FMOD_STUDIO_PLAYBACK_SUSTAINING
  | FMOD_STUDIO_PLAYBACK_STOPPED
  | FMOD_STUDIO_PLAYBACK_STARTING
  | FMOD_STUDIO_PLAYBACK_STOPPING
  deriving DecidableEq, Repr

open FMOD_STUDIO_STOP_MODE FMOD_STUDIO_PLAYBACK_STATE

/-- One call into the engine, with the arguments the bridge passed.  For
`EventDescription_CreateInstance` the event path of the description and the
instance the engine returned are recorded as well. -/
inductive EngineCall where
  | Studio_System_Create
  | Studio_System_GetCoreSystem (sys : Handle)
  | System_SetOutput (core : Handle)
  | Studio_System_Initialize (sys : Handle) (maxchannels : Nat)
  | Studio_System_GetBus (sys : Handle) (path : String)
  | Studio_Bus_SetVolume (volume : F32)
  | Studio_Bus_SetPaused (paused : Bool)
  | Studio_System_LoadBankFile (sys : Handle) (path : String)
  | Studio_System_LoadBankMemory (sys : Handle) (data : List Nat)
  | Studio_System_GetEvent (sys : Handle) (path : String)
  | Studio_EventDescription_CreateInstance (path : String) (out : Option Handle)
  | Studio_EventInstance_GetPlaybackState (inst : Handle)
  | Studio_EventInstance_Stop (inst : Handle) (mode : FMOD_STUDIO_STOP_MODE)
  | Studio_EventInstance_Start (inst : Handle)
  | Studio_EventInstance_Release (inst : Handle)
  | Studio_EventInstance_SetParameterByName (inst : Handle) (name : String) (value : F32)
  | Studio_EventInstance_SetPaused (inst : Handle) (paused : Bool)
  | Studio_EventInstance_SetVolume (inst : Handle) (volume : F32)
  | Studio_System_Update (sys : Handle)
  | Studio_System_Release (sys : Handle)
  deriving DecidableEq, Repr

open EngineCall

/-- The event instance an engine call operates on, if it operates on one. -/
def EngineCall.target : EngineCall → Option Handle
  | Studio_EventInstance_GetPlaybackState h => some h
  | Studio_EventInstance_Stop h _ => some h
  | Studio_EventInstance_Start h => some h
  | Studio_EventInstance_Release h => some h
  | Studio_EventInstance_SetParameterByName h _ _ => some h
  | Studio_EventInstance_SetPaused h _ => some h
  | Studio_EventInstance_SetVolume h _ => some h
  | _ => none

/-- What the engine answers to one call. -/
structure EngineResult where
  /-- The call returned `FMOD_OK`. -/
  ok : Bool
  /-- The value found in the `state` out parameter after a playback-state query. -/
  state : FMOD_STUDIO_PLAYBACK_STATE
  /-- The out pointer of a lookup is non-null. -/
  nonNull : Bool
  deriving DecidableEq, Repr

/-- The engine behaviour: the answer to the n-th call (counted from 0). -/
abbrev Env := Nat → EngineResult

/-- The engine side: the calls issued so far, oldest first, and the next fresh handle. -/
structure World where
  log : List EngineCall
  next : Handle
  deriving DecidableEq, Repr

/-- The answer the engine gives to the call issued now. -/
def World.result (env : Env) (w : World) : EngineResult := env w.log.length

/-- Record one engine call. -/
def World.emit (w : World) (c : EngineCall) : World :=
  { w with log := w.log ++ [c] }

/-- Record an engine call that created the object `w.next`. -/
def World.emitAlloc (w : World) (c : EngineCall) : World :=
  { log := w.log ++ [c], next := w.next + 1 }

/-! ## The registry: `std::unordered_map<std::string, FMOD_STUDIO_EVENTINSTANCE*>`
(Windows) and `std::map<std::string, FMOD::Studio::EventInstance*>` (Android).
An association list; its order stands for the iteration order of the container. -/

abbrev Registry := List (String × Handle)

/-- Lookup `m.find(key)`: the stored handle, or `none` for `end()`. -/
def Registry.find (key : String) : Registry → Option Handle
  | [] => none
  | (k, h) :: rest => if k = key then some h else Registry.find key rest

/-- Removal `m.erase(it)` for the iterator that `find(key)` returned. -/
def Registry.erase (key : String) : Registry → Registry
  | [] => []
  | (k, h) :: rest => if k = key then rest else (k, h) :: Registry.erase key rest

/-- Assignment `m[key] = h`: overwrite the entry of `key`, or add one. -/
def Registry.assign (key : String) (h : Handle) : Registry → Registry
  | [] => [(key, h)]
  | (k, h') :: rest =>
      if k = key then (k, h) :: rest else (k, h') :: Registry.assign key h rest

/-- The keys of the registry. -/
def Registry.keys (m : Registry) : List String := m.map Prod.fst

/-- The handles stored in the registry. -/
def Registry.handles (m : Registry) : List Handle := m.map Prod.snd

/-- The loop `for (auto& pair : event_instances_)` of both release functions:
every stored instance is stopped immediately and released. -/
def stopAndReleaseAll : Registry → World → World
  | [], w => w
  | (_, h) :: rest, w =>
      stopAndReleaseAll rest
        ((w.emit (Studio_EventInstance_Stop h FMOD_STUDIO_STOP_IMMEDIATE)).emit
          (Studio_EventInstance_Release h))

/-! ## Windows: `class FmodBridge` -/

/-- The data members of `FmodBridge`, together with the engine side. -/
structure FmodBridge where
  studio_system_ : Option Handle
  core_system_ : Option Handle
  running_ : Bool
  /-- The thread object `update_thread_` is joinable: `update_thread_.joinable()`. -/
  update_thread_ : Bool
  event_instances_ : Registry
  world : World
  deriving DecidableEq, Repr

namespace FmodBridge

/-- The constructor `FmodBridge::FmodBridge()`, on an engine that was never called. -/
def new : FmodBridge :=
  { studio_system_ := none, core_system_ := none, running_ := false,
    update_thread_ := false, event_instances_ := [], world := { log := [], next := 0 } }

/-- `FmodBridge::Initialize`.  A failed `FMOD_Studio_System_Create` or
`FMOD_Studio_System_GetCoreSystem` leaves its out parameter as it was.  The
result is `none` when the call does not return: the move assignment
`update_thread_ = std::thread(...)` to a thread object that is still joinable
calls `std::terminate` and the process ends. -/
def Initialize (env : Env) (b : FmodBridge) : Option (Bool × FmodBridge) :=
  -- Create FMOD Studio System
  let r1 := b.world.result env
  if r1.ok = false then
    some (false, { b with world := b.world.emit Studio_System_Create })
  else
    let sys := b.world.next
    let w1 := b.world.emitAlloc Studio_System_Create
    -- Get the Core System
    let r2 := w1.result env
    if r2.ok = false then
      some (false, { b with studio_system_ := some sys,
                            world := w1.emit (Studio_System_GetCoreSystem sys) })
    else
      let core := w1.next
      let w2 := w1.emitAlloc (Studio_System_GetCoreSystem sys)
      -- Set output type to auto-detect; a failure is only a warning
      let w3 := w2.emit (System_SetOutput core)
      -- Initialize FMOD Studio System
      let r4 := w3.result env
      let w4 := w3.emit (Studio_System_Initialize sys 512)
      if r4.ok = false then
        some (false,
          { b with studio_system_ := some sys, core_system_ := some core, world := w4 })
      else
        -- Set master volume to maximum
        let r5 := w4.result env
        let w5 := w4.emit (Studio_System_GetBus sys "bus:/")
        let w6 := if r5.ok = true ∧ r5.nonNull = true then w5.emit (Studio_Bus_SetVolume F32.one)
                  else w5
        -- Start background update thread; `running_ = true` comes first
        if b.update_thread_ = true then none
        else
          some (true, { b with studio_system_ := some sys, core_system_ := some core,
                               running_ := true, update_thread_ := true, world := w6 })

/-- `FmodBridge::LoadBank`. -/
def LoadBank (env : Env) (path : String) (b : FmodBridge) : Bool × FmodBridge :=
  match b.studio_system_ with
  | none => (false, b)
  | some sys =>
    let r := b.world.result env
    let b1 := { b with world := b.world.emit (Studio_System_LoadBankFile sys path) }
    if r.ok = false then (false, b1) else (true, b1)

/-- Lines 123-147 of `FmodBridge::PlayEvent`: create an instance of the event,
start it and store it. -/
def PlayEvent.createInstance (env : Env) (event_path : String) (b : FmodBridge) :
    Bool × FmodBridge :=
  -- Create an instance of the event
  let r1 := b.world.result env
  if r1.ok = false then
    let w1 := b.world.emit (Studio_EventDescription_CreateInstance event_path none)
    (false, { b with world := w1 })
  else
    let event_instance := b.world.next
    let w1 := b.world.emitAlloc
      (Studio_EventDescription_CreateInstance event_path (some event_instance))
    -- Start the event
    let r2 := w1.result env
    let w2 := w1.emit (Studio_EventInstance_Start event_instance)
    if r2.ok = false then
      (false, { b with world := w2.emit (Studio_EventInstance_Release event_instance) })
    else
      -- Store the instance for later control
      (true, { b with event_instances_ := b.event_instances_.assign event_path event_instance,
                      world := w2 })

/-- `FmodBridge::PlayEvent`. -/
def PlayEvent (env : Env) (event_path : String) (b : FmodBridge) : Bool × FmodBridge :=
  match b.studio_system_ with
  | none => (false, b)
  | some sys =>
    -- Get the event description
    let r1 := b.world.result env
    let w1 := b.world.emit (Studio_System_GetEvent sys event_path)
    if r1.ok = false then (false, { b with world := w1 })
    else
      -- Check if an instance is already playing for this event
      match b.event_instances_.find event_path with
      | some inst =>
        let state := (w1.result env).state
        let w2 := w1.emit (Studio_EventInstance_GetPlaybackState inst)
        if state = FMOD_STUDIO_PLAYBACK_PLAYING ∨ state = FMOD_STUDIO_PLAYBACK_STARTING then
          let w3 := w2.emit (Studio_EventInstance_Stop inst FMOD_STUDIO_STOP_IMMEDIATE)
          (true, { b with world := w3.emit (Studio_EventInstance_Start inst) })
        else
          PlayEvent.createInstance env event_path
            { b with event_instances_ := b.event_instances_.erase event_path,
                     world := w2.emit (Studio_EventInstance_Release inst) }
      | none => PlayEvent.createInstance env event_path { b with world := w1 }

/-- `FmodBridge::StopEvent`. -/
def StopEvent (env : Env) (event_path : String) (b : FmodBridge) : Bool × FmodBridge :=
  match b.event_instances_.find event_path with
  | none => (false, b)
  | some inst =>
    let r := b.world.result env
    let w1 := b.world.emit (Studio_EventInstance_Stop inst FMOD_STUDIO_STOP_ALLOWFADEOUT)
    if r.ok = false then (false, { b with world := w1 })
    else
      (true, { b with event_instances_ := b.event_instances_.erase event_path,
                      world := w1.emit (Studio_EventInstance_Release inst) })

/-- `FmodBridge::SetParameter`. -/
def SetParameter (env : Env) (event_path param_name : String) (value : F32)
    (b : FmodBridge) : Bool × FmodBridge :=
  match b.event_instances_.find event_path with
  | none => (false, b)
  | some inst =>
    let r := b.world.result env
    let w1 := b.world.emit (Studio_EventInstance_SetParameterByName inst param_name value)
    let b1 := { b with world := w1 }
    if r.ok = false then (false, b1) else (true, b1)

/-- `FmodBridge::SetPaused`. -/
def SetPaused (env : Env) (event_path : String) (paused : Bool) (b : FmodBridge) :
    Bool × FmodBridge :=
  match b.event_instances_.find event_path with
  | none => (false, b)
  | some inst =>
    let r := b.world.result env
    let b1 := { b with world := b.world.emit (Studio_EventInstance_SetPaused inst paused) }
    if r.ok = false then (false, b1) else (true, b1)

/-- `FmodBridge::SetVolume`. -/
def SetVolume (env : Env) (event_path : String) (volume : F32) (b : FmodBridge) :
    Bool × FmodBridge :=
  match b.event_instances_.find event_path with
  | none => (false, b)
  | some inst =>
    let r := b.world.result env
    let b1 := { b with world := b.world.emit (Studio_EventInstance_SetVolume inst volume) }
    if r.ok = false then (false, b1) else (true, b1)

/-- `FmodBridge::SetMasterPaused`. -/
def SetMasterPaused (env : Env) (paused : Bool) (b : FmodBridge) : Bool × FmodBridge :=
  match b.studio_system_ with
  | none => (false, b)
  | some sys =>
    let r1 := b.world.result env
    let w1 := b.world.emit (Studio_System_GetBus sys "bus:/")
    if r1.ok = false ∨ r1.nonNull = false then (false, { b with world := w1 })
    else
      let r2 := w1.result env
      let b2 := { b with world := w1.emit (Studio_Bus_SetPaused paused) }
      if r2.ok = false then (false, b2) else (true, b2)

/-- `FmodBridge::Update`. -/
def Update (b : FmodBridge) : FmodBridge :=
  match b.studio_system_ with
  | some sys => { b with world := b.world.emit (Studio_System_Update sys) }
  | none => b

/-- `FmodBridge::Release`. -/
def Release (b : FmodBridge) : FmodBridge :=
  -- Stop the update thread: `running_ = false`, then join it if joinable
  -- Stop and release all event instances
  let w1 := stopAndReleaseAll b.event_instances_ b.world
  -- Release FMOD Studio system
  match b.studio_system_ with
  | some sys =>
    { studio_system_ := none, core_system_ := none, running_ := false,
      update_thread_ := false, event_instances_ := [],
      world := w1.emit (Studio_System_Release sys) }
  | none =>
    { b with running_ := false, update_thread_ := false, event_instances_ := [], world := w1 }

end FmodBridge

/-- The operations a caller can apply to the Windows bridge. -/
inductive BridgeOp where
  | Initialize
  | LoadBank (path : String)
  | PlayEvent (event_path : String)
  | StopEvent (event_path : String)
  | SetParameter (event_path param_name : String) (value : F32)
  | SetPaused (event_path : String) (paused : Bool)
  | SetVolume (event_path : String) (volume : F32)
  | SetMasterPaused (paused : Bool)
  | Update
  | Release
  deriving DecidableEq, Repr

/-- Apply one operation to the Windows bridge.  An `Initialize` that ends the
process has no state after it; so that every sequence of operations has a run,
the model then goes on from the state before that call.  Every run the program
completes is a run of the model (`FmodBridge.exec`, `bridge_exec_run`). -/
def FmodBridge.step (env : Env) (b : FmodBridge) : BridgeOp → FmodBridge
  | .Initialize =>
    match b.Initialize env with
    | some r => r.2
    | none => b
  | .LoadBank p => (b.LoadBank env p).2
  | .PlayEvent k => (b.PlayEvent env k).2
  | .StopEvent k => (b.StopEvent env k).2
  | .SetParameter k n v => (b.SetParameter env k n v).2
  | .SetPaused k p => (b.SetPaused env k p).2
  | .SetVolume k v => (b.SetVolume env k v).2
  | .SetMasterPaused p => (b.SetMasterPaused env p).2
  | .Update => b.Update
  | .Release => b.Release

/-- Apply a sequence of operations, first to last. -/
def FmodBridge.run (env : Env) (ops : List BridgeOp) (b : FmodBridge) : FmodBridge :=
  ops.foldl (FmodBridge.step env) b

/-! ## Android: the JNI entry points of `fmod_jni.cpp` -/

/-- The file-scope variables of `fmod_jni.cpp`, together with the engine side. -/
structure FmodJni where
  studioSystem : Option Handle
  coreSystem : Option Handle
  eventInstances : Registry
  world : World
  deriving DecidableEq, Repr

namespace FmodJni

/-- The state at load time: null pointers, an empty map, an engine never called. -/
def new : FmodJni :=
  { studioSystem := none, coreSystem := none, eventInstances := [],
    world := { log := [], next := 0 } }

/-- `nativeInitialize`.  A failed `System::create` or `getCoreSystem` leaves its
out parameter as it was. -/
def nativeInitialize (env : Env) (j : FmodJni) : Bool × FmodJni :=
  -- Create FMOD Studio System
  let r1 := j.world.result env
  if r1.ok = false then
    (false, { j with world := j.world.emit Studio_System_Create })
  else
    let sys := j.world.next
    let w1 := j.world.emitAlloc Studio_System_Create
    -- Get Core System
    let r2 := w1.result env
    if r2.ok = false then
      (false, { j with studioSystem := some sys,
                       world := w1.emit (Studio_System_GetCoreSystem sys) })
    else
      let core := w1.next
      let w2 := w1.emitAlloc (Studio_System_GetCoreSystem sys)
      -- Initialize with 512 channels
      let r3 := w2.result env
      let w3 := w2.emit (Studio_System_Initialize sys 512)
      if r3.ok = false then
        (false, { j with studioSystem := some sys, coreSystem := some core, world := w3 })
      else
        -- Set master bus volume
        let r4 := w3.result env
        let w4 := w3.emit (Studio_System_GetBus sys "bus:/")
        let w5 := if r4.ok = true ∧ r4.nonNull = true then w4.emit (Studio_Bus_SetVolume F32.one)
                  else w4
        (true, { j with studioSystem := some sys, coreSystem := some core, world := w5 })

/-- `nativeLoadBank`. -/
def nativeLoadBank (env : Env) (bankData : List Nat) (j : FmodJni) : Bool × FmodJni :=
  match j.studioSystem with
  | none => (false, j)
  | some sys =>
    let r := j.world.result env
    let j1 := { j with world := j.world.emit (Studio_System_LoadBankMemory sys bankData) }
    if r.ok = false then (false, j1) else (true, j1)

/-- Lines 121-149 of `nativePlayEvent`: get the event description, create an
instance, start it and store it. -/
def nativePlayEvent.getEvent (env : Env) (sys : Handle) (path : String) (j : FmodJni) :
    Bool × FmodJni :=
  -- Get event description
  let r1 := j.world.result env
  let w1 := j.world.emit (Studio_System_GetEvent sys path)
  if r1.ok = false then (false, { j with world := w1 })
  else
    -- Create instance
    let r2 := w1.result env
    if r2.ok = false then
      (false, { j with world := w1.emit (Studio_EventDescription_CreateInstance path none) })
    else
      let eventInstance := w1.next
      let w2 := w1.emitAlloc (Studio_EventDescription_CreateInstance path (some eventInstance))
      -- Start the event
      let r3 := w2.result env
      let w3 := w2.emit (Studio_EventInstance_Start eventInstance)
      if r3.ok = false then
        (false, { j with world := w3.emit (Studio_EventInstance_Release eventInstance) })
      else
        -- Store the instance
        (true, { j with eventInstances := j.eventInstances.assign path eventInstance,
                        world := w3 })

/-- `nativePlayEvent`. -/
def nativePlayEvent (env : Env) (path : String) (j : FmodJni) : Bool × FmodJni :=
  match j.studioSystem with
  | none => (false, j)
  | some sys =>
    -- Check if event already has an instance
    match j.eventInstances.find path with
    | some inst =>
      -- Stop existing instance
      let w1 := j.world.emit (Studio_EventInstance_Stop inst FMOD_STUDIO_STOP_IMMEDIATE)
      nativePlayEvent.getEvent env sys path
        { j with eventInstances := j.eventInstances.erase path,
                 world := w1.emit (Studio_EventInstance_Release inst) }
    | none => nativePlayEvent.getEvent env sys path j

/-- `nativeStopEvent`. -/
def nativeStopEvent (env : Env) (path : String) (j : FmodJni) : Bool × FmodJni :=
  match j.eventInstances.find path with
  | none => (false, j)
  | some inst =>
    let r := j.world.result env
    let w1 := j.world.emit (Studio_EventInstance_Stop inst FMOD_STUDIO_STOP_ALLOWFADEOUT)
    if r.ok = false then (false, { j with world := w1 })
    else
      (true, { j with eventInstances := j.eventInstances.erase path,
                      world := w1.emit (Studio_EventInstance_Release inst) })

/-- `nativeSetParameter`. -/
def nativeSetParameter (env : Env) (path param : String) (value : F32) (j : FmodJni) :
    Bool × FmodJni :=
  match j.eventInstances.find path with
  | none => (false, j)
  | some inst =>
    let r := j.world.result env
    let w1 := j.world.emit (Studio_EventInstance_SetParameterByName inst param value)
    if r.ok = false then (false, { j with world := w1 }) else (true, { j with world := w1 })

/-- `nativeSetPaused`. -/
def nativeSetPaused (env : Env) (path : String) (paused : Bool) (j : FmodJni) :
    Bool × FmodJni :=
  match j.eventInstances.find path with
  | none => (false, j)
  | some inst =>
    let r := j.world.result env
    let w1 := j.world.emit (Studio_EventInstance_SetPaused inst paused)
    if r.ok = false then (false, { j with world := w1 }) else (true, { j with world := w1 })

/-- `nativeSetVolume`. -/
def nativeSetVolume (env : Env) (path : String) (volume : F32) (j : FmodJni) :
    Bool × FmodJni :=
  match j.eventInstances.find path with
  | none => (false, j)
  | some inst =>
    let r := j.world.result env
    let w1 := j.world.emit (Studio_EventInstance_SetVolume inst volume)
    if r.ok = false then (false, { j with world := w1 }) else (true, { j with world := w1 })

/-- `nativeUpdate`. -/
def nativeUpdate (j : FmodJni) : FmodJni :=
  match j.studioSystem with
  | some sys => { j with world := j.world.emit (Studio_System_Update sys) }
  | none => j

/-- `nativeRelease`. -/
def nativeRelease (j : FmodJni) : FmodJni :=
  -- Release all event instances
  let w1 := stopAndReleaseAll j.eventInstances j.world
  -- Release FMOD Studio System
  match j.studioSystem with
  | some sys =>
    { studioSystem := none, coreSystem := none, eventInstances := [],
      world := w1.emit (Studio_System_Release sys) }
  | none => { j with eventInstances := [], world := w1 }

/-- `nativeSetMasterPaused`. -/
def nativeSetMasterPaused (env : Env) (paused : Bool) (j : FmodJni) : Bool × FmodJni :=
  match j.studioSystem with
  | none => (false, j)
  | some sys =>
    let r1 := j.world.result env
    let w1 := j.world.emit (Studio_System_GetBus sys "bus:/")
    if r1.ok = false ∨ r1.nonNull = false then (false, { j with world := w1 })
    else
      let r2 := w1.result env
      let j2 := { j with world := w1.emit (Studio_Bus_SetPaused paused) }
      if r2.ok = false then (false, j2) else (true, j2)

end FmodJni

/-- The operations a caller can apply through the JNI entry points (the
diagnostic `nativeLogAvailableEvents`, which reads no bridge state but the
system pointer and calls no event instance, is left out). -/
inductive JniOp where
  | nativeInitialize
  | nativeLoadBank (bankData : List Nat)
  | nativePlayEvent (path : String)
  | nativeStopEvent (path : String)
  | nativeSetParameter (path param : String) (value : F32)
  | nativeSetPaused (path : String) (paused : Bool)
  | nativeSetVolume (path : String) (volume : F32)
  | nativeSetMasterPaused (paused : Bool)
  | nativeUpdate
  | nativeRelease
  deriving DecidableEq, Repr

/-- Apply one operation to the Android binding. -/
def FmodJni.step (env : Env) (j : FmodJni) : JniOp → FmodJni
  | .nativeInitialize => (j.nativeInitialize env).2
  | .nativeLoadBank d => (j.nativeLoadBank env d).2
  | .nativePlayEvent k => (j.nativePlayEvent env k).2
  | .nativeStopEvent k => (j.nativeStopEvent env k).2
  | .nativeSetParameter k n v => (j.nativeSetParameter env k n v).2
  | .nativeSetPaused k p => (j.nativeSetPaused env k p).2
  | .nativeSetVolume k v => (j.nativeSetVolume env k v).2
  | .nativeSetMasterPaused p => (j.nativeSetMasterPaused env p).2
  | .nativeUpdate => j.nativeUpdate
  | .nativeRelease => j.nativeRelease

/-- Apply a sequence of operations, first to last. -/
def FmodJni.run (env : Env) (ops : List JniOp) (j : FmodJni) : FmodJni :=
  ops.foldl (FmodJni.step env) j

/-! ## Reading the engine log -/

/-- The instance a successful create-instance call returned. -/
def EngineCall.createdBy : EngineCall → Option Handle
  | Studio_EventDescription_CreateInstance _ out => out
  | _ => none

/-- The handle `h` was returned by a successful create-instance call of the log. -/
def isCreated (log : List EngineCall) (h : Handle) : Prop :=
  some h ∈ log.map EngineCall.createdBy

/-- The log holds a release call on the handle `h`. -/
def isReleased (log : List EngineCall) (h : Handle) : Prop :=
  Studio_EventInstance_Release h ∈ log

/-- The handle `h` is live: created and not yet released. -/
def isLive (log : List EngineCall) (h : Handle) : Prop :=
  isCreated log h ∧ ¬ isReleased log h

instance (log : List EngineCall) (h : Handle) : Decidable (isCreated log h) := by
  unfold isCreated; infer_instance

instance (log : List EngineCall) (h : Handle) : Decidable (isReleased log h) := by
  unfold isReleased; infer_instance

instance (log : List EngineCall) (h : Handle) : Decidable (isLive log h) := by
  unfold isLive; infer_instance

/-- No engine call operates on an instance after the release call on it. -/
def NoUseAfterRelease (log : List EngineCall) : Prop :=
  ∀ pre post h, log = pre ++ Studio_EventInstance_Release h :: post →
    ∀ c ∈ post, c.target ≠ some h

/-- The bookkeeping invariant tying the instances the bridge holds to the engine
log.  `reg` is the registry; `held` lists the instances held in local variables
in the middle of an operation (none between operations), with their event path. -/
structure Inv (reg : Registry) (held : List (String × Handle)) (w : World) : Prop where
  keys_nodup : reg.keys.Nodup
  handles_nodup : (reg ++ held).handles.Nodup
  live : ∀ h, h ∈ (reg ++ held).handles ↔ isLive w.log h
  fresh : ∀ h, isCreated w.log h → h < w.next
  used : ∀ c ∈ w.log, ∀ h, c.target = some h → isCreated w.log h
  once : ∀ h, w.log.count (Studio_EventInstance_Release h) ≤ 1
  no_use_after : NoUseAfterRelease w.log
  owner : ∀ k h, (k, h) ∈ reg ++ held →
    Studio_EventDescription_CreateInstance k (some h) ∈ w.log
  path_unique : ∀ h p q, Studio_EventDescription_CreateInstance p (some h) ∈ w.log →
    Studio_EventDescription_CreateInstance q (some h) ∈ w.log → p = q

/-- Between operations the Windows bridge holds its instances in the registry only. -/
def FmodBridge.Wf (b : FmodBridge) : Prop := Inv b.event_instances_ [] b.world

/-- Between operations the Android binding holds its instances in the registry only. -/
def FmodJni.Wf (j : FmodJni) : Prop := Inv j.eventInstances [] j.world

/-- The handle `h` was returned by a successful create-instance call for the event `key`. -/
def isCreatedFor (log : List EngineCall) (key : String) (h : Handle) : Prop :=
  Studio_EventDescription_CreateInstance key (some h) ∈ log

instance (log : List EngineCall) (key : String) (h : Handle) :
    Decidable (isCreatedFor log key h) := by
  unfold isCreatedFor; infer_instance

/-- The engine behaviour in which every call succeeds, every looked-up pointer
is non-null and every playback-state query reports `state`. -/
def Env.good (state : FMOD_STUDIO_PLAYBACK_STATE) : Env :=
  fun _ => { ok := true, state := state, nonNull := true }

/-- The engine behaviour that differs from `Env.good state` only in that the
call number `n` (counted from 0) fails. -/
def Env.failAt (n : Nat) (state : FMOD_STUDIO_PLAYBACK_STATE) : Env :=
  fun i => { ok := decide (i ≠ n), state := state, nonNull := true }

/-- The Windows bridge after a successful `Initialize` on a fresh engine. -/
def FmodBridge.ready : FmodBridge :=
  FmodBridge.new.step (Env.good FMOD_STUDIO_PLAYBACK_PLAYING) BridgeOp.Initialize

/-- The Android binding after a successful `nativeInitialize` on a fresh engine. -/
def FmodJni.ready : FmodJni :=
  (FmodJni.new.nativeInitialize (Env.good FMOD_STUDIO_PLAYBACK_PLAYING)).2

/-- Every stop call of the list uses the immediate mode. -/
def OnlyImmediateStops (calls : List EngineCall) : Prop :=
  ∀ h m, Studio_EventInstance_Stop h m ∈ calls → m = FMOD_STUDIO_STOP_IMMEDIATE

/-- For every entry of the registry, in order: an immediate stop of the stored
instance followed by its release. -/
def stopReleasePairs : Registry → List EngineCall
  | [] => []
  | (_, h) :: rest =>
      Studio_EventInstance_Stop h FMOD_STUDIO_STOP_IMMEDIATE ::
        Studio_EventInstance_Release h :: stopReleasePairs rest

/-- The release call on the engine system, when the pointer is non-null. -/
def systemReleaseCall : Option Handle → List EngineCall
  | some sys => [Studio_System_Release sys]
  | none => []

/-! ## Windows: the method-channel handler of `fmod_flutter_plugin.cpp` -/

/-- A C `double`, carried as its IEEE-754 bit pattern. -/
abbrev F64 := Nat

/-- The variant `flutter::EncodableValue` of the Flutter C++ client wrapper, in
which method-channel arguments and results travel. -/
inductive EncodableValue where
  | null
  | bool (b : Bool)
  | int32 (i : Int)
  | int64 (i : Int)
  | double (d : F64)
  | string (s : String)
  | uint8List (l : List Nat)
  | int32List (l : List Int)
  | int64List (l : List Int)
  | doubleList (l : List F64)
  | list (l : List EncodableValue)
  | map (m : List (EncodableValue × EncodableValue))
  | custom
  | floatList (l : List F32)

/-- The container `flutter::EncodableMap`, as its entries. -/
abbrev EncodableMap := List (EncodableValue × EncodableValue)

/-- The container `flutter::EncodableList`. -/
abbrev EncodableList := List EncodableValue

/-- `std::get_if<flutter::EncodableMap>`. -/
def EncodableValue.getMap : EncodableValue → Option EncodableMap
  | .map m => some m
  | _ => none

/-- `std::get_if<flutter::EncodableList>`. -/
def EncodableValue.getList : EncodableValue → Option EncodableList
  | .list l => some l
  | _ => none

/-- `std::get_if<std::string>`. -/
def EncodableValue.getString : EncodableValue → Option String
  | .string s => some s
  | _ => none

/-- `std::get_if<bool>`. -/
def EncodableValue.getBool : EncodableValue → Option Bool
  | .bool b => some b
  | _ => none

/-- `std::get_if<double>`. -/
def EncodableValue.getDouble : EncodableValue → Option F64
  | .double d => some d
  | _ => none

/-- Lookup `args->find(flutter::EncodableValue(key))` for a string key: the value
of the entry whose key is that string, or `none` for `end()`. -/
def EncodableMap.find (key : String) : EncodableMap → Option EncodableValue
  | [] => none
  | (.string s, v) :: rest => if s = key then some v else EncodableMap.find key rest
  | (_, _) :: rest => EncodableMap.find key rest

/-- The call `flutter::MethodCall`: the method name and `arguments()`, a pointer
that is null when the call carries no arguments. -/
structure MethodCall where
  method_name : String
  arguments : Option EncodableValue

/-- What the handler answers through `flutter::MethodResult`: `Success()` without
or with a value, `Error(code, message)`, or `NotImplemented()`. -/
inductive Reply where
  | Success (value : Option EncodableValue)
  | Error (error_code error_message : String)
  | NotImplemented

/-- The reply is the `INVALID_ARGS` error. -/
def Reply.isInvalidArgs : Reply → Bool
  | .Error code _ => decide (code = "INVALID_ARGS")
  | _ => false

/-- What the handler takes from its host: the file system seen by
`ResolveAssetPath` and the conversion `static_cast<float>` of a `double`. -/
structure Host where
  /-- The path `GetExecutableDir() / "data" / "flutter_assets" / asset_path`. -/
  flutterAsset : String → String
  /-- `std::filesystem::exists`. -/
  fileExists : String → Bool
  /-- `static_cast<float>`. -/
  toFloat : F64 → F32

/-- `ResolveAssetPath`. -/
def ResolveAssetPath (host : Host) (asset_path : String) : String :=
  let resolved := host.flutterAsset asset_path
  if host.fileExists resolved = true then resolved
  -- Fallback: return original path
  else asset_path

/-- The plugin object: its bridge, and a record of the bridge member functions
the handler has called so far, oldest first (not part of the C++ object). -/
structure FmodFlutterPlugin where
  fmod_bridge_ : FmodBridge
  invoked : List BridgeOp

namespace FmodFlutterPlugin

/-- Record a call of a bridge member function that left the bridge in `b`. -/
def called (p : FmodFlutterPlugin) (op : BridgeOp) (b : FmodBridge) : FmodFlutterPlugin :=
  { fmod_bridge_ := b, invoked := p.invoked ++ [op] }

/-- The reply `result->Error("INVALID_ARGS", message)`; nothing else happens. -/
def invalidArgs (p : FmodFlutterPlugin) (message : String) : Reply × FmodFlutterPlugin :=
  (Reply.Error "INVALID_ARGS" message, p)

/-- The loop `for (const auto &bank : *banks)` of the `loadBanks` branch, from
the value `all_loaded` has so far. -/
def loadBanksLoop (host : Host) (env : Env) :
    EncodableList → Bool → FmodFlutterPlugin → Bool × FmodFlutterPlugin
  | [], all_loaded, p => (all_loaded, p)
  | bank :: rest, all_loaded, p =>
    match bank.getString with
    | some bank_path =>
      let resolved := ResolveAssetPath host bank_path
      let r := p.fmod_bridge_.LoadBank env resolved
      loadBanksLoop host env rest (if r.1 = false then false else all_loaded)
        (p.called (BridgeOp.LoadBank resolved) r.2)
    | none => loadBanksLoop host env rest all_loaded p

/-- `FmodFlutterPlugin::HandleMethodCall`: the reply and the plugin afterwards,
or `none` when the call does not return because `Initialize` ended the process.
Every branch but `initialize` returns. -/
def HandleMethodCall (host : Host) (env : Env) (method_call : MethodCall)
    (p : FmodFlutterPlugin) : Option (Reply × FmodFlutterPlugin) :=
  let method_name := method_call.method_name
  let args := method_call.arguments.bind EncodableValue.getMap
  if method_name = "initialize" then
    match p.fmod_bridge_.Initialize env with
    | some r =>
      some (Reply.Success (some (EncodableValue.bool r.1)), p.called BridgeOp.Initialize r.2)
    | none => none
  else some <|
  if method_name = "loadBanks" then
    match args with
    | some args =>
      match (EncodableMap.find "banks" args).bind EncodableValue.getList with
      | some banks =>
        let r := loadBanksLoop host env banks true p
        (Reply.Success (some (EncodableValue.bool r.1)), r.2)
      | none => p.invalidArgs "Banks list required"
    | none => p.invalidArgs "Banks list required"
  else if method_name = "playEvent" then
    match args with
    | some args =>
      match (EncodableMap.find "path" args).bind EncodableValue.getString with
      | some path =>
        (Reply.Success none,
          p.called (BridgeOp.PlayEvent path) (p.fmod_bridge_.PlayEvent env path).2)
      | none => p.invalidArgs "Event path required"
    | none => p.invalidArgs "Event path required"
  else if method_name = "stopEvent" then
    match args with
    | some args =>
      match (EncodableMap.find "path" args).bind EncodableValue.getString with
      | some path =>
        (Reply.Success none,
          p.called (BridgeOp.StopEvent path) (p.fmod_bridge_.StopEvent env path).2)
      | none => p.invalidArgs "Event path required"
    | none => p.invalidArgs "Event path required"
  else if method_name = "setParameter" then
    match args with
    | some args =>
      match EncodableMap.find "path" args, EncodableMap.find "parameter" args,
          EncodableMap.find "value" args with
      | some path_it, some param_it, some value_it =>
        match path_it.getString, param_it.getString, value_it.getDouble with
        | some path, some param, some value =>
          (Reply.Success none,
            p.called (BridgeOp.SetParameter path param (host.toFloat value))
              (p.fmod_bridge_.SetParameter env path param (host.toFloat value)).2)
        | _, _, _ => p.invalidArgs "Path, parameter, and value required"
      | _, _, _ => p.invalidArgs "Path, parameter, and value required"
    | none => p.invalidArgs "Path, parameter, and value required"
  else if method_name = "setPaused" then
    match args with
    | some args =>
      match EncodableMap.find "path" args, EncodableMap.find "paused" args with
      | some path_it, some paused_it =>
        match path_it.getString, paused_it.getBool with
        | some path, some paused =>
          (Reply.Success none,
            p.called (BridgeOp.SetPaused path paused)
              (p.fmod_bridge_.SetPaused env path paused).2)
        | _, _ => p.invalidArgs "Path and paused state required"
      | _, _ => p.invalidArgs "Path and paused state required"
    | none => p.invalidArgs "Path and paused state required"
  else if method_name = "setVolume" then
    match args with
    | some args =>
      match EncodableMap.find "path" args, EncodableMap.find "volume" args with
      | some path_it, some volume_it =>
        match path_it.getString, volume_it.getDouble with
        | some path, some volume =>
          (Reply.Success none,
            p.called (BridgeOp.SetVolume path (host.toFloat volume))
              (p.fmod_bridge_.SetVolume env path (host.toFloat volume)).2)
        | _, _ => p.invalidArgs "Path and volume required"
      | _, _ => p.invalidArgs "Path and volume required"
    | none => p.invalidArgs "Path and volume required"
  else if method_name = "setMasterPaused" then
    match args with
    | some args =>
      match (EncodableMap.find "paused" args).bind EncodableValue.getBool with
      | some paused =>
        (Reply.Success none,
          p.called (BridgeOp.SetMasterPaused paused)
            (p.fmod_bridge_.SetMasterPaused env paused).2)
      | none => p.invalidArgs "Paused state required"
    | none => p.invalidArgs "Paused state required"
  else if method_name = "update" then
    (Reply.Success none, p.called BridgeOp.Update p.fmod_bridge_.Update)
  else if method_name = "release" then
    (Reply.Success none, p.called BridgeOp.Release p.fmod_bridge_.Release)
  else
    (Reply.NotImplemented, p)

end FmodFlutterPlugin

/-- A host without the Flutter asset directory: no resolved path exists, so every
asset path is handed to the bridge as it is. -/
def Host.plain : Host :=
  { flutterAsset := fun asset_path => "data/flutter_assets/" ++ asset_path,
    fileExists := fun _ => false,
    toFloat := fun d => d }

/-- The kinds of value an argument of the boundary can be required to have. -/
inductive ArgKind where
  | string
  | bool
  | double
  | list
  | stringList
  deriving DecidableEq, Repr

/-- The value has the required kind; `stringList` asks for a list whose elements
are all strings, `list` for any list. -/
def EncodableValue.hasKind : ArgKind → EncodableValue → Bool
  | .string, .string _ => true
  | .bool, .bool _ => true
  | .double, .double _ => true
  | .list, .list _ => true
  | .stringList, .list l => l.all (fun v => v.getString.isSome)
  | _, _ => false

/-- The seven methods of the boundary that take arguments. -/
def boundaryMethods : List String :=
  ["loadBanks", "playEvent", "stopEvent", "setParameter", "setPaused", "setVolume",
   "setMasterPaused"]

/-- The keys a method requires and the kind of value under each, with the kind
asked of the `banks` value left open. -/
def requiredArgs (banks : ArgKind) (method : String) : List (String × ArgKind) :=
  if method = "loadBanks" then [("banks", banks)]
  else if method = "playEvent" then [("path", ArgKind.string)]
  else if method = "stopEvent" then [("path", ArgKind.string)]
  else if method = "setParameter" then
    [("path", ArgKind.string), ("parameter", ArgKind.string), ("value", ArgKind.double)]
  else if method = "setPaused" then [("path", ArgKind.string), ("paused", ArgKind.bool)]
  else if method = "setVolume" then [("path", ArgKind.string), ("volume", ArgKind.double)]
  else if method = "setMasterPaused" then [("paused", ArgKind.bool)]
  else []

/-- The arguments are well formed for a list of requirements: they are a map,
every required key is present and its value has the required kind. -/
def wellFormedArgs (required : List (String × ArgKind)) : Option EncodableValue → Bool
  | some (.map m) =>
      required.all (fun r =>
        match EncodableMap.find r.1 m with
        | some v => v.hasKind r.2
        | none => false)
  | _ => false

/-- What the `loadBanks` row of the interface asks for, in the spec's words: every
path of the list is attempted once, in list order, also after a failure; the
results of the attempts are collected in that order. -/
def loadBanksInOrder (host : Host) (env : Env) :
    List String → FmodBridge → List Bool × FmodBridge
  | [], b => ([], b)
  | path :: rest, b =>
    let r := b.LoadBank env (ResolveAssetPath host path)
    let rs := loadBanksInOrder host env rest r.2
    (r.1 :: rs.1, rs.2)

/-- One operation of the Windows bridge as the program runs it: `none` when
`Initialize` ends the process. -/
def FmodBridge.stepOrAbort (env : Env) (b : FmodBridge) : BridgeOp → Option FmodBridge
  | .Initialize => (b.Initialize env).map Prod.snd
  | op => some (b.step env op)

/-- A sequence of operations as the program runs it, first to last: the state
after the last one, or `none` when an `Initialize` on the way ended the process. -/
def FmodBridge.exec (env : Env) : List BridgeOp → FmodBridge → Option FmodBridge
  | [], b => some b
  | op :: ops, b => (b.stepOrAbort env op).bind (FmodBridge.exec env ops)

/-! ## Registry lemmas -/

theorem registry_find_some_mem {key : String} {h : Handle} :
    ∀ {m : Registry}, m.find key = some h → (key, h) ∈ m
  | [], hf => by simp [Registry.find] at hf
  | (k, v) :: rest, hf => by
      simp only [Registry.find] at hf
      split at hf
      · next hk =>
        simp only [Option.some.injEq] at hf
        subst hk; subst hf; exact List.mem_cons_self _ _
      · exact List.mem_cons_of_mem _ (registry_find_some_mem hf)

theorem registry_find_none_iff {key : String} :
    ∀ {m : Registry}, m.find key = none ↔ key ∉ m.keys
  | [] => by simp [Registry.find, Registry.keys]
  | (k, v) :: rest => by
      have ih := @registry_find_none_iff key rest
      simp only [Registry.find, Registry.keys, List.map_cons, List.mem_cons, not_or] at ih ⊢
      split
      · next hk => simp [hk]
      · next hk =>
        rw [ih]
        constructor
        · intro h; exact ⟨fun e => hk e.symm, h⟩
        · intro h; exact h.2

theorem registry_mem_find {key : String} {h : Handle} :
    ∀ {m : Registry}, m.keys.Nodup → (key, h) ∈ m → m.find key = some h
  | [], _, hm => by simp at hm
  | (k, v) :: rest, hn, hm => by
      simp only [Registry.keys, List.map_cons, List.nodup_cons] at hn
      simp only [Registry.find]
      rcases List.mem_cons.1 hm with heq | hmem
      · simp only [Prod.mk.injEq] at heq
        simp [heq.1, heq.2]
      · split
        · next hk =>
          exfalso
          apply hn.1
          rw [hk]
          exact List.mem_map.2 ⟨(key, h), hmem, rfl⟩
        · exact registry_mem_find hn.2 hmem

theorem registry_erase_sublist (key : String) :
    ∀ (m : Registry), List.Sublist (m.erase key) m
  | [] => by simp [Registry.erase]
  | (k, v) :: rest => by
      simp only [Registry.erase]
      split
      · exact List.sublist_cons_self _ _
      · exact (registry_erase_sublist key rest).cons₂ _

theorem registry_mem_erase {key : String} {p : String × Handle} :
    ∀ {m : Registry}, m.keys.Nodup → (p ∈ m.erase key ↔ p ∈ m ∧ p.1 ≠ key)
  | [], _ => by simp [Registry.erase]
  | (k, v) :: rest, hn => by
      simp only [Registry.keys, List.map_cons, List.nodup_cons] at hn
      have ih := @registry_mem_erase key p rest hn.2
      simp only [Registry.erase]
      split
      · next hk =>
        subst hk
        constructor
        · intro hp
          refine ⟨List.mem_cons_of_mem _ hp, fun e => hn.1 ?_⟩
          rw [← e]
          exact List.mem_map.2 ⟨p, hp, rfl⟩
        · rintro ⟨hp, hne⟩
          rcases List.mem_cons.1 hp with heq | hmem
          · exact absurd (by rw [heq]) hne
          · exact hmem
      · next hk =>
        simp only [List.mem_cons, ih]
        constructor
        · rintro (heq | ⟨hm, hne⟩)
          · exact ⟨Or.inl heq, by rw [heq]; exact hk⟩
          · exact ⟨Or.inr hm, hne⟩
        · rintro ⟨heq | hm, hne⟩
          · exact Or.inl heq
          · exact Or.inr ⟨hm, hne⟩

theorem registry_find_erase_self {key : String} {m : Registry} (hn : m.keys.Nodup) :
    (m.erase key).find key = none := by
  rw [registry_find_none_iff]
  intro hmem
  obtain ⟨p, hp, hk⟩ := List.mem_map.1 hmem
  exact ((registry_mem_erase hn).1 hp).2 hk

theorem registry_find_erase_other {key k : String} (hne : k ≠ key) :
    ∀ (m : Registry), (m.erase key).find k = m.find k
  | [] => by simp [Registry.erase]
  | (a, v) :: rest => by
      simp only [Registry.erase]
      split
      · next hk =>
        subst hk
        simp only [Registry.find]
        rw [if_neg (fun e => hne e.symm)]
      · next hk =>
        simp only [Registry.find]
        rw [registry_find_erase_other hne rest]

theorem registry_assign_of_find_none {key : String} {h : Handle} :
    ∀ {m : Registry}, m.find key = none → m.assign key h = m ++ [(key, h)]
  | [], _ => by simp [Registry.assign]
  | (k, v) :: rest, hf => by
      simp only [Registry.find] at hf
      split at hf
      · simp at hf
      · next hk =>
        simp only [Registry.assign, if_neg hk, List.cons_append]
        rw [registry_assign_of_find_none hf]

theorem registry_find_assign_self {key : String} {h : Handle} :
    ∀ (m : Registry), (m.assign key h).find key = some h
  | [] => by simp [Registry.assign, Registry.find]
  | (k, v) :: rest => by
      simp only [Registry.assign]
      split
      · next hk => simp [Registry.find, hk]
      · next hk => simp only [Registry.find, if_neg hk]; exact registry_find_assign_self rest

theorem registry_find_assign_other {key k : String} {h : Handle} (hne : k ≠ key) :
    ∀ (m : Registry), (m.assign key h).find k = m.find k
  | [] => by simp only [Registry.assign, Registry.find, if_neg (fun e => hne (Eq.symm e))]
  | (a, v) :: rest => by
      simp only [Registry.assign]
      split
      · next hk =>
        subst hk
        simp only [Registry.find, if_neg (fun e => hne (Eq.symm e))]
      · next hk =>
        simp only [Registry.find]
        rw [registry_find_assign_other hne rest]


theorem registry_perm_erase {key : String} {h : Handle} :
    ∀ {m : Registry}, m.find key = some h → List.Perm m ((key, h) :: m.erase key)
  | [], hf => by simp [Registry.find] at hf
  | (k, v) :: rest, hf => by
      simp only [Registry.find] at hf
      simp only [Registry.erase]
      split at hf
      · next hk =>
        simp only [Option.some.injEq] at hf
        subst hk; subst hf
        simp
      · next hk =>
        rw [if_neg hk]
        exact ((registry_perm_erase hf).cons _).trans (List.Perm.swap _ _ _)

/-! ## Log lemmas -/

theorem isCreated_append_one (log : List EngineCall) (c : EngineCall) (h : Handle) :
    isCreated (log ++ [c]) h ↔ isCreated log h ∨ c.createdBy = some h := by
  simp only [isCreated, List.map_append, List.map_cons, List.map_nil, List.mem_append,
    List.mem_singleton]
  constructor
  · rintro (h1 | h1)
    · exact Or.inl h1
    · exact Or.inr h1.symm
  · rintro (h1 | h1)
    · exact Or.inl h1
    · exact Or.inr h1.symm

theorem isReleased_append_one (log : List EngineCall) (c : EngineCall) (h : Handle) :
    isReleased (log ++ [c]) h ↔ isReleased log h ∨ c = Studio_EventInstance_Release h := by
  simp only [isReleased, List.mem_append, List.mem_singleton]
  constructor
  · rintro (h1 | h1)
    · exact Or.inl h1
    · exact Or.inr h1.symm
  · rintro (h1 | h1)
    · exact Or.inl h1
    · exact Or.inr h1.symm

theorem noUseAfterRelease_append_one {log : List EngineCall} {c : EngineCall}
    (hl : NoUseAfterRelease log) (hc : ∀ h, c.target = some h → ¬ isReleased log h) :
    NoUseAfterRelease (log ++ [c]) := by
  intro pre post h heq x hx
  rcases List.eq_nil_or_concat post with hnil | ⟨post1, c1, hpost⟩
  · subst hnil; simp at hx
  · subst hpost
    rw [List.concat_eq_append] at heq hx
    have heq2 : log ++ [c] = (pre ++ Studio_EventInstance_Release h :: post1) ++ [c1] := by
      rw [heq]; simp
    have hlen : log.length = (pre ++ Studio_EventInstance_Release h :: post1).length := by
      have := congrArg List.length heq2
      simp only [List.length_append, List.length_singleton] at this
      simpa using this
    have hinj := List.append_inj heq2 hlen
    rcases List.mem_append.1 hx with hx1 | hx1
    · exact hl pre post1 h hinj.1 x hx1
    · intro ht
      have hxc : x = c := by
        have h2 := hinj.2
        simp only [List.cons.injEq, and_true] at h2
        rw [List.mem_singleton] at hx1
        rw [hx1, h2]
      subst hxc
      apply hc h ht
      unfold isReleased
      rw [hinj.1]
      simp

theorem count_release_append_one (log : List EngineCall) (c : EngineCall) (h : Handle) :
    (log ++ [c]).count (Studio_EventInstance_Release h)
      = log.count (Studio_EventInstance_Release h)
        + (if c = Studio_EventInstance_Release h then 1 else 0) := by
  rw [List.count_append]
  congr 1
  by_cases hc : c = Studio_EventInstance_Release h
  · subst hc; simp
  · rw [if_neg hc]
    exact List.count_eq_zero_of_not_mem (by simpa using fun e => hc e.symm)

/-! ## Steps that preserve the invariant -/

theorem inv_new : Inv [] [] { log := [], next := 0 } where
  keys_nodup := by simp [Registry.keys]
  handles_nodup := by simp [Registry.handles]
  live := by intro h; simp [Registry.handles, isLive, isCreated]
  fresh := by intro h hc; simp [isCreated] at hc
  used := by intro c hc; simp at hc
  once := by intro h; simp
  no_use_after := by
    intro pre post h heq
    simp at heq
  owner := by intro k h hm; simp at hm
  path_unique := by intro h p q hp; simp at hp

/-- An engine call that creates no instance and releases none, on an instance
the bridge holds (or on no instance), keeps the invariant. -/
theorem inv_emit {reg : Registry} {held : List (String × Handle)} {w : World}
    (c : EngineCall) (hi : Inv reg held w) (hc : c.createdBy = none)
    (hr : ∀ h, c ≠ Studio_EventInstance_Release h)
    (ht : ∀ h, c.target = some h → h ∈ (reg ++ held).handles) :
    Inv reg held (w.emit c) where
  keys_nodup := hi.keys_nodup
  handles_nodup := hi.handles_nodup
  live := by
    intro h
    rw [hi.live h]
    simp only [World.emit, isLive, isCreated_append_one, isReleased_append_one, hc, hr,
      or_false]
    simp
  fresh := by
    intro h hcr
    simp only [World.emit, isCreated_append_one, hc, or_false] at hcr
    simpa using hi.fresh h (by simpa using hcr)
  used := by
    intro c1 hc1 h htg
    simp only [World.emit, List.mem_append, List.mem_singleton] at hc1
    simp only [World.emit, isCreated_append_one]
    left
    rcases hc1 with hc1 | hc1
    · exact hi.used c1 hc1 h htg
    · subst hc1
      exact ((hi.live h).1 (ht h htg)).1
  once := by
    intro h
    simp only [World.emit, count_release_append_one, if_neg (hr h), Nat.add_zero]
    exact hi.once h
  no_use_after := by
    apply noUseAfterRelease_append_one hi.no_use_after
    intro h htg
    exact ((hi.live h).1 (ht h htg)).2
  owner := by
    intro k h hm
    simp only [World.emit, List.mem_append]
    exact Or.inl (hi.owner k h hm)
  path_unique := by
    intro h p q hp hq
    simp only [World.emit, List.mem_append, List.mem_singleton] at hp hq
    rcases hp with hp | hp
    · rcases hq with hq | hq
      · exact hi.path_unique h p q hp hq
      · rw [← hq] at hc; simp [EngineCall.createdBy] at hc
    · rw [← hp] at hc; simp [EngineCall.createdBy] at hc

/-- Handing out a handle without recording an instance keeps the invariant. -/
theorem inv_bump {reg : Registry} {held : List (String × Handle)} {w : World}
    (hi : Inv reg held w) : Inv reg held { log := w.log, next := w.next + 1 } where
  keys_nodup := hi.keys_nodup
  handles_nodup := hi.handles_nodup
  live := hi.live
  fresh := fun h hc => Nat.lt_succ_of_lt (hi.fresh h hc)
  used := hi.used
  once := hi.once
  no_use_after := hi.no_use_after
  owner := hi.owner
  path_unique := hi.path_unique

/-- A successful system-level creation keeps the invariant. -/
theorem inv_emitAlloc {reg : Registry} {held : List (String × Handle)} {w : World}
    (c : EngineCall) (hi : Inv reg held w) (hc : c.createdBy = none)
    (ht : c.target = none) : Inv reg held (w.emitAlloc c) :=
  inv_bump (inv_emit c hi hc
    (by intro h e; rw [e] at ht; simp [EngineCall.target] at ht)
    (by intro h e; rw [e] at ht; simp at ht))

/-- No call of the log operates on the handle that the engine hands out next. -/
theorem inv_next_unused {reg : Registry} {held : List (String × Handle)} {w : World}
    (hi : Inv reg held w) : ¬ isCreated w.log w.next ∧ ¬ isReleased w.log w.next ∧
      w.next ∉ (reg ++ held).handles := by
  have h1 : ¬ isCreated w.log w.next := fun hc => Nat.lt_irrefl _ (hi.fresh _ hc)
  refine ⟨h1, ?_, ?_⟩
  · intro hr
    exact h1 (hi.used _ hr _ rfl)
  · intro hm
    exact h1 ((hi.live _).1 hm).1

/-- A successful create-instance call: the new instance is held locally. -/
theorem inv_create {reg : Registry} {w : World} (key : String) (hi : Inv reg [] w) :
    Inv reg [(key, w.next)]
      (w.emitAlloc (Studio_EventDescription_CreateInstance key (some w.next))) where
  keys_nodup := hi.keys_nodup
  handles_nodup := by
    have hn := (inv_next_unused hi).2.2
    have h0 := hi.handles_nodup
    simp only [Registry.handles, List.append_nil, List.map_append, List.map_cons,
      List.map_nil] at hn h0 ⊢
    exact List.Nodup.append h0 (List.nodup_singleton _) (by simpa using hn)
  live := by
    intro h
    have hn := inv_next_unused hi
    have hl := hi.live h
    simp only [Registry.handles, List.append_nil, List.map_append, List.map_cons,
      List.map_nil, List.mem_append, List.mem_singleton] at hl ⊢
    simp only [World.emitAlloc, isLive, isCreated_append_one, isReleased_append_one,
      EngineCall.createdBy, Option.some.injEq, reduceCtorEq, or_false]
    rw [hl]
    constructor
    · rintro (h1 | h1)
      · exact ⟨Or.inl h1.1, h1.2⟩
      · subst h1; exact ⟨Or.inr rfl, hn.2.1⟩
    · rintro ⟨h1 | h1, h2⟩
      · exact Or.inl ⟨h1, h2⟩
      · exact Or.inr h1.symm
  fresh := by
    intro h hcr
    simp only [World.emitAlloc, isCreated_append_one, EngineCall.createdBy,
      Option.some.injEq] at hcr
    rcases hcr with hcr | hcr
    · exact Nat.lt_succ_of_lt (hi.fresh h hcr)
    · subst hcr; exact Nat.lt_succ_self _
  used := by
    intro c1 hc1 h htg
    simp only [World.emitAlloc, List.mem_append, List.mem_singleton] at hc1
    simp only [World.emitAlloc, isCreated_append_one]
    rcases hc1 with hc1 | hc1
    · exact Or.inl (hi.used c1 hc1 h htg)
    · subst hc1; simp [EngineCall.target] at htg
  once := by
    intro h
    simp only [World.emitAlloc, count_release_append_one, reduceCtorEq, if_false,
      Nat.add_zero]
    exact hi.once h
  no_use_after := by
    apply noUseAfterRelease_append_one hi.no_use_after
    intro h htg
    simp [EngineCall.target] at htg
  owner := by
    intro k h hm
    simp only [List.append_nil, List.mem_append, List.mem_singleton, Prod.mk.injEq] at hm
    simp only [World.emitAlloc, List.mem_append, List.mem_singleton]
    rcases hm with hm | ⟨hk, hh⟩
    · exact Or.inl (hi.owner k h (by simpa using hm))
    · subst hk; subst hh; exact Or.inr rfl
  path_unique := by
    intro h p q hp hq
    have hn := (inv_next_unused hi).1
    simp only [World.emitAlloc, List.mem_append, List.mem_singleton,
      EngineCall.Studio_EventDescription_CreateInstance.injEq, Option.some.injEq] at hp hq
    have hcr : ∀ r, Studio_EventDescription_CreateInstance r (some h) ∈ w.log →
        isCreated w.log h := by
      intro r hr
      exact List.mem_map.2 ⟨_, hr, rfl⟩
    rcases hp with hp | ⟨hp1, hp2⟩
    · rcases hq with hq | ⟨hq1, hq2⟩
      · exact hi.path_unique h p q hp hq
      · subst hq2; exact absurd (hcr p hp) hn
    · rcases hq with hq | ⟨hq1, hq2⟩
      · subst hp2; exact absurd (hcr q hq) hn
      · rw [hp1, hq1]

/-- Releasing the locally held instance. -/
theorem inv_release_held {reg : Registry} {w : World} {key : String} {inst : Handle}
    (hi : Inv reg [(key, inst)] w) :
    Inv reg [] (w.emit (Studio_EventInstance_Release inst)) where
  keys_nodup := hi.keys_nodup
  handles_nodup := by
    have h0 := hi.handles_nodup
    simp only [Registry.handles, List.map_append, List.append_nil] at h0 ⊢
    exact (List.nodup_append.1 h0).1
  live := by
    intro h
    have hl := hi.live h
    have h0 := hi.handles_nodup
    simp only [Registry.handles, List.map_append, List.map_cons, List.map_nil,
      List.mem_append, List.mem_singleton, List.append_nil] at hl h0 ⊢
    have hdis : inst ∉ reg.map Prod.snd := by
      intro hm
      exact (List.nodup_append.1 h0).2.2 hm (List.mem_singleton_self _) 
    simp only [World.emit, isLive, isCreated_append_one, isReleased_append_one,
      EngineCall.createdBy, reduceCtorEq, or_false,
      EngineCall.Studio_EventInstance_Release.injEq]
    constructor
    · intro hm
      have h1 := hl.1 (Or.inl hm)
      refine ⟨h1.1, ?_⟩
      rintro (h2 | h2)
      · exact h1.2 h2
      · subst h2; exact hdis hm
    · rintro ⟨h1, h2⟩
      rcases hl.2 ⟨h1, fun h3 => h2 (Or.inl h3)⟩ with h3 | h3
      · exact h3
      · exact absurd h3.symm (fun e => h2 (Or.inr e))
  fresh := by
    intro h hcr
    simp only [World.emit, isCreated_append_one, EngineCall.createdBy, reduceCtorEq,
      or_false] at hcr
    exact hi.fresh h hcr
  used := by
    intro c1 hc1 h htg
    simp only [World.emit, List.mem_append, List.mem_singleton] at hc1
    simp only [World.emit, isCreated_append_one]
    left
    rcases hc1 with hc1 | hc1
    · exact hi.used c1 hc1 h htg
    · subst hc1
      simp only [EngineCall.target, Option.some.injEq] at htg
      subst htg
      exact ((hi.live _).1 (by simp [Registry.handles])).1
  once := by
    intro h
    simp only [World.emit, count_release_append_one,
      EngineCall.Studio_EventInstance_Release.injEq]
    by_cases he : inst = h
    · subst he
      have hnr : ¬ isReleased w.log inst := ((hi.live _).1 (by simp [Registry.handles])).2
      rw [List.count_eq_zero_of_not_mem hnr]
      simp
    · rw [if_neg he]
      exact hi.once h
  no_use_after := by
    apply noUseAfterRelease_append_one hi.no_use_after
    intro h htg
    simp only [EngineCall.target, Option.some.injEq] at htg
    subst htg
    exact ((hi.live _).1 (by simp [Registry.handles])).2
  owner := by
    intro k h hm
    simp only [World.emit, List.mem_append]
    exact Or.inl (hi.owner k h (by
      simp only [List.append_nil] at hm
      exact List.mem_append_left _ hm))
  path_unique := by
    intro h p q hp hq
    simp only [World.emit, List.mem_append, List.mem_singleton, reduceCtorEq,
      or_false] at hp hq
    exact hi.path_unique h p q hp hq

/-- Taking the entry of `key` out of the registry into a local variable. -/
theorem inv_take {reg : Registry} {w : World} {key : String} {inst : Handle}
    (hi : Inv reg [] w) (hf : reg.find key = some inst) :
    Inv (reg.erase key) [(key, inst)] w := by
  have hperm : List.Perm (reg.erase key ++ [(key, inst)]) (reg ++ []) := by
    rw [List.append_nil]
    exact (List.perm_append_comm.trans (registry_perm_erase hf).symm)
  exact
    { keys_nodup := (hi.keys_nodup).sublist ((registry_erase_sublist key reg).map _)
      handles_nodup := ((hperm.map Prod.snd).nodup_iff).2 hi.handles_nodup
      live := fun h => by
        rw [← hi.live h]
        exact (hperm.map Prod.snd).mem_iff
      fresh := hi.fresh
      used := hi.used
      once := hi.once
      no_use_after := hi.no_use_after
      owner := fun k h hm => hi.owner k h (hperm.mem_iff.1 hm)
      path_unique := hi.path_unique }

/-- Storing the locally held instance under a key that has no entry. -/
theorem inv_store {reg : Registry} {w : World} {key : String} {inst : Handle}
    (hi : Inv reg [(key, inst)] w) (hf : reg.find key = none) :
    Inv (reg.assign key inst) [] w := by
  rw [registry_assign_of_find_none hf]
  have hk : key ∉ reg.keys := registry_find_none_iff.1 hf
  exact
    { keys_nodup := by
        have h0 := hi.keys_nodup
        simp only [Registry.keys, List.map_append, List.map_cons, List.map_nil] at h0 hk ⊢
        exact List.Nodup.append h0 (List.nodup_singleton _) (by simpa using hk)
      handles_nodup := by simpa using hi.handles_nodup
      live := fun h => by
        rw [← hi.live h]; simp
      fresh := hi.fresh
      used := hi.used
      once := hi.once
      no_use_after := hi.no_use_after
      owner := fun k h hm => hi.owner k h (by simpa using hm)
      path_unique := hi.path_unique }

/-- The release loop empties the registry and keeps the invariant. -/
theorem inv_stopAndReleaseAll :
    ∀ (reg : Registry) (w : World), Inv reg [] w → Inv [] [] (stopAndReleaseAll reg w)
  | [], w, hi => by simpa [stopAndReleaseAll] using hi
  | (k, h) :: rest, w, hi => by
      simp only [stopAndReleaseAll]
      apply inv_stopAndReleaseAll rest
      have hf : Registry.find k ((k, h) :: rest) = some h := by simp [Registry.find]
      have h1 := inv_take hi hf
      simp only [Registry.erase, if_true] at h1
      have h2 := inv_emit (Studio_EventInstance_Stop h FMOD_STUDIO_STOP_IMMEDIATE) h1 rfl
        (by intro x; simp)
        (by intro x hx
            simp only [EngineCall.target, Option.some.injEq] at hx
            subst hx
            simp [Registry.handles])
      exact inv_release_held h2

/-- An engine call on no instance that creates none keeps the invariant. -/
theorem inv_emit_sys {reg : Registry} {held : List (String × Handle)} {w : World}
    (c : EngineCall) (hi : Inv reg held w) (hc : c.createdBy = none)
    (ht : c.target = none) : Inv reg held (w.emit c) :=
  inv_emit c hi hc
    (by intro h e; rw [e] at ht; simp [EngineCall.target] at ht)
    (by intro h e; rw [e] at ht; simp at ht)

/-- An engine call other than release on the locally held instance. -/
theorem inv_emit_held {reg : Registry} {w : World} {key : String} {inst : Handle}
    (c : EngineCall) (hi : Inv reg [(key, inst)] w) (hc : c.createdBy = none)
    (hr : ∀ h, c ≠ Studio_EventInstance_Release h) (ht : c.target = some inst) :
    Inv reg [(key, inst)] (w.emit c) :=
  inv_emit c hi hc hr (by
    intro h e
    rw [ht] at e
    simp only [Option.some.injEq] at e
    subst e
    simp [Registry.handles])

/-- An engine call other than release on an instance stored in the registry. -/
theorem inv_emit_stored {reg : Registry} {w : World} {key : String} {inst : Handle}
    (c : EngineCall) (hi : Inv reg [] w) (hf : reg.find key = some inst)
    (hc : c.createdBy = none)
    (hr : ∀ h, c ≠ Studio_EventInstance_Release h) (ht : c.target = some inst) :
    Inv reg [] (w.emit c) :=
  inv_emit c hi hc hr (by
    intro h e
    rw [ht] at e
    simp only [Option.some.injEq] at e
    subst e
    simp only [Registry.handles, List.append_nil]
    exact List.mem_map.2 ⟨_, registry_find_some_mem hf, rfl⟩)

/-! ## The Windows bridge keeps the invariant -/

theorem bridge_wf_Initialize_some (env : Env) (b : FmodBridge) (hi : b.Wf)
    (r : Bool × FmodBridge) (hr : b.Initialize env = some r) : r.2.Wf := by
  unfold FmodBridge.Wf at hi ⊢
  unfold FmodBridge.Initialize at hr
  simp only [] at hr
  split_ifs at hr <;>
    (injection hr with hr
     subst hr
     repeat' (first | exact hi | refine inv_emit_sys _ ?_ rfl rfl
                    | refine inv_emitAlloc _ ?_ rfl rfl))

theorem bridge_wf_Initialize (env : Env) (b : FmodBridge) (hi : b.Wf) :
    (b.step env BridgeOp.Initialize).Wf := by
  simp only [FmodBridge.step]
  split
  · next r hr => exact bridge_wf_Initialize_some env b hi r hr
  · exact hi

theorem bridge_wf_LoadBank (env : Env) (p : String) (b : FmodBridge) (hi : b.Wf) :
    (b.LoadBank env p).2.Wf := by
  unfold FmodBridge.Wf at hi ⊢
  unfold FmodBridge.LoadBank
  split
  · exact hi
  · simp only []
    split_ifs <;> exact inv_emit_sys _ hi rfl rfl

theorem bridge_wf_createInstance (env : Env) (k : String) (b : FmodBridge) (hi : b.Wf)
    (hf : b.event_instances_.find k = none) :
    (FmodBridge.PlayEvent.createInstance env k b).2.Wf := by
  unfold FmodBridge.Wf at hi ⊢
  unfold FmodBridge.PlayEvent.createInstance
  simp only []
  split_ifs
  · exact inv_emit_sys _ hi rfl rfl
  · exact inv_release_held (inv_emit_held _ (inv_create k hi) rfl (by intro h; simp) rfl)
  · exact inv_store (inv_emit_held _ (inv_create k hi) rfl (by intro h; simp) rfl) hf

theorem bridge_wf_PlayEvent (env : Env) (k : String) (b : FmodBridge) (hi : b.Wf) :
    (b.PlayEvent env k).2.Wf := by
  unfold FmodBridge.PlayEvent
  split
  · exact hi
  · next sys hsys =>
    simp only []
    split
    · exact inv_emit_sys _ hi rfl rfl
    · have h1 : Inv b.event_instances_ [] (b.world.emit (Studio_System_GetEvent sys k)) :=
        inv_emit_sys _ hi rfl rfl
      split
      · next inst hf =>
        have h2 := inv_emit_stored (Studio_EventInstance_GetPlaybackState inst) h1 hf rfl
          (by intro h; simp) rfl
        split
        · exact inv_emit_stored _ (inv_emit_stored _ h2 hf rfl (by intro h; simp) rfl) hf
            rfl (by intro h; simp) rfl
        · apply bridge_wf_createInstance
          · exact inv_release_held (inv_take h2 hf)
          · exact registry_find_erase_self hi.keys_nodup
      · next hf =>
        exact bridge_wf_createInstance env k _ h1 hf

theorem bridge_wf_StopEvent (env : Env) (k : String) (b : FmodBridge) (hi : b.Wf) :
    (b.StopEvent env k).2.Wf := by
  unfold FmodBridge.StopEvent
  split
  · exact hi
  · next inst hf =>
    have h1 := inv_emit_stored
      (Studio_EventInstance_Stop inst FMOD_STUDIO_STOP_ALLOWFADEOUT) hi hf rfl
      (by intro h; simp) rfl
    simp only []
    split_ifs
    · exact h1
    · exact inv_release_held (inv_take h1 hf)

theorem bridge_wf_SetParameter (env : Env) (k n : String) (v : F32) (b : FmodBridge)
    (hi : b.Wf) : (b.SetParameter env k n v).2.Wf := by
  unfold FmodBridge.SetParameter
  split
  · exact hi
  · next inst hf =>
    simp only []
    split_ifs <;> exact inv_emit_stored _ hi hf rfl (by intro h; simp) rfl

theorem bridge_wf_SetPaused (env : Env) (k : String) (p : Bool) (b : FmodBridge)
    (hi : b.Wf) : (b.SetPaused env k p).2.Wf := by
  unfold FmodBridge.SetPaused
  split
  · exact hi
  · next inst hf =>
    simp only []
    split_ifs <;> exact inv_emit_stored _ hi hf rfl (by intro h; simp) rfl

theorem bridge_wf_SetVolume (env : Env) (k : String) (v : F32) (b : FmodBridge)
    (hi : b.Wf) : (b.SetVolume env k v).2.Wf := by
  unfold FmodBridge.SetVolume
  split
  · exact hi
  · next inst hf =>
    simp only []
    split_ifs <;> exact inv_emit_stored _ hi hf rfl (by intro h; simp) rfl

theorem bridge_wf_SetMasterPaused (env : Env) (p : Bool) (b : FmodBridge) (hi : b.Wf) :
    (b.SetMasterPaused env p).2.Wf := by
  unfold FmodBridge.Wf at hi ⊢
  unfold FmodBridge.SetMasterPaused
  split
  · exact hi
  · simp only []
    split_ifs <;>
      repeat' (first | exact hi | refine inv_emit_sys _ ?_ rfl rfl)

theorem bridge_wf_Update (b : FmodBridge) (hi : b.Wf) : b.Update.Wf := by
  unfold FmodBridge.Wf at hi ⊢
  unfold FmodBridge.Update
  split
  · exact inv_emit_sys _ hi rfl rfl
  · exact hi

theorem bridge_wf_Release (b : FmodBridge) (hi : b.Wf) : b.Release.Wf := by
  unfold FmodBridge.Wf at hi ⊢
  unfold FmodBridge.Release
  have h1 := inv_stopAndReleaseAll _ _ hi
  simp only []
  split
  · exact inv_emit_sys _ h1 rfl rfl
  · exact h1

theorem bridge_wf_step (env : Env) (b : FmodBridge) (op : BridgeOp) (hi : b.Wf) :
    (b.step env op).Wf := by
  cases op <;> simp only [FmodBridge.step]
  · exact bridge_wf_Initialize env b hi
  · exact bridge_wf_LoadBank env _ b hi
  · exact bridge_wf_PlayEvent env _ b hi
  · exact bridge_wf_StopEvent env _ b hi
  · exact bridge_wf_SetParameter env _ _ _ b hi
  · exact bridge_wf_SetPaused env _ _ b hi
  · exact bridge_wf_SetVolume env _ _ b hi
  · exact bridge_wf_SetMasterPaused env _ b hi
  · exact bridge_wf_Update b hi
  · exact bridge_wf_Release b hi

theorem bridge_wf_run (env : Env) (ops : List BridgeOp) :
    ∀ (b : FmodBridge), b.Wf → (b.run env ops).Wf := by
  induction ops with
  | nil => intro b hi; exact hi
  | cons op rest ih =>
    intro b hi
    exact ih _ (bridge_wf_step env b op hi)

theorem bridge_wf_new : FmodBridge.new.Wf := inv_new

/-! ## The Android binding keeps the invariant -/

theorem jni_wf_nativeInitialize (env : Env) (j : FmodJni) (hi : j.Wf) :
    (j.nativeInitialize env).2.Wf := by
  unfold FmodJni.Wf at hi ⊢
  unfold FmodJni.nativeInitialize
  simp only []
  split_ifs <;>
    repeat' (first | exact hi | refine inv_emit_sys _ ?_ rfl rfl
                   | refine inv_emitAlloc _ ?_ rfl rfl)

theorem jni_wf_nativeLoadBank (env : Env) (d : List Nat) (j : FmodJni) (hi : j.Wf) :
    (j.nativeLoadBank env d).2.Wf := by
  unfold FmodJni.Wf at hi ⊢
  unfold FmodJni.nativeLoadBank
  split
  · exact hi
  · simp only []
    split_ifs <;> exact inv_emit_sys _ hi rfl rfl

theorem jni_wf_getEvent (env : Env) (sys : Handle) (k : String) (j : FmodJni) (hi : j.Wf)
    (hf : j.eventInstances.find k = none) :
    (FmodJni.nativePlayEvent.getEvent env sys k j).2.Wf := by
  unfold FmodJni.Wf at hi ⊢
  unfold FmodJni.nativePlayEvent.getEvent
  have h1 : Inv j.eventInstances [] (j.world.emit (Studio_System_GetEvent sys k)) :=
    inv_emit_sys _ hi rfl rfl
  simp only []
  split_ifs
  · exact h1
  · exact inv_emit_sys _ h1 rfl rfl
  · exact inv_release_held (inv_emit_held _ (inv_create k h1) rfl (by intro h; simp) rfl)
  · exact inv_store (inv_emit_held _ (inv_create k h1) rfl (by intro h; simp) rfl) hf

theorem jni_wf_nativePlayEvent (env : Env) (k : String) (j : FmodJni) (hi : j.Wf) :
    (j.nativePlayEvent env k).2.Wf := by
  unfold FmodJni.nativePlayEvent
  split
  · exact hi
  · next sys hsys =>
    split
    · next inst hf =>
      apply jni_wf_getEvent
      · have h1 := inv_emit_stored
          (Studio_EventInstance_Stop inst FMOD_STUDIO_STOP_IMMEDIATE) hi hf rfl
          (by intro h; simp) rfl
        exact inv_release_held (inv_take h1 hf)
      · exact registry_find_erase_self hi.keys_nodup
    · next hf =>
      exact jni_wf_getEvent env sys k j hi hf

theorem jni_wf_nativeStopEvent (env : Env) (k : String) (j : FmodJni) (hi : j.Wf) :
    (j.nativeStopEvent env k).2.Wf := by
  unfold FmodJni.nativeStopEvent
  split
  · exact hi
  · next inst hf =>
    have h1 := inv_emit_stored
      (Studio_EventInstance_Stop inst FMOD_STUDIO_STOP_ALLOWFADEOUT) hi hf rfl
      (by intro h; simp) rfl
    simp only []
    split_ifs
    · exact h1
    · exact inv_release_held (inv_take h1 hf)

theorem jni_wf_nativeSetParameter (env : Env) (k n : String) (v : F32) (j : FmodJni)
    (hi : j.Wf) : (j.nativeSetParameter env k n v).2.Wf := by
  unfold FmodJni.nativeSetParameter
  split
  · exact hi
  · next inst hf =>
    simp only []
    split_ifs <;> exact inv_emit_stored _ hi hf rfl (by intro h; simp) rfl

theorem jni_wf_nativeSetPaused (env : Env) (k : String) (p : Bool) (j : FmodJni)
    (hi : j.Wf) : (j.nativeSetPaused env k p).2.Wf := by
  unfold FmodJni.nativeSetPaused
  split
  · exact hi
  · next inst hf =>
    simp only []
    split_ifs <;> exact inv_emit_stored _ hi hf rfl (by intro h; simp) rfl

theorem jni_wf_nativeSetVolume (env : Env) (k : String) (v : F32) (j : FmodJni)
    (hi : j.Wf) : (j.nativeSetVolume env k v).2.Wf := by
  unfold FmodJni.nativeSetVolume
  split
  · exact hi
  · next inst hf =>
    simp only []
    split_ifs <;> exact inv_emit_stored _ hi hf rfl (by intro h; simp) rfl

theorem jni_wf_nativeSetMasterPaused (env : Env) (p : Bool) (j : FmodJni) (hi : j.Wf) :
    (j.nativeSetMasterPaused env p).2.Wf := by
  unfold FmodJni.Wf at hi ⊢
  unfold FmodJni.nativeSetMasterPaused
  split
  · exact hi
  · simp only []
    split_ifs <;>
      repeat' (first | exact hi | refine inv_emit_sys _ ?_ rfl rfl)

theorem jni_wf_nativeUpdate (j : FmodJni) (hi : j.Wf) : j.nativeUpdate.Wf := by
  unfold FmodJni.Wf at hi ⊢
  unfold FmodJni.nativeUpdate
  split
  · exact inv_emit_sys _ hi rfl rfl
  · exact hi

theorem jni_wf_nativeRelease (j : FmodJni) (hi : j.Wf) : j.nativeRelease.Wf := by
  unfold FmodJni.Wf at hi ⊢
  unfold FmodJni.nativeRelease
  have h1 := inv_stopAndReleaseAll _ _ hi
  simp only []
  split
  · exact inv_emit_sys _ h1 rfl rfl
  · exact h1

theorem jni_wf_step (env : Env) (j : FmodJni) (op : JniOp) (hi : j.Wf) :
    (j.step env op).Wf := by
  cases op <;> simp only [FmodJni.step]
  · exact jni_wf_nativeInitialize env j hi
  · exact jni_wf_nativeLoadBank env _ j hi
  · exact jni_wf_nativePlayEvent env _ j hi
  · exact jni_wf_nativeStopEvent env _ j hi
  · exact jni_wf_nativeSetParameter env _ _ _ j hi
  · exact jni_wf_nativeSetPaused env _ _ j hi
  · exact jni_wf_nativeSetVolume env _ _ j hi
  · exact jni_wf_nativeSetMasterPaused env _ j hi
  · exact jni_wf_nativeUpdate j hi
  · exact jni_wf_nativeRelease j hi

theorem jni_wf_run (env : Env) (ops : List JniOp) :
    ∀ (j : FmodJni), j.Wf → (j.run env ops).Wf := by
  induction ops with
  | nil => intro j hi; exact hi
  | cons op rest ih =>
    intro j hi
    exact ih _ (jni_wf_step env j op hi)

theorem jni_wf_new : FmodJni.new.Wf := inv_new

/-! ## Consequences of the invariant -/

theorem inv_live_unique {reg : Registry} {w : World} (hi : Inv reg [] w)
    {key : String} {h : Handle} (hc : isCreatedFor w.log key h) (hl : isLive w.log h) :
    reg.find key = some h := by
  have hm : h ∈ (reg ++ []).handles := (hi.live h).2 hl
  simp only [List.append_nil, Registry.handles, List.mem_map] at hm
  obtain ⟨⟨k, h1⟩, hmem, heq⟩ := hm
  simp only at heq
  subst heq
  have hown := hi.owner k h1 (by simpa using hmem)
  have hk : k = key := hi.path_unique h1 k key hown hc
  subst hk
  exact registry_mem_find hi.keys_nodup hmem

theorem bridge_run_append (env : Env) (ops1 ops2 : List BridgeOp) (b : FmodBridge) :
    b.run env (ops1 ++ ops2) = (b.run env ops1).run env ops2 := by
  simp [FmodBridge.run, List.foldl_append]

theorem jni_run_append (env : Env) (ops1 ops2 : List JniOp) (j : FmodJni) :
    j.run env (ops1 ++ ops2) = (j.run env ops1).run env ops2 := by
  simp [FmodJni.run, List.foldl_append]

theorem bridge_Release_registry (b : FmodBridge) : b.Release.event_instances_ = [] := by
  unfold FmodBridge.Release
  simp only []
  split <;> rfl

theorem jni_nativeRelease_registry (j : FmodJni) : j.nativeRelease.eventInstances = [] := by
  unfold FmodJni.nativeRelease
  simp only []
  split <;> rfl

theorem inv_empty_released_once {w : World} (hi : Inv [] [] w) (h : Handle)
    (hc : isCreated w.log h) : w.log.count (Studio_EventInstance_Release h) = 1 := by
  have hnl : ¬ isLive w.log h := by
    intro hl
    have := (hi.live h).2 hl
    simp [Registry.handles] at this
  have hr : isReleased w.log h := by
    by_contra hn
    exact hnl ⟨hc, hn⟩
  have hpos : 0 < w.log.count (Studio_EventInstance_Release h) := List.count_pos_iff.2 hr
  have hle := hi.once h
  omega

/-- C1 (ownership/uniqueness invariant). After every sequence of operations on a
freshly constructed bridge, under every engine behaviour, the handles stored in
the registry are exactly the handles created and not yet released, no handle is
stored twice, no key has two entries, and two live handles created for the same
event key are equal.  Stated for the Windows bridge and for the Android binding. -/
theorem C1_ownership_invariant (env : Env) :
    (∀ ops : List BridgeOp,
      (∀ h, isLive (FmodBridge.new.run env ops).world.log h
          ↔ h ∈ (FmodBridge.new.run env ops).event_instances_.handles) ∧
      (FmodBridge.new.run env ops).event_instances_.handles.Nodup ∧
      (FmodBridge.new.run env ops).event_instances_.keys.Nodup ∧
      (∀ key h1 h2,
        isCreatedFor (FmodBridge.new.run env ops).world.log key h1 →
        isCreatedFor (FmodBridge.new.run env ops).world.log key h2 →
        isLive (FmodBridge.new.run env ops).world.log h1 →
        isLive (FmodBridge.new.run env ops).world.log h2 → h1 = h2)) ∧
    (∀ ops : List JniOp,
      (∀ h, isLive (FmodJni.new.run env ops).world.log h
          ↔ h ∈ (FmodJni.new.run env ops).eventInstances.handles) ∧
      (FmodJni.new.run env ops).eventInstances.handles.Nodup ∧
      (FmodJni.new.run env ops).eventInstances.keys.Nodup ∧
      (∀ key h1 h2,
        isCreatedFor (FmodJni.new.run env ops).world.log key h1 →
        isCreatedFor (FmodJni.new.run env ops).world.log key h2 →
        isLive (FmodJni.new.run env ops).world.log h1 →
        isLive (FmodJni.new.run env ops).world.log h2 → h1 = h2)) := by
  constructor
  · intro ops
    have hi : Inv _ [] _ := bridge_wf_run env ops _ bridge_wf_new
    refine ⟨fun h => ?_, ?_, hi.keys_nodup, ?_⟩
    · rw [← hi.live h, List.append_nil]
    · simpa using hi.handles_nodup
    · intro key h1 h2 hc1 hc2 hl1 hl2
      have e1 := inv_live_unique hi hc1 hl1
      have e2 := inv_live_unique hi hc2 hl2
      rw [e1] at e2
      exact Option.some.inj e2
  · intro ops
    have hi : Inv _ [] _ := jni_wf_run env ops _ jni_wf_new
    refine ⟨fun h => ?_, ?_, hi.keys_nodup, ?_⟩
    · rw [← hi.live h, List.append_nil]
    · simpa using hi.handles_nodup
    · intro key h1 h2 hc1 hc2 hl1 hl2
      have e1 := inv_live_unique hi hc1 hl1
      have e2 := inv_live_unique hi hc2 hl2
      rw [e1] at e2
      exact Option.some.inj e2

/-- C2 (every handle released exactly once). For every sequence of operations on
a freshly constructed bridge that ends with `Release` and every engine
behaviour, every handle returned by a successful create-instance call occurs in
exactly one engine release call of the whole trace, and no engine call operates
on a handle after the release call on it.  Stated for the Windows bridge and
for the Android binding. -/
theorem C2_released_exactly_once (env : Env) :
    (∀ ops : List BridgeOp,
      (∀ h, isCreated (FmodBridge.new.run env (ops ++ [BridgeOp.Release])).world.log h →
        (FmodBridge.new.run env (ops ++ [BridgeOp.Release])).world.log.count
          (Studio_EventInstance_Release h) = 1) ∧
      NoUseAfterRelease (FmodBridge.new.run env (ops ++ [BridgeOp.Release])).world.log) ∧
    (∀ ops : List JniOp,
      (∀ h, isCreated (FmodJni.new.run env (ops ++ [JniOp.nativeRelease])).world.log h →
        (FmodJni.new.run env (ops ++ [JniOp.nativeRelease])).world.log.count
          (Studio_EventInstance_Release h) = 1) ∧
      NoUseAfterRelease (FmodJni.new.run env (ops ++ [JniOp.nativeRelease])).world.log) := by
  constructor
  · intro ops
    have hi : Inv _ [] _ := bridge_wf_run env (ops ++ [BridgeOp.Release]) _ bridge_wf_new
    have he : (FmodBridge.new.run env (ops ++ [BridgeOp.Release])).event_instances_ = [] := by
      rw [bridge_run_append]
      exact bridge_Release_registry _
    rw [he] at hi
    exact ⟨fun h hc => inv_empty_released_once hi h hc, hi.no_use_after⟩
  · intro ops
    have hi : Inv _ [] _ := jni_wf_run env (ops ++ [JniOp.nativeRelease]) _ jni_wf_new
    have he : (FmodJni.new.run env (ops ++ [JniOp.nativeRelease])).eventInstances = [] := by
      rw [jni_run_append]
      exact jni_nativeRelease_registry _
    rw [he] at hi
    exact ⟨fun h hc => inv_empty_released_once hi h hc, hi.no_use_after⟩

/-! ## Keys of the registry under play -/

theorem registry_assign_keys_nodup {key : String} {h : Handle} :
    ∀ {m : Registry}, m.keys.Nodup → (m.assign key h).keys.Nodup
  | [], _ => by simp [Registry.assign, Registry.keys]
  | (k, v) :: rest, hn => by
      simp only [Registry.keys, List.map_cons, List.nodup_cons] at hn
      simp only [Registry.assign]
      split
      · simpa [Registry.keys] using hn
      · next hk =>
        have ih := @registry_assign_keys_nodup key h rest hn.2
        simp only [Registry.keys, List.map_cons, List.nodup_cons] at ih ⊢
        refine ⟨?_, ih⟩
        intro hm
        obtain ⟨p, hp, hpk⟩ := List.mem_map.1 hm
        by_cases hf : Registry.find key rest = none
        · rw [registry_assign_of_find_none hf] at hp
          rcases List.mem_append.1 hp with hp | hp
          · exact hn.1 (List.mem_map.2 ⟨p, hp, hpk⟩)
          · simp only [List.mem_singleton] at hp
            subst hp
            exact hk hpk.symm
        · -- the key has an entry: the keys do not change
          have hkeys : ∀ (m : Registry), (m.assign key h).keys = m.keys ∨
              m.find key = none := by
            intro m
            induction m with
            | nil => right; rfl
            | cons a m ihm =>
              obtain ⟨a1, a2⟩ := a
              by_cases ha : a1 = key
              · left; simp [Registry.assign, Registry.keys, ha]
              · rcases ihm with ihm | ihm
                · left
                  simp only [Registry.assign, if_neg ha, Registry.keys, List.map_cons] at ihm ⊢
                  rw [ihm]
                · right; simp only [Registry.find, if_neg ha]; exact ihm
          rcases hkeys rest with hk2 | hk2
          · apply hn.1
            have : k ∈ (Registry.assign key h rest).keys := List.mem_map.2 ⟨p, hp, hpk⟩
            rw [hk2] at this
            exact this
          · exact hf hk2

theorem registry_erase_keys_nodup {key : String} {m : Registry} (hn : m.keys.Nodup) :
    (m.erase key).keys.Nodup :=
  hn.sublist ((registry_erase_sublist key m).map _)

theorem bridge_createInstance_keys (env : Env) (k : String) (b : FmodBridge)
    (hn : b.event_instances_.keys.Nodup) :
    (FmodBridge.PlayEvent.createInstance env k b).2.event_instances_.keys.Nodup := by
  unfold FmodBridge.PlayEvent.createInstance
  simp only []
  split_ifs
  · exact hn
  · exact hn
  · exact registry_assign_keys_nodup hn

theorem bridge_PlayEvent_keys (env : Env) (k : String) (b : FmodBridge)
    (hn : b.event_instances_.keys.Nodup) :
    (b.PlayEvent env k).2.event_instances_.keys.Nodup := by
  unfold FmodBridge.PlayEvent
  split
  · exact hn
  · simp only []
    split
    · exact hn
    · split
      · split
        · exact hn
        · exact bridge_createInstance_keys env k _ (registry_erase_keys_nodup hn)
      · exact bridge_createInstance_keys env k _ hn

theorem jni_getEvent_keys (env : Env) (sys : Handle) (k : String) (j : FmodJni)
    (hn : j.eventInstances.keys.Nodup) :
    (FmodJni.nativePlayEvent.getEvent env sys k j).2.eventInstances.keys.Nodup := by
  unfold FmodJni.nativePlayEvent.getEvent
  simp only []
  split_ifs
  · exact hn
  · exact hn
  · exact hn
  · exact registry_assign_keys_nodup hn

theorem jni_nativePlayEvent_keys (env : Env) (k : String) (j : FmodJni)
    (hn : j.eventInstances.keys.Nodup) :
    (j.nativePlayEvent env k).2.eventInstances.keys.Nodup := by
  unfold FmodJni.nativePlayEvent
  split
  · exact hn
  · split
    · exact jni_getEvent_keys env _ k _ (registry_erase_keys_nodup hn)
    · exact jni_getEvent_keys env _ k _ hn

/-- A stop of a key without entry returns false and changes nothing (Windows). -/
theorem bridge_StopEvent_absent (env : Env) (k : String) (b : FmodBridge)
    (hf : b.event_instances_.find k = none) : b.StopEvent env k = (false, b) := by
  unfold FmodBridge.StopEvent
  rw [hf]

/-- A stop of a key without entry returns false and changes nothing (Android). -/
theorem jni_nativeStopEvent_absent (env : Env) (k : String) (j : FmodJni)
    (hf : j.eventInstances.find k = none) : j.nativeStopEvent env k = (false, j) := by
  unfold FmodJni.nativeStopEvent
  rw [hf]

/-- After a stop whose engine request (if any) was accepted, the key has no entry (Windows). -/
theorem bridge_StopEvent_find (env : Env) (k : String) (b : FmodBridge)
    (hn : b.event_instances_.keys.Nodup)
    (hstop : (b.event_instances_.find k).isSome = true → (b.world.result env).ok = true) :
    (b.StopEvent env k).2.event_instances_.find k = none := by
  unfold FmodBridge.StopEvent
  split
  · next hf => exact hf
  · next inst hf =>
    have hok := hstop (by rw [hf]; rfl)
    simp only [hok, Bool.true_eq_false, if_false]
    exact registry_find_erase_self hn

/-- After a stop whose engine request (if any) was accepted, the key has no entry (Android). -/
theorem jni_nativeStopEvent_find (env : Env) (k : String) (j : FmodJni)
    (hn : j.eventInstances.keys.Nodup)
    (hstop : (j.eventInstances.find k).isSome = true → (j.world.result env).ok = true) :
    (j.nativeStopEvent env k).2.eventInstances.find k = none := by
  unfold FmodJni.nativeStopEvent
  split
  · next hf => exact hf
  · next inst hf =>
    have hok := hstop (by rw [hf]; rfl)
    simp only [hok, Bool.true_eq_false, if_false]
    exact registry_find_erase_self hn

/-! ## C3: play then stop -/

/-- C3, counterexample. On an initialized bridge the play of `event:/A` succeeds
and the engine then rejects the fade-out stop request (engine call number 9 on
Windows, number 8 on Android): the stop returns false and the registry still
holds the entry of `event:/A`. -/
theorem C3_counterexample :
    ((FmodBridge.new.run (Env.failAt 9 FMOD_STUDIO_PLAYBACK_PLAYING)
        [BridgeOp.Initialize, BridgeOp.PlayEvent "event:/A",
         BridgeOp.StopEvent "event:/A"]).event_instances_.find "event:/A" = some 2) ∧
    ((FmodJni.new.run (Env.failAt 8 FMOD_STUDIO_PLAYBACK_PLAYING)
        [JniOp.nativeInitialize, JniOp.nativePlayEvent "event:/A",
         JniOp.nativeStopEvent "event:/A"]).eventInstances.find "event:/A" = some 2) := by
  constructor <;> decide

/-- C3, amended (play-then-stop round trip). For every key, every engine
behaviour and every state whose registry is a map, if the engine accepts the
fade-out stop request that `stop(k)` issues after `play(k)` (a request is issued
only when `k` has an entry after the play), then after `play(k)` followed by
`stop(k)` the registry holds no entry for `k`, and a second `stop(k)` returns
false, issues no engine call and changes nothing.  Stated for the Windows
bridge `b` and for the Android binding `j`. -/
theorem C3_play_stop_round_trip (env : Env) (k : String) (b : FmodBridge) (j : FmodJni)
    (hb : b.event_instances_.keys.Nodup)
    (hbstop : ((b.PlayEvent env k).2.event_instances_.find k).isSome = true →
      ((b.PlayEvent env k).2.world.result env).ok = true)
    (hj : j.eventInstances.keys.Nodup)
    (hjstop : ((j.nativePlayEvent env k).2.eventInstances.find k).isSome = true →
      ((j.nativePlayEvent env k).2.world.result env).ok = true) :
    (((b.PlayEvent env k).2.StopEvent env k).2.event_instances_.find k = none ∧
      ((b.PlayEvent env k).2.StopEvent env k).2.StopEvent env k
        = (false, ((b.PlayEvent env k).2.StopEvent env k).2)) ∧
    (((j.nativePlayEvent env k).2.nativeStopEvent env k).2.eventInstances.find k = none ∧
      ((j.nativePlayEvent env k).2.nativeStopEvent env k).2.nativeStopEvent env k
        = (false, ((j.nativePlayEvent env k).2.nativeStopEvent env k).2)) := by
  have h1 := bridge_StopEvent_find env k _ (bridge_PlayEvent_keys env k b hb) hbstop
  have h2 := jni_nativeStopEvent_find env k _ (jni_nativePlayEvent_keys env k j hj) hjstop
  exact ⟨⟨h1, bridge_StopEvent_absent env k _ h1⟩, ⟨h2, jni_nativeStopEvent_absent env k _ h2⟩⟩

/-- C3, witness: the round trip on an initialized bridge with an engine that
accepts every call. -/
theorem C3_play_stop_round_trip_witness :
    ((FmodBridge.ready.PlayEvent (Env.good FMOD_STUDIO_PLAYBACK_PLAYING) "event:/A").2.StopEvent
        (Env.good FMOD_STUDIO_PLAYBACK_PLAYING) "event:/A").2.event_instances_.find
        "event:/A" = none ∧
    ((FmodJni.ready.nativePlayEvent (Env.good FMOD_STUDIO_PLAYBACK_PLAYING)
        "event:/A").2.nativeStopEvent
        (Env.good FMOD_STUDIO_PLAYBACK_PLAYING) "event:/A").2.eventInstances.find
        "event:/A" = none :=
  ⟨(C3_play_stop_round_trip (Env.good FMOD_STUDIO_PLAYBACK_PLAYING) "event:/A"
      FmodBridge.ready FmodJni.ready (by decide) (by decide) (by decide) (by decide)).1.1,
   (C3_play_stop_round_trip (Env.good FMOD_STUDIO_PLAYBACK_PLAYING) "event:/A"
      FmodBridge.ready FmodJni.ready (by decide) (by decide) (by decide) (by decide)).2.1⟩

/-! ## C4: replay -/

theorem jni_getEvent_false (env : Env) (sys : Handle) (k : String) (j : FmodJni)
    (ht : (FmodJni.nativePlayEvent.getEvent env sys k j).1 = false) :
    (FmodJni.nativePlayEvent.getEvent env sys k j).2.eventInstances = j.eventInstances := by
  unfold FmodJni.nativePlayEvent.getEvent at ht ⊢
  simp only [] at ht ⊢
  split_ifs at ht ⊢ <;> rfl

theorem bridge_absent_noop (env : Env) (b : FmodBridge) (k n : String) (v : F32) (p : Bool)
    (hf : b.event_instances_.find k = none) :
    b.StopEvent env k = (false, b) ∧ b.SetParameter env k n v = (false, b) ∧
    b.SetPaused env k p = (false, b) ∧ b.SetVolume env k v = (false, b) := by
  unfold FmodBridge.StopEvent FmodBridge.SetParameter FmodBridge.SetPaused
    FmodBridge.SetVolume
  rw [hf]
  exact ⟨rfl, rfl, rfl, rfl⟩

theorem jni_absent_noop (env : Env) (j : FmodJni) (k n : String) (v : F32) (p : Bool)
    (hf : j.eventInstances.find k = none) :
    j.nativeStopEvent env k = (false, j) ∧ j.nativeSetParameter env k n v = (false, j) ∧
    j.nativeSetPaused env k p = (false, j) ∧ j.nativeSetVolume env k v = (false, j) := by
  unfold FmodJni.nativeStopEvent FmodJni.nativeSetParameter FmodJni.nativeSetPaused
    FmodJni.nativeSetVolume
  rw [hf]
  exact ⟨rfl, rfl, rfl, rfl⟩

theorem bridge_Release_system (b : FmodBridge) : b.Release.studio_system_ = none := by
  unfold FmodBridge.Release
  simp only []
  split
  · rfl
  · next hs => exact hs

theorem jni_nativeRelease_system (j : FmodJni) : j.nativeRelease.studioSystem = none := by
  unfold FmodJni.nativeRelease
  simp only []
  split
  · rfl
  · next hs => exact hs

/-- C5 (teardown completeness). For every state (reachable or not) and every
engine behaviour, after `Release()` the registry is empty and the engine
reference is null, and for every key a subsequent `StopEvent`, `SetParameter`,
`SetPaused` or `SetVolume` returns false and leaves the whole state, the engine
log included, unchanged: no engine call is issued.  Stated for the Windows
bridge and for the Android binding. -/
theorem C5_teardown_completeness (env : Env) (b : FmodBridge) (j : FmodJni)
    (k n : String) (v : F32) (p : Bool) :
    (b.Release.event_instances_ = [] ∧ b.Release.studio_system_ = none ∧
      b.Release.StopEvent env k = (false, b.Release) ∧
      b.Release.SetParameter env k n v = (false, b.Release) ∧
      b.Release.SetPaused env k p = (false, b.Release) ∧
      b.Release.SetVolume env k v = (false, b.Release)) ∧
    (j.nativeRelease.eventInstances = [] ∧ j.nativeRelease.studioSystem = none ∧
      j.nativeRelease.nativeStopEvent env k = (false, j.nativeRelease) ∧
      j.nativeRelease.nativeSetParameter env k n v = (false, j.nativeRelease) ∧
      j.nativeRelease.nativeSetPaused env k p = (false, j.nativeRelease) ∧
      j.nativeRelease.nativeSetVolume env k v = (false, j.nativeRelease)) := by
  have hb : b.Release.event_instances_.find k = none := by
    rw [bridge_Release_registry]; rfl
  have hj : j.nativeRelease.eventInstances.find k = none := by
    rw [jni_nativeRelease_registry]; rfl
  exact ⟨⟨bridge_Release_registry b, bridge_Release_system b,
      bridge_absent_noop env _ k n v p hb⟩,
    ⟨jni_nativeRelease_registry j, jni_nativeRelease_system j,
      jni_absent_noop env _ k n v p hj⟩⟩

/-- C6 (idempotent release). For every state, a second `Release()` right after
a first one returns the very state the first one left, engine log included: the
second call issues no engine operation.  Stated for the Windows bridge and for
the Android binding. -/
theorem C6_idempotent_release (b : FmodBridge) (j : FmodJni) :
    (b.Release.Release = b.Release ∧
      b.Release.Release.world.log = b.Release.world.log) ∧
    (j.nativeRelease.nativeRelease = j.nativeRelease ∧
      j.nativeRelease.nativeRelease.world.log = j.nativeRelease.world.log) := by
  have hb : b.Release.Release = b.Release := by
    have h1 := bridge_Release_registry b
    have h2 := bridge_Release_system b
    have h3 : b.Release.running_ = false := by
      unfold FmodBridge.Release
      simp only []
      split <;> rfl
    have h4 : b.Release.update_thread_ = false := by
      unfold FmodBridge.Release
      simp only []
      split <;> rfl
    generalize b.Release = r at h1 h2 h3 h4
    obtain ⟨s, c, ru, t, e, w⟩ := r
    simp only at h1 h2 h3 h4
    subst h1; subst h2; subst h3; subst h4
    rfl
  have hj : j.nativeRelease.nativeRelease = j.nativeRelease := by
    have h1 := jni_nativeRelease_registry j
    have h2 := jni_nativeRelease_system j
    generalize j.nativeRelease = r at h1 h2
    obtain ⟨s, c, e, w⟩ := r
    simp only at h1 h2
    subst h1; subst h2
    rfl
  exact ⟨⟨hb, by rw [hb]⟩, ⟨hj, by rw [hj]⟩⟩

/-- C7 (unknown-key no-op). For every state, every engine behaviour and every
key that has no entry in the registry, `StopEvent`, `SetParameter`, `SetPaused`
and `SetVolume` return false and leave the whole state unchanged: registry,
engine reference and engine log (no engine call is issued).  Stated for the
Windows bridge and for the Android binding. -/
theorem C7_unknown_key_noop (env : Env) (b : FmodBridge) (j : FmodJni)
    (k n : String) (v : F32) (p : Bool)
    (hb : b.event_instances_.find k = none) (hj : j.eventInstances.find k = none) :
    (b.StopEvent env k = (false, b) ∧ b.SetParameter env k n v = (false, b) ∧
      b.SetPaused env k p = (false, b) ∧ b.SetVolume env k v = (false, b)) ∧
    (j.nativeStopEvent env k = (false, j) ∧ j.nativeSetParameter env k n v = (false, j) ∧
      j.nativeSetPaused env k p = (false, j) ∧ j.nativeSetVolume env k v = (false, j)) :=
  ⟨bridge_absent_noop env b k n v p hb, jni_absent_noop env j k n v p hj⟩

/-- C7, witness: the spec's example `setParameter("event:/missing", "p", 1.0)` on
the empty registry of a freshly constructed bridge, and a key missing from a
registry that holds another event. -/
theorem C7_unknown_key_noop_witness :
    FmodBridge.new.SetParameter (Env.good FMOD_STUDIO_PLAYBACK_PLAYING)
        "event:/missing" "p" F32.one = (false, FmodBridge.new) ∧
    (FmodJni.ready.nativePlayEvent (Env.good FMOD_STUDIO_PLAYBACK_PLAYING)
        "event:/A").2.nativeStopEvent (Env.good FMOD_STUDIO_PLAYBACK_PLAYING) "event:/missing"
      = (false, (FmodJni.ready.nativePlayEvent (Env.good FMOD_STUDIO_PLAYBACK_PLAYING)
        "event:/A").2) :=
  ⟨(C7_unknown_key_noop (Env.good FMOD_STUDIO_PLAYBACK_PLAYING) FmodBridge.new
      (FmodJni.ready.nativePlayEvent (Env.good FMOD_STUDIO_PLAYBACK_PLAYING) "event:/A").2
      "event:/missing" "p" F32.one true (by decide) (by decide)).1.2.1,
   (C7_unknown_key_noop (Env.good FMOD_STUDIO_PLAYBACK_PLAYING) FmodBridge.new
      (FmodJni.ready.nativePlayEvent (Env.good FMOD_STUDIO_PLAYBACK_PLAYING) "event:/A").2
      "event:/missing" "p" F32.one true (by decide) (by decide)).2.1⟩

/-! ## C8: master pause -/

/-- C8, counterexample. `Initialize` succeeds (engine calls 0 to 5 on Windows,
0 to 4 on Android), the registry is empty, and the engine then rejects the
master-bus lookup of `SetMasterPaused(true)`: the call returns false. -/
theorem C8_counterexample :
    ((FmodBridge.new.Initialize (Env.failAt 6 FMOD_STUDIO_PLAYBACK_PLAYING)).map Prod.fst
        = some true ∧
      (FmodBridge.new.step (Env.failAt 6 FMOD_STUDIO_PLAYBACK_PLAYING)
        BridgeOp.Initialize).studio_system_ = some 0 ∧
      (FmodBridge.new.step (Env.failAt 6 FMOD_STUDIO_PLAYBACK_PLAYING)
        BridgeOp.Initialize).event_instances_ = [] ∧
      ((FmodBridge.new.step (Env.failAt 6 FMOD_STUDIO_PLAYBACK_PLAYING)
        BridgeOp.Initialize).SetMasterPaused
        (Env.failAt 6 FMOD_STUDIO_PLAYBACK_PLAYING) true).1 = false) ∧
    ((FmodJni.new.nativeInitialize (Env.failAt 5 FMOD_STUDIO_PLAYBACK_PLAYING)).1 = true ∧
      (FmodJni.new.nativeInitialize
        (Env.failAt 5 FMOD_STUDIO_PLAYBACK_PLAYING)).2.studioSystem = some 0 ∧
      (FmodJni.new.nativeInitialize
        (Env.failAt 5 FMOD_STUDIO_PLAYBACK_PLAYING)).2.eventInstances = [] ∧
      ((FmodJni.new.nativeInitialize
        (Env.failAt 5 FMOD_STUDIO_PLAYBACK_PLAYING)).2.nativeSetMasterPaused
        (Env.failAt 5 FMOD_STUDIO_PLAYBACK_PLAYING) true).1 = false) := by
  refine ⟨⟨by decide, by decide, by decide, by decide⟩,
    ⟨by decide, by decide, by decide, by decide⟩⟩

theorem bridge_SetMasterPaused_spec (env : Env) (p : Bool) (b : FmodBridge) :
    (b.SetMasterPaused env p).2.event_instances_ = b.event_instances_ ∧
    (b.SetMasterPaused env p).2.studio_system_ = b.studio_system_ ∧
    (b.studio_system_ = none → b.SetMasterPaused env p = (false, b)) ∧
    (∀ sys, b.studio_system_ = some sys →
      ((b.SetMasterPaused env p).1 = true ↔
        ((env b.world.log.length).ok = true ∧ (env b.world.log.length).nonNull = true ∧
          (env (b.world.log.length + 1)).ok = true)) ∧
      (((env b.world.log.length).ok = false ∨
          (env b.world.log.length).nonNull = false) →
        b.SetMasterPaused env p = (false, { b with world := { b.world with log :=
          b.world.log ++ [Studio_System_GetBus sys "bus:/"] } })) ∧
      ((env b.world.log.length).ok = true → (env b.world.log.length).nonNull = true →
        b.SetMasterPaused env p = ((env (b.world.log.length + 1)).ok,
          { b with world := { b.world with log :=
            b.world.log ++ [Studio_System_GetBus sys "bus:/",
              Studio_Bus_SetPaused p] } }))) := by
  unfold FmodBridge.SetMasterPaused
  cases hs : b.studio_system_ with
  | none => simp [hs]
  | some sys =>
    simp only [World.result, World.emit, List.length_append, List.length_singleton]
    refine ⟨?_, ?_, ?_, ?_⟩
    · split_ifs <;> rfl
    · split_ifs <;> simp [hs]
    · intro h; cases h
    · intro sys1 he
      cases he
      cases h1 : (env b.world.log.length).ok <;>
      cases h2 : (env b.world.log.length).nonNull <;>
      cases h3 : (env (b.world.log.length + 1)).ok <;>
      simp [h1, h2, h3]

theorem jni_nativeSetMasterPaused_spec (env : Env) (p : Bool) (j : FmodJni) :
    (j.nativeSetMasterPaused env p).2.eventInstances = j.eventInstances ∧
    (j.nativeSetMasterPaused env p).2.studioSystem = j.studioSystem ∧
    (j.studioSystem = none → j.nativeSetMasterPaused env p = (false, j)) ∧
    (∀ sys, j.studioSystem = some sys →
      ((j.nativeSetMasterPaused env p).1 = true ↔
        ((env j.world.log.length).ok = true ∧ (env j.world.log.length).nonNull = true ∧
          (env (j.world.log.length + 1)).ok = true)) ∧
      (((env j.world.log.length).ok = false ∨
          (env j.world.log.length).nonNull = false) →
        j.nativeSetMasterPaused env p = (false, { j with world := { j.world with log :=
          j.world.log ++ [Studio_System_GetBus sys "bus:/"] } })) ∧
      ((env j.world.log.length).ok = true → (env j.world.log.length).nonNull = true →
        j.nativeSetMasterPaused env p = ((env (j.world.log.length + 1)).ok,
          { j with world := { j.world with log :=
            j.world.log ++ [Studio_System_GetBus sys "bus:/",
              Studio_Bus_SetPaused p] } }))) := by
  unfold FmodJni.nativeSetMasterPaused
  cases hs : j.studioSystem with
  | none => simp [hs]
  | some sys =>
    simp only [World.result, World.emit, List.length_append, List.length_singleton]
    refine ⟨?_, ?_, ?_, ?_⟩
    · split_ifs <;> rfl
    · split_ifs <;> simp [hs]
    · intro h; cases h
    · intro sys1 he
      cases he
      cases h1 : (env j.world.log.length).ok <;>
      cases h2 : (env j.world.log.length).nonNull <;>
      cases h3 : (env (j.world.log.length + 1)).ok <;>
      simp [h1, h2, h3]

/-- C8, amended (master pause independence). For every state, every engine
behaviour and every boolean: `SetMasterPaused` leaves the registry and the
engine reference unchanged.  When the engine is not initialized it returns
false and changes nothing (no engine call).  When it is initialized it issues
the master-bus lookup; if the lookup fails or yields a null bus it returns
false and the lookup is its only engine call; if the lookup succeeds with a
non-null bus it issues the bus set-paused call next, as its last engine call,
and returns the result of that call.  So it issues no call on an event
instance, and it returns true exactly when the lookup returns `FMOD_OK` with a
non-null bus and the set-paused call returns `FMOD_OK`, whatever the registry
holds (also when it is empty).  Stated for the Windows bridge and for the
Android binding. -/
theorem C8_master_pause_independence (env : Env) (p : Bool) (b : FmodBridge) (j : FmodJni) :
    ((b.SetMasterPaused env p).2.event_instances_ = b.event_instances_ ∧
      (b.SetMasterPaused env p).2.studio_system_ = b.studio_system_ ∧
      (b.studio_system_ = none → b.SetMasterPaused env p = (false, b)) ∧
      (∀ sys, b.studio_system_ = some sys →
        ((b.SetMasterPaused env p).1 = true ↔
          ((env b.world.log.length).ok = true ∧ (env b.world.log.length).nonNull = true ∧
            (env (b.world.log.length + 1)).ok = true)) ∧
        (((env b.world.log.length).ok = false ∨
            (env b.world.log.length).nonNull = false) →
          b.SetMasterPaused env p = (false, { b with world := { b.world with log :=
            b.world.log ++ [Studio_System_GetBus sys "bus:/"] } })) ∧
        ((env b.world.log.length).ok = true → (env b.world.log.length).nonNull = true →
          b.SetMasterPaused env p = ((env (b.world.log.length + 1)).ok,
            { b with world := { b.world with log :=
              b.world.log ++ [Studio_System_GetBus sys "bus:/",
                Studio_Bus_SetPaused p] } })))) ∧
    ((j.nativeSetMasterPaused env p).2.eventInstances = j.eventInstances ∧
      (j.nativeSetMasterPaused env p).2.studioSystem = j.studioSystem ∧
      (j.studioSystem = none → j.nativeSetMasterPaused env p = (false, j)) ∧
      (∀ sys, j.studioSystem = some sys →
        ((j.nativeSetMasterPaused env p).1 = true ↔
          ((env j.world.log.length).ok = true ∧ (env j.world.log.length).nonNull = true ∧
            (env (j.world.log.length + 1)).ok = true)) ∧
        (((env j.world.log.length).ok = false ∨
            (env j.world.log.length).nonNull = false) →
          j.nativeSetMasterPaused env p = (false, { j with world := { j.world with log :=
            j.world.log ++ [Studio_System_GetBus sys "bus:/"] } })) ∧
        ((env j.world.log.length).ok = true → (env j.world.log.length).nonNull = true →
          j.nativeSetMasterPaused env p = ((env (j.world.log.length + 1)).ok,
            { j with world := { j.world with log :=
              j.world.log ++ [Studio_System_GetBus sys "bus:/",
                Studio_Bus_SetPaused p] } })))) :=
  ⟨bridge_SetMasterPaused_spec env p b, jni_nativeSetMasterPaused_spec env p j⟩

/-- C8, witness: on an initialized bridge with an empty registry and an engine
that accepts every call, `SetMasterPaused(true)` returns true; with an engine
that rejects the master-bus lookup (engine call 6) the lookup is the only
engine call. -/
theorem C8_master_pause_independence_witness :
    FmodBridge.ready.event_instances_ = [] ∧
    (FmodBridge.ready.SetMasterPaused (Env.good FMOD_STUDIO_PLAYBACK_PLAYING) true).1 = true ∧
    (FmodBridge.ready.SetMasterPaused (Env.failAt 6 FMOD_STUDIO_PLAYBACK_PLAYING) true).2.world.log
      = FmodBridge.ready.world.log ++ [Studio_System_GetBus 0 "bus:/"] ∧
    FmodJni.ready.eventInstances = [] ∧
    (FmodJni.ready.nativeSetMasterPaused (Env.good FMOD_STUDIO_PLAYBACK_PLAYING) true).1
      = true :=
  ⟨by decide,
   (((C8_master_pause_independence (Env.good FMOD_STUDIO_PLAYBACK_PLAYING) true
      FmodBridge.ready FmodJni.ready).1.2.2.2 0 (by decide)).1).2
      ⟨by decide, by decide, by decide⟩,
   congrArg (fun r => r.2.world.log)
    (((C8_master_pause_independence (Env.failAt 6 FMOD_STUDIO_PLAYBACK_PLAYING) true
      FmodBridge.ready FmodJni.ready).1.2.2.2 0 (by decide)).2.1 (Or.inl (by decide))),
   by decide,
   (((C8_master_pause_independence (Env.good FMOD_STUDIO_PLAYBACK_PLAYING) true
      FmodBridge.ready FmodJni.ready).2.2.2.2 0 (by decide)).1).2
      ⟨by decide, by decide, by decide⟩⟩

/-! ## C9: restart in place (Windows) -/

/-- C9, counterexample. `event:/A` is stored (handle 2) and the engine would
report it as Playing, but the event-description lookup that `PlayEvent` issues
first (engine call number 9) fails: the play returns false and issues neither
stop nor start; the lookup is its only engine call. -/
theorem C9_counterexample :
    (FmodBridge.new.run (Env.failAt 9 FMOD_STUDIO_PLAYBACK_PLAYING)
        [BridgeOp.Initialize, BridgeOp.PlayEvent "event:/A"]).event_instances_.find
        "event:/A" = some 2 ∧
    (Env.failAt 9 FMOD_STUDIO_PLAYBACK_PLAYING 10).state = FMOD_STUDIO_PLAYBACK_PLAYING ∧
    ((FmodBridge.new.run (Env.failAt 9 FMOD_STUDIO_PLAYBACK_PLAYING)
        [BridgeOp.Initialize, BridgeOp.PlayEvent "event:/A"]).PlayEvent
        (Env.failAt 9 FMOD_STUDIO_PLAYBACK_PLAYING) "event:/A").1 = false ∧
    ((FmodBridge.new.run (Env.failAt 9 FMOD_STUDIO_PLAYBACK_PLAYING)
        [BridgeOp.Initialize, BridgeOp.PlayEvent "event:/A"]).PlayEvent
        (Env.failAt 9 FMOD_STUDIO_PLAYBACK_PLAYING) "event:/A").2.world.log
      = (FmodBridge.new.run (Env.failAt 9 FMOD_STUDIO_PLAYBACK_PLAYING)
        [BridgeOp.Initialize, BridgeOp.PlayEvent "event:/A"]).world.log
        ++ [Studio_System_GetEvent 0 "event:/A"] := by
  refine ⟨by decide, by decide, by decide, by decide⟩

/-- C9, amended (restart in place, Windows). For every key `k` stored in the
registry of an initialized bridge whose handle the engine reports as Playing or
Starting, `PlayEvent(k)` first asks the engine for the event description.  If
that lookup succeeds it queries the playback state of the stored handle and
restarts in place: an immediate stop followed by a start on the same handle, no
create-instance call, no release, the registry and every other member
unchanged, result true.  If the lookup fails it returns false, the lookup is its
only engine call, and the registry is unchanged. -/
theorem C9_restart_in_place (env : Env) (k : String) (b : FmodBridge) (sys inst : Handle)
    (hs : b.studio_system_ = some sys) (hf : b.event_instances_.find k = some inst)
    (hstate : (env (b.world.log.length + 1)).state = FMOD_STUDIO_PLAYBACK_PLAYING ∨
      (env (b.world.log.length + 1)).state = FMOD_STUDIO_PLAYBACK_STARTING) :
    ((env b.world.log.length).ok = true →
      b.PlayEvent env k = (true, { b with world := { b.world with log := b.world.log ++
        [Studio_System_GetEvent sys k, Studio_EventInstance_GetPlaybackState inst,
         Studio_EventInstance_Stop inst FMOD_STUDIO_STOP_IMMEDIATE,
         Studio_EventInstance_Start inst] } })) ∧
    ((env b.world.log.length).ok = false →
      b.PlayEvent env k = (false, { b with world := { b.world with log := b.world.log ++
        [Studio_System_GetEvent sys k] } })) := by
  unfold FmodBridge.PlayEvent
  rw [hs, hf]
  simp only [World.result, World.emit, List.length_append, List.length_singleton]
  rw [if_pos hstate]
  constructor
  · intro hok
    rw [hok]
    simp
  · intro hok
    rw [hok]
    simp

/-- C9, witness: the restart of `event:/A` on an initialized bridge with an
engine that accepts every call and reports Playing. -/
theorem C9_restart_in_place_witness :
    (FmodBridge.ready.PlayEvent (Env.good FMOD_STUDIO_PLAYBACK_PLAYING) "event:/A").2.PlayEvent
        (Env.good FMOD_STUDIO_PLAYBACK_PLAYING) "event:/A"
      = (true, { (FmodBridge.ready.PlayEvent (Env.good FMOD_STUDIO_PLAYBACK_PLAYING)
          "event:/A").2 with world :=
          { (FmodBridge.ready.PlayEvent (Env.good FMOD_STUDIO_PLAYBACK_PLAYING)
              "event:/A").2.world with log :=
            (FmodBridge.ready.PlayEvent (Env.good FMOD_STUDIO_PLAYBACK_PLAYING)
              "event:/A").2.world.log ++
            [Studio_System_GetEvent 0 "event:/A", Studio_EventInstance_GetPlaybackState 2,
             Studio_EventInstance_Stop 2 FMOD_STUDIO_STOP_IMMEDIATE,
             Studio_EventInstance_Start 2] } }) :=
  (C9_restart_in_place (Env.good FMOD_STUDIO_PLAYBACK_PLAYING) "event:/A"
    (FmodBridge.ready.PlayEvent (Env.good FMOD_STUDIO_PLAYBACK_PLAYING) "event:/A").2 0 2
    (by decide) (by decide) (by decide)).1 (by decide)

/-! ## C10: fresh play -/

theorem bridge_PlayEvent_fresh (env : Env) (k : String) (b : FmodBridge) (sys : Handle)
    (hs : b.studio_system_ = some sys) (hf : b.event_instances_.find k = none) :
    ((b.PlayEvent env k).1 = true ↔
      ((env b.world.log.length).ok = true ∧ (env (b.world.log.length + 1)).ok = true ∧
        (env (b.world.log.length + 2)).ok = true)) ∧
    ((env b.world.log.length).ok = true → (env (b.world.log.length + 1)).ok = true →
      (env (b.world.log.length + 2)).ok = true →
      b.PlayEvent env k = (true, { b with
        event_instances_ := b.event_instances_.assign k b.world.next,
        world := { next := b.world.next + 1, log := b.world.log ++
          [Studio_System_GetEvent sys k,
            Studio_EventDescription_CreateInstance k (some b.world.next),
            Studio_EventInstance_Start b.world.next] } }) ∧
      (b.PlayEvent env k).2.event_instances_.find k = some b.world.next) ∧
    ((env b.world.log.length).ok = false →
      b.PlayEvent env k = (false, { b with world := { b.world with log := b.world.log ++
        [Studio_System_GetEvent sys k] } })) ∧
    ((env b.world.log.length).ok = true → (env (b.world.log.length + 1)).ok = false →
      b.PlayEvent env k = (false, { b with world := { b.world with log := b.world.log ++
        [Studio_System_GetEvent sys k,
         Studio_EventDescription_CreateInstance k none] } })) ∧
    ((env b.world.log.length).ok = true → (env (b.world.log.length + 1)).ok = true →
      (env (b.world.log.length + 2)).ok = false →
      b.PlayEvent env k = (false, { b with
        world := { next := b.world.next + 1, log := b.world.log ++
          [Studio_System_GetEvent sys k,
            Studio_EventDescription_CreateInstance k (some b.world.next),
            Studio_EventInstance_Start b.world.next,
            Studio_EventInstance_Release b.world.next] } })) := by
  unfold FmodBridge.PlayEvent FmodBridge.PlayEvent.createInstance
  rw [hs, hf]
  simp only [World.result, World.emit, World.emitAlloc, List.length_append,
    List.length_singleton]
  cases h0 : (env b.world.log.length).ok <;>
  cases h1 : (env (b.world.log.length + 1)).ok <;>
  cases h2 : (env (b.world.log.length + 1 + 1)).ok <;>
  simp [h0, h1, h2, registry_find_assign_self]

theorem jni_nativePlayEvent_fresh (env : Env) (k : String) (j : FmodJni) (sys : Handle)
    (hs : j.studioSystem = some sys) (hf : j.eventInstances.find k = none) :
    ((j.nativePlayEvent env k).1 = true ↔
      ((env j.world.log.length).ok = true ∧ (env (j.world.log.length + 1)).ok = true ∧
        (env (j.world.log.length + 2)).ok = true)) ∧
    ((env j.world.log.length).ok = true → (env (j.world.log.length + 1)).ok = true →
      (env (j.world.log.length + 2)).ok = true →
      j.nativePlayEvent env k = (true, { j with
        eventInstances := j.eventInstances.assign k j.world.next,
        world := { next := j.world.next + 1, log := j.world.log ++
          [Studio_System_GetEvent sys k,
            Studio_EventDescription_CreateInstance k (some j.world.next),
            Studio_EventInstance_Start j.world.next] } }) ∧
      (j.nativePlayEvent env k).2.eventInstances.find k = some j.world.next) ∧
    ((env j.world.log.length).ok = false →
      j.nativePlayEvent env k = (false, { j with world := { j.world with log := j.world.log ++
        [Studio_System_GetEvent sys k] } })) ∧
    ((env j.world.log.length).ok = true → (env (j.world.log.length + 1)).ok = false →
      j.nativePlayEvent env k = (false, { j with world := { j.world with log := j.world.log ++
        [Studio_System_GetEvent sys k,
         Studio_EventDescription_CreateInstance k none] } })) ∧
    ((env j.world.log.length).ok = true → (env (j.world.log.length + 1)).ok = true →
      (env (j.world.log.length + 2)).ok = false →
      j.nativePlayEvent env k = (false, { j with
        world := { next := j.world.next + 1, log := j.world.log ++
          [Studio_System_GetEvent sys k,
            Studio_EventDescription_CreateInstance k (some j.world.next),
            Studio_EventInstance_Start j.world.next,
            Studio_EventInstance_Release j.world.next] } })) := by
  unfold FmodJni.nativePlayEvent FmodJni.nativePlayEvent.getEvent
  rw [hs, hf]
  simp only [World.result, World.emit, World.emitAlloc, List.length_append,
    List.length_singleton]
  cases h0 : (env j.world.log.length).ok <;>
  cases h1 : (env (j.world.log.length + 1)).ok <;>
  cases h2 : (env (j.world.log.length + 1 + 1)).ok <;>
  simp [h0, h1, h2, registry_find_assign_self]

/-- C10 (fresh-play failure handling). For every key without registry entry on
an initialized bridge and every engine behaviour, `play(k)` issues the
description lookup, the instance creation and the start, in this order, and
stops at the first that fails.  It returns true if and only if all three
succeed, and then the registry maps `k` to the newly created handle.  If the
lookup fails, or the creation fails, it returns false with the registry
unchanged and no later engine call; if the start fails after the creation it
returns false with the registry unchanged and the created handle released by
one release call and not stored.  Stated for the Windows bridge (`b`, system
handle `sb`) and for the Android binding (`j`, system handle `sj`). -/
theorem C10_fresh_play (env : Env) (k : String) (b : FmodBridge) (j : FmodJni)
    (sb sj : Handle)
    (hbs : b.studio_system_ = some sb) (hbf : b.event_instances_.find k = none)
    (hjs : j.studioSystem = some sj) (hjf : j.eventInstances.find k = none) :
    (((b.PlayEvent env k).1 = true ↔
        ((env b.world.log.length).ok = true ∧ (env (b.world.log.length + 1)).ok = true ∧
          (env (b.world.log.length + 2)).ok = true)) ∧
      ((env b.world.log.length).ok = true → (env (b.world.log.length + 1)).ok = true →
        (env (b.world.log.length + 2)).ok = true →
        b.PlayEvent env k = (true, { b with
          event_instances_ := b.event_instances_.assign k b.world.next,
          world := { next := b.world.next + 1, log := b.world.log ++
            [Studio_System_GetEvent sb k,
              Studio_EventDescription_CreateInstance k (some b.world.next),
              Studio_EventInstance_Start b.world.next] } }) ∧
        (b.PlayEvent env k).2.event_instances_.find k = some b.world.next) ∧
      ((env b.world.log.length).ok = false →
        b.PlayEvent env k = (false, { b with world := { b.world with log := b.world.log ++
          [Studio_System_GetEvent sb k] } })) ∧
      ((env b.world.log.length).ok = true → (env (b.world.log.length + 1)).ok = false →
        b.PlayEvent env k = (false, { b with world := { b.world with log := b.world.log ++
          [Studio_System_GetEvent sb k,
           Studio_EventDescription_CreateInstance k none] } })) ∧
      ((env b.world.log.length).ok = true → (env (b.world.log.length + 1)).ok = true →
        (env (b.world.log.length + 2)).ok = false →
        b.PlayEvent env k = (false, { b with
          world := { next := b.world.next + 1, log := b.world.log ++
            [Studio_System_GetEvent sb k,
              Studio_EventDescription_CreateInstance k (some b.world.next),
              Studio_EventInstance_Start b.world.next,
              Studio_EventInstance_Release b.world.next] } }))) ∧
    (((j.nativePlayEvent env k).1 = true ↔
        ((env j.world.log.length).ok = true ∧ (env (j.world.log.length + 1)).ok = true ∧
          (env (j.world.log.length + 2)).ok = true)) ∧
      ((env j.world.log.length).ok = true → (env (j.world.log.length + 1)).ok = true →
        (env (j.world.log.length + 2)).ok = true →
        j.nativePlayEvent env k = (true, { j with
          eventInstances := j.eventInstances.assign k j.world.next,
          world := { next := j.world.next + 1, log := j.world.log ++
            [Studio_System_GetEvent sj k,
              Studio_EventDescription_CreateInstance k (some j.world.next),
              Studio_EventInstance_Start j.world.next] } }) ∧
        (j.nativePlayEvent env k).2.eventInstances.find k = some j.world.next) ∧
      ((env j.world.log.length).ok = false →
        j.nativePlayEvent env k = (false, { j with world := { j.world with log := j.world.log ++
          [Studio_System_GetEvent sj k] } })) ∧
      ((env j.world.log.length).ok = true → (env (j.world.log.length + 1)).ok = false →
        j.nativePlayEvent env k = (false, { j with world := { j.world with log := j.world.log ++
          [Studio_System_GetEvent sj k,
           Studio_EventDescription_CreateInstance k none] } })) ∧
      ((env j.world.log.length).ok = true → (env (j.world.log.length + 1)).ok = true →
        (env (j.world.log.length + 2)).ok = false →
        j.nativePlayEvent env k = (false, { j with
          world := { next := j.world.next + 1, log := j.world.log ++
            [Studio_System_GetEvent sj k,
              Studio_EventDescription_CreateInstance k (some j.world.next),
              Studio_EventInstance_Start j.world.next,
              Studio_EventInstance_Release j.world.next] } }))) :=
  ⟨bridge_PlayEvent_fresh env k b sb hbs hbf, jni_nativePlayEvent_fresh env k j sj hjs hjf⟩

/-- C10, witness: the first play of `event:/A` on initialized bridges with an
engine that accepts every call returns true. -/
theorem C10_fresh_play_witness :
    (FmodBridge.ready.PlayEvent (Env.good FMOD_STUDIO_PLAYBACK_PLAYING) "event:/A").1 = true ∧
    (FmodJni.ready.nativePlayEvent (Env.good FMOD_STUDIO_PLAYBACK_PLAYING) "event:/A").1
      = true :=
  ⟨((C10_fresh_play (Env.good FMOD_STUDIO_PLAYBACK_PLAYING) "event:/A" FmodBridge.ready
      FmodJni.ready 0 0 (by decide) (by decide) (by decide) (by decide)).1.1).2
      ⟨by decide, by decide, by decide⟩,
   ((C10_fresh_play (Env.good FMOD_STUDIO_PLAYBACK_PLAYING) "event:/A" FmodBridge.ready
      FmodJni.ready 0 0 (by decide) (by decide) (by decide) (by decide)).2.1).2
      ⟨by decide, by decide, by decide⟩⟩

/-! ## C11: stop modes and teardown order -/

theorem stopAndReleaseAll_log :
    ∀ (reg : Registry) (w : World),
      stopAndReleaseAll reg w = { w with log := w.log ++ stopReleasePairs reg }
  | [], w => by simp [stopAndReleaseAll, stopReleasePairs]
  | (k, h) :: rest, w => by
      simp only [stopAndReleaseAll, stopReleasePairs]
      rw [stopAndReleaseAll_log rest]
      simp [World.emit]

theorem stopReleasePairs_immediate :
    ∀ (reg : Registry), OnlyImmediateStops (stopReleasePairs reg)
  | [] => by intro h m hm; simp [stopReleasePairs] at hm
  | (k, h1) :: rest => by
      intro h m hm
      simp only [stopReleasePairs, List.mem_cons, reduceCtorEq, false_or,
        EngineCall.Studio_EventInstance_Stop.injEq] at hm
      rcases hm with hm | hm
      · exact hm.2
      · exact stopReleasePairs_immediate rest h m hm

theorem stopReleasePairs_adjacent :
    ∀ (reg : Registry) (h : Handle), h ∈ reg.handles →
      ∃ pre post, stopReleasePairs reg = pre ++
        [Studio_EventInstance_Stop h FMOD_STUDIO_STOP_IMMEDIATE,
         Studio_EventInstance_Release h] ++ post
  | [], h, hm => by simp [Registry.handles] at hm
  | (k, h1) :: rest, h, hm => by
      simp only [Registry.handles, List.map_cons, List.mem_cons] at hm
      rcases hm with hm | hm
      · subst hm
        exact ⟨[], stopReleasePairs rest, by simp [stopReleasePairs]⟩
      · obtain ⟨pre, post, he⟩ := stopReleasePairs_adjacent rest h hm
        refine ⟨Studio_EventInstance_Stop h1 FMOD_STUDIO_STOP_IMMEDIATE ::
          Studio_EventInstance_Release h1 :: pre, post, ?_⟩
        simp [stopReleasePairs, he]

theorem bridge_Release_log (b : FmodBridge) :
    b.Release.world.log
      = b.world.log ++ stopReleasePairs b.event_instances_
        ++ systemReleaseCall b.studio_system_ := by
  unfold FmodBridge.Release
  simp only [stopAndReleaseAll_log]
  split
  · next sys hs => simp [World.emit, systemReleaseCall, hs]
  · next hs => simp [systemReleaseCall, hs]

theorem jni_nativeRelease_log (j : FmodJni) :
    j.nativeRelease.world.log
      = j.world.log ++ stopReleasePairs j.eventInstances
        ++ systemReleaseCall j.studioSystem := by
  unfold FmodJni.nativeRelease
  simp only [stopAndReleaseAll_log]
  split
  · next sys hs => simp [World.emit, systemReleaseCall, hs]
  · next hs => simp [systemReleaseCall, hs]

theorem bridge_createInstance_stops (env : Env) (k : String) (b : FmodBridge) :
    ∃ calls, (FmodBridge.PlayEvent.createInstance env k b).2.world.log
        = b.world.log ++ calls ∧ OnlyImmediateStops calls := by
  unfold FmodBridge.PlayEvent.createInstance
  simp only [World.emit, World.emitAlloc]
  split_ifs
  · exact ⟨[Studio_EventDescription_CreateInstance k none], rfl,
      by intro h m hm; simp at hm⟩
  · exact ⟨[Studio_EventDescription_CreateInstance k (some b.world.next),
      Studio_EventInstance_Start b.world.next, Studio_EventInstance_Release b.world.next],
      by simp, by intro h m hm; simp at hm⟩
  · exact ⟨[Studio_EventDescription_CreateInstance k (some b.world.next),
      Studio_EventInstance_Start b.world.next], by simp, by intro h m hm; simp at hm⟩

theorem bridge_PlayEvent_stops (env : Env) (k : String) (b : FmodBridge) :
    ∃ calls, (b.PlayEvent env k).2.world.log = b.world.log ++ calls ∧
      OnlyImmediateStops calls := by
  unfold FmodBridge.PlayEvent
  split
  · exact ⟨[], by simp, by intro h m hm; simp at hm⟩
  · next sys hs =>
    simp only []
    split
    · exact ⟨[Studio_System_GetEvent sys k], rfl, by intro h m hm; simp at hm⟩
    · split
      · next inst hf =>
        split
        · refine ⟨[Studio_System_GetEvent sys k, Studio_EventInstance_GetPlaybackState inst,
            Studio_EventInstance_Stop inst FMOD_STUDIO_STOP_IMMEDIATE,
            Studio_EventInstance_Start inst], by simp [World.emit], ?_⟩
          intro h m hm
          simp only [List.mem_cons, reduceCtorEq, false_or,
            EngineCall.Studio_EventInstance_Stop.injEq, List.mem_singleton, or_false,
            List.not_mem_nil] at hm
          exact hm.2
        · obtain ⟨calls, he, hc⟩ := bridge_createInstance_stops env k
            { b with event_instances_ := b.event_instances_.erase k,
                     world := ((b.world.emit (Studio_System_GetEvent sys k)).emit
                       (Studio_EventInstance_GetPlaybackState inst)).emit
                       (Studio_EventInstance_Release inst) }
          refine ⟨Studio_System_GetEvent sys k :: Studio_EventInstance_GetPlaybackState inst
            :: Studio_EventInstance_Release inst :: calls, ?_, ?_⟩
          · rw [he]; simp [World.emit]
          · intro h m hm
            simp only [List.mem_cons, reduceCtorEq, false_or] at hm
            exact hc h m hm
      · obtain ⟨calls, he, hc⟩ := bridge_createInstance_stops env k
          { b with world := b.world.emit (Studio_System_GetEvent sys k) }
        refine ⟨Studio_System_GetEvent sys k :: calls, ?_, ?_⟩
        · rw [he]; simp [World.emit]
        · intro h m hm
          simp only [List.mem_cons, reduceCtorEq, false_or] at hm
          exact hc h m hm

theorem jni_getEvent_stops (env : Env) (sys : Handle) (k : String) (j : FmodJni) :
    ∃ calls, (FmodJni.nativePlayEvent.getEvent env sys k j).2.world.log
        = j.world.log ++ calls ∧ OnlyImmediateStops calls := by
  unfold FmodJni.nativePlayEvent.getEvent
  simp only [World.emit, World.emitAlloc]
  split_ifs
  · exact ⟨[Studio_System_GetEvent sys k], rfl, by intro h m hm; simp at hm⟩
  · exact ⟨[Studio_System_GetEvent sys k, Studio_EventDescription_CreateInstance k none],
      by simp, by intro h m hm; simp at hm⟩
  · exact ⟨[Studio_System_GetEvent sys k,
      Studio_EventDescription_CreateInstance k (some j.world.next),
      Studio_EventInstance_Start j.world.next, Studio_EventInstance_Release j.world.next],
      by simp, by intro h m hm; simp at hm⟩
  · exact ⟨[Studio_System_GetEvent sys k,
      Studio_EventDescription_CreateInstance k (some j.world.next),
      Studio_EventInstance_Start j.world.next], by simp, by intro h m hm; simp at hm⟩

theorem jni_nativePlayEvent_stops (env : Env) (k : String) (j : FmodJni) :
    ∃ calls, (j.nativePlayEvent env k).2.world.log = j.world.log ++ calls ∧
      OnlyImmediateStops calls := by
  unfold FmodJni.nativePlayEvent
  split
  · exact ⟨[], by simp, by intro h m hm; simp at hm⟩
  · next sys hs =>
    split
    · next inst hf =>
      obtain ⟨calls, he, hc⟩ := jni_getEvent_stops env sys k
        { j with eventInstances := j.eventInstances.erase k,
                 world := (j.world.emit
                   (Studio_EventInstance_Stop inst FMOD_STUDIO_STOP_IMMEDIATE)).emit
                   (Studio_EventInstance_Release inst) }
      refine ⟨Studio_EventInstance_Stop inst FMOD_STUDIO_STOP_IMMEDIATE ::
        Studio_EventInstance_Release inst :: calls, ?_, ?_⟩
      · rw [he]; simp [World.emit]
      · intro h m hm
        simp only [List.mem_cons, reduceCtorEq, false_or,
          EngineCall.Studio_EventInstance_Stop.injEq] at hm
        rcases hm with hm | hm
        · exact hm.2
        · exact hc h m hm
    · exact jni_getEvent_stops env sys k j

theorem bridge_StopEvent_log (env : Env) (k : String) (b : FmodBridge) :
    (b.event_instances_.find k = none → (b.StopEvent env k).2.world.log = b.world.log) ∧
    (∀ h, b.event_instances_.find k = some h →
      (b.StopEvent env k).2.world.log = b.world.log ++
          [Studio_EventInstance_Stop h FMOD_STUDIO_STOP_ALLOWFADEOUT] ∨
      (b.StopEvent env k).2.world.log = b.world.log ++
          [Studio_EventInstance_Stop h FMOD_STUDIO_STOP_ALLOWFADEOUT,
           Studio_EventInstance_Release h]) := by
  unfold FmodBridge.StopEvent
  constructor
  · intro hf; rw [hf]
  · intro h hf
    rw [hf]
    simp only [World.emit]
    split_ifs
    · left; rfl
    · right; simp

theorem jni_nativeStopEvent_log (env : Env) (k : String) (j : FmodJni) :
    (j.eventInstances.find k = none → (j.nativeStopEvent env k).2.world.log = j.world.log) ∧
    (∀ h, j.eventInstances.find k = some h →
      (j.nativeStopEvent env k).2.world.log = j.world.log ++
          [Studio_EventInstance_Stop h FMOD_STUDIO_STOP_ALLOWFADEOUT] ∨
      (j.nativeStopEvent env k).2.world.log = j.world.log ++
          [Studio_EventInstance_Stop h FMOD_STUDIO_STOP_ALLOWFADEOUT,
           Studio_EventInstance_Release h]) := by
  unfold FmodJni.nativeStopEvent
  constructor
  · intro hf; rw [hf]
  · intro h hf
    rw [hf]
    simp only [World.emit]
    split_ifs
    · left; rfl
    · right; simp

/-- C11 (stop-mode policy). From every state and under every engine behaviour,
hence at every step of every trace: the engine calls `StopEvent(k)` issues are
none when `k` has no entry and otherwise one allow-fade-out stop of the stored
handle, followed or not by the release of that handle, so its stop uses the
fade-out mode and precedes the release; every stop call that `PlayEvent(k)`
issues (restart or replace) uses the immediate mode; the engine calls of
`Release()` are, for each stored handle in turn, an immediate stop directly
followed by the release of that handle, and after all of them the release of
the engine system when the system pointer is non-null.  Stated for the Windows
bridge and for the Android binding. -/
theorem C11_stop_mode_policy (env : Env) (k : String) (b : FmodBridge) (j : FmodJni) :
    ((b.event_instances_.find k = none → (b.StopEvent env k).2.world.log = b.world.log) ∧
      (∀ h, b.event_instances_.find k = some h →
        (b.StopEvent env k).2.world.log = b.world.log ++
            [Studio_EventInstance_Stop h FMOD_STUDIO_STOP_ALLOWFADEOUT] ∨
        (b.StopEvent env k).2.world.log = b.world.log ++
            [Studio_EventInstance_Stop h FMOD_STUDIO_STOP_ALLOWFADEOUT,
             Studio_EventInstance_Release h]) ∧
      (∃ calls, (b.PlayEvent env k).2.world.log = b.world.log ++ calls ∧
        OnlyImmediateStops calls) ∧
      b.Release.world.log = b.world.log ++ stopReleasePairs b.event_instances_
        ++ systemReleaseCall b.studio_system_ ∧
      OnlyImmediateStops (stopReleasePairs b.event_instances_) ∧
      (∀ h, h ∈ b.event_instances_.handles →
        ∃ pre post, stopReleasePairs b.event_instances_ = pre ++
          [Studio_EventInstance_Stop h FMOD_STUDIO_STOP_IMMEDIATE,
           Studio_EventInstance_Release h] ++ post)) ∧
    ((j.eventInstances.find k = none → (j.nativeStopEvent env k).2.world.log = j.world.log) ∧
      (∀ h, j.eventInstances.find k = some h →
        (j.nativeStopEvent env k).2.world.log = j.world.log ++
            [Studio_EventInstance_Stop h FMOD_STUDIO_STOP_ALLOWFADEOUT] ∨
        (j.nativeStopEvent env k).2.world.log = j.world.log ++
            [Studio_EventInstance_Stop h FMOD_STUDIO_STOP_ALLOWFADEOUT,
             Studio_EventInstance_Release h]) ∧
      (∃ calls, (j.nativePlayEvent env k).2.world.log = j.world.log ++ calls ∧
        OnlyImmediateStops calls) ∧
      j.nativeRelease.world.log = j.world.log ++ stopReleasePairs j.eventInstances
        ++ systemReleaseCall j.studioSystem ∧
      OnlyImmediateStops (stopReleasePairs j.eventInstances) ∧
      (∀ h, h ∈ j.eventInstances.handles →
        ∃ pre post, stopReleasePairs j.eventInstances = pre ++
          [Studio_EventInstance_Stop h FMOD_STUDIO_STOP_IMMEDIATE,
           Studio_EventInstance_Release h] ++ post)) :=
  ⟨⟨(bridge_StopEvent_log env k b).1, (bridge_StopEvent_log env k b).2,
      bridge_PlayEvent_stops env k b, bridge_Release_log b,
      stopReleasePairs_immediate _, stopReleasePairs_adjacent _⟩,
   ⟨(jni_nativeStopEvent_log env k j).1, (jni_nativeStopEvent_log env k j).2,
      jni_nativePlayEvent_stops env k j, jni_nativeRelease_log j,
      stopReleasePairs_immediate _, stopReleasePairs_adjacent _⟩⟩

/-- C11, witness: a bridge that stores `event:/A` under handle 2; its `Release`
issues the immediate stop, the release of the handle and then the release of
the engine system. -/
theorem C11_stop_mode_policy_witness :
    (FmodBridge.ready.PlayEvent (Env.good FMOD_STUDIO_PLAYBACK_PLAYING) "event:/A").2.Release.world.log
      = (FmodBridge.ready.PlayEvent (Env.good FMOD_STUDIO_PLAYBACK_PLAYING)
          "event:/A").2.world.log ++
        [Studio_EventInstance_Stop 2 FMOD_STUDIO_STOP_IMMEDIATE,
         Studio_EventInstance_Release 2, Studio_System_Release 0] :=
  (C11_stop_mode_policy (Env.good FMOD_STUDIO_PLAYBACK_PLAYING) "event:/A"
    (FmodBridge.ready.PlayEvent (Env.good FMOD_STUDIO_PLAYBACK_PLAYING) "event:/A").2
    FmodJni.ready).1.2.2.2.1

/-! ## C12: Initialize -/

/-- C12, counterexample. `Initialize` returns true although one configuration
step fails: on Windows the output-type selection (engine call 2), the
master-bus lookup (call 4) or the volume set (call 5); on Android the
master-bus lookup (call 3) or the volume set (call 4). -/
theorem C12_counterexample :
    ((FmodBridge.new.Initialize (Env.failAt 2 FMOD_STUDIO_PLAYBACK_PLAYING)).map Prod.fst
        = some true ∧
      (FmodBridge.new.Initialize (Env.failAt 4 FMOD_STUDIO_PLAYBACK_PLAYING)).map Prod.fst
        = some true ∧
      (FmodBridge.new.Initialize (Env.failAt 5 FMOD_STUDIO_PLAYBACK_PLAYING)).map Prod.fst
        = some true) ∧
    ((FmodJni.new.nativeInitialize (Env.failAt 3 FMOD_STUDIO_PLAYBACK_PLAYING)).1 = true ∧
      (FmodJni.new.nativeInitialize (Env.failAt 4 FMOD_STUDIO_PLAYBACK_PLAYING)).1 = true) := by
  refine ⟨⟨by decide, by decide, by decide⟩, ⟨by decide, by decide⟩⟩

theorem bridge_Initialize_spec (env : Env) (b : FmodBridge) :
    (((env b.world.log.length).ok = false ∨ (env (b.world.log.length + 1)).ok = false ∨
        (env (b.world.log.length + 3)).ok = false) →
      (b.Initialize env).map Prod.fst = some false) ∧
    (b.update_thread_ = false → (env b.world.log.length).ok = true →
      (env (b.world.log.length + 1)).ok = true → (env (b.world.log.length + 3)).ok = true →
      b.Initialize env = some (true, { b with
        studio_system_ := some b.world.next, core_system_ := some (b.world.next + 1),
        running_ := true, update_thread_ := true,
        world := { next := b.world.next + 2, log := b.world.log ++
          [Studio_System_Create, Studio_System_GetCoreSystem b.world.next,
           System_SetOutput (b.world.next + 1),
           Studio_System_Initialize b.world.next 512,
           Studio_System_GetBus b.world.next "bus:/"] ++
          (if (env (b.world.log.length + 4)).ok = true ∧
              (env (b.world.log.length + 4)).nonNull = true
            then [Studio_Bus_SetVolume F32.one] else []) } })) ∧
    (∀ r, b.Initialize env = some r → r.1 = false →
      r.2.running_ = b.running_ ∧ r.2.update_thread_ = b.update_thread_) := by
  unfold FmodBridge.Initialize
  simp only [World.result, World.emit, World.emitAlloc, List.length_append,
    List.length_singleton]
  cases h0 : (env b.world.log.length).ok <;>
  cases h1 : (env (b.world.log.length + 1)).ok <;>
  cases h3 : (env (b.world.log.length + 1 + 1 + 1)).ok <;>
  cases ht : b.update_thread_ <;>
  simp [h0, h1, h3, ht]
  have e4 : b.world.log.length + 1 + 1 + 1 + 1 = b.world.log.length + 4 := rfl
  rw [e4]
  split_ifs <;> rfl

/-- `Initialize` does not return exactly when the three deciding engine steps
succeed on a bridge whose thread object is still joinable. -/
theorem bridge_Initialize_none (env : Env) (b : FmodBridge) :
    b.Initialize env = none ↔
      ((env b.world.log.length).ok = true ∧ (env (b.world.log.length + 1)).ok = true ∧
        (env (b.world.log.length + 3)).ok = true ∧ b.update_thread_ = true) := by
  unfold FmodBridge.Initialize
  simp only [World.result, World.emit, World.emitAlloc, List.length_append,
    List.length_singleton]
  cases h0 : (env b.world.log.length).ok <;>
  cases h1 : (env (b.world.log.length + 1)).ok <;>
  cases h3 : (env (b.world.log.length + 1 + 1 + 1)).ok <;>
  cases ht : b.update_thread_ <;>
  simp [h0, h1, h3, ht]

theorem jni_nativeInitialize_spec (env : Env) (j : FmodJni) :
    ((j.nativeInitialize env).1 = true ↔
      ((env j.world.log.length).ok = true ∧ (env (j.world.log.length + 1)).ok = true ∧
        (env (j.world.log.length + 2)).ok = true)) ∧
    ((j.nativeInitialize env).1 = true →
      (j.nativeInitialize env).2.world.log = j.world.log ++
        [Studio_System_Create, Studio_System_GetCoreSystem j.world.next,
         Studio_System_Initialize j.world.next 512,
         Studio_System_GetBus j.world.next "bus:/"] ++
        (if (env (j.world.log.length + 3)).ok = true ∧
            (env (j.world.log.length + 3)).nonNull = true
          then [Studio_Bus_SetVolume F32.one] else [])) := by
  unfold FmodJni.nativeInitialize
  simp only [World.result, World.emit, World.emitAlloc, List.length_append,
    List.length_singleton]
  cases h0 : (env j.world.log.length).ok <;>
  cases h1 : (env (j.world.log.length + 1)).ok <;>
  cases h3 : (env (j.world.log.length + 1 + 1)).ok <;>
  simp [h0, h1, h3]
  split_ifs <;> simp

/-- C12, amended (Initialize failure reporting). For every state and every
engine behaviour, `Initialize()` returns false whenever the studio-system
creation, the core-system retrieval or the studio initialization fails.  When
these three succeed, and on Windows the thread object is not joinable (no
update thread from an earlier `Initialize` is running), it returns true, with
the engine calls: creation, core-system retrieval, (Windows only) output-type
selection, studio initialization with 512 channels, master-bus lookup, and the
volume set to 1.0 when the lookup returned a non-null bus; the results of the
output-type selection, of the lookup and of the volume set do not influence the
returned value.  On Windows a true result sets `running_` and the thread, and a
false result leaves both as they were: the update loop is started only on a
true result. -/
theorem C12_initialize_result (env : Env) (b : FmodBridge) (j : FmodJni) :
    ((((env b.world.log.length).ok = false ∨ (env (b.world.log.length + 1)).ok = false ∨
          (env (b.world.log.length + 3)).ok = false) →
        (b.Initialize env).map Prod.fst = some false) ∧
      (b.update_thread_ = false → (env b.world.log.length).ok = true →
        (env (b.world.log.length + 1)).ok = true → (env (b.world.log.length + 3)).ok = true →
        b.Initialize env = some (true, { b with
          studio_system_ := some b.world.next, core_system_ := some (b.world.next + 1),
          running_ := true, update_thread_ := true,
          world := { next := b.world.next + 2, log := b.world.log ++
            [Studio_System_Create, Studio_System_GetCoreSystem b.world.next,
             System_SetOutput (b.world.next + 1),
             Studio_System_Initialize b.world.next 512,
             Studio_System_GetBus b.world.next "bus:/"] ++
            (if (env (b.world.log.length + 4)).ok = true ∧
                (env (b.world.log.length + 4)).nonNull = true
              then [Studio_Bus_SetVolume F32.one] else []) } })) ∧
      (∀ r, b.Initialize env = some r → r.1 = false →
        r.2.running_ = b.running_ ∧ r.2.update_thread_ = b.update_thread_)) ∧
    (((j.nativeInitialize env).1 = true ↔
        ((env j.world.log.length).ok = true ∧ (env (j.world.log.length + 1)).ok = true ∧
          (env (j.world.log.length + 2)).ok = true)) ∧
      ((j.nativeInitialize env).1 = true →
        (j.nativeInitialize env).2.world.log = j.world.log ++
          [Studio_System_Create, Studio_System_GetCoreSystem j.world.next,
           Studio_System_Initialize j.world.next 512,
           Studio_System_GetBus j.world.next "bus:/"] ++
          (if (env (j.world.log.length + 3)).ok = true ∧
              (env (j.world.log.length + 3)).nonNull = true
            then [Studio_Bus_SetVolume F32.one] else []))) :=
  ⟨bridge_Initialize_spec env b, jni_nativeInitialize_spec env j⟩

/-- C12, witness: on a fresh bridge with an accepting engine `Initialize` returns
true and starts the update loop; with an engine that rejects the studio
initialization (engine call 3) it returns false. -/
theorem C12_initialize_result_witness :
    (FmodBridge.new.Initialize (Env.good FMOD_STUDIO_PLAYBACK_PLAYING)).map
        (fun r => (r.1, r.2.running_)) = some (true, true) ∧
    (FmodBridge.new.Initialize (Env.failAt 3 FMOD_STUDIO_PLAYBACK_PLAYING)).map Prod.fst
      = some false :=
  ⟨congrArg (Option.map (fun r => (r.1, r.2.running_)))
    ((C12_initialize_result (Env.good FMOD_STUDIO_PLAYBACK_PLAYING) FmodBridge.new
      FmodJni.new).1.2.1 (by decide) (by decide) (by decide) (by decide)),
   (C12_initialize_result (Env.failAt 3 FMOD_STUDIO_PLAYBACK_PLAYING) FmodBridge.new
      FmodJni.new).1.1 (Or.inr (Or.inr (by decide)))⟩

/-! ## C17: stop is atomic on engine failure -/

theorem bridge_StopEvent_present (env : Env) (k : String) (b : FmodBridge) (inst : Handle)
    (hn : b.event_instances_.keys.Nodup) (hf : b.event_instances_.find k = some inst) :
    ((env b.world.log.length).ok = false →
      b.StopEvent env k = (false, { b with world := { b.world with log := b.world.log ++
        [Studio_EventInstance_Stop inst FMOD_STUDIO_STOP_ALLOWFADEOUT] } })) ∧
    ((env b.world.log.length).ok = true →
      b.StopEvent env k = (true, { b with
        event_instances_ := b.event_instances_.erase k,
        world := { b.world with log := b.world.log ++
          [Studio_EventInstance_Stop inst FMOD_STUDIO_STOP_ALLOWFADEOUT,
           Studio_EventInstance_Release inst] } })) ∧
    (Studio_EventInstance_Release inst ∈
        (b.StopEvent env k).2.world.log.drop b.world.log.length ↔
      (env b.world.log.length).ok = true) ∧
    ((b.StopEvent env k).2.event_instances_.find k = none ↔
      (env b.world.log.length).ok = true) ∧
    (∀ k1, k1 ≠ k →
      (b.StopEvent env k).2.event_instances_.find k1 = b.event_instances_.find k1) := by
  unfold FmodBridge.StopEvent
  rw [hf]
  simp only [World.result, World.emit]
  cases h0 : (env b.world.log.length).ok
  · simp [hf]
  · simp [registry_find_erase_self hn]
    intro k1 hk
    exact registry_find_erase_other hk _

theorem jni_nativeStopEvent_present (env : Env) (k : String) (j : FmodJni) (inst : Handle)
    (hn : j.eventInstances.keys.Nodup) (hf : j.eventInstances.find k = some inst) :
    ((env j.world.log.length).ok = false →
      j.nativeStopEvent env k = (false, { j with world := { j.world with log := j.world.log ++
        [Studio_EventInstance_Stop inst FMOD_STUDIO_STOP_ALLOWFADEOUT] } })) ∧
    ((env j.world.log.length).ok = true →
      j.nativeStopEvent env k = (true, { j with
        eventInstances := j.eventInstances.erase k,
        world := { j.world with log := j.world.log ++
          [Studio_EventInstance_Stop inst FMOD_STUDIO_STOP_ALLOWFADEOUT,
           Studio_EventInstance_Release inst] } })) ∧
    (Studio_EventInstance_Release inst ∈
        (j.nativeStopEvent env k).2.world.log.drop j.world.log.length ↔
      (env j.world.log.length).ok = true) ∧
    ((j.nativeStopEvent env k).2.eventInstances.find k = none ↔
      (env j.world.log.length).ok = true) ∧
    (∀ k1, k1 ≠ k →
      (j.nativeStopEvent env k).2.eventInstances.find k1 = j.eventInstances.find k1) := by
  unfold FmodJni.nativeStopEvent
  rw [hf]
  simp only [World.result, World.emit]
  cases h0 : (env j.world.log.length).ok
  · simp [hf]
  · simp [registry_find_erase_self hn]
    intro k1 hk
    exact registry_find_erase_other hk _

/-- C17 (stop is atomic on engine failure). For every key `k` stored in the
registry (handle `hb` on Windows, `hj` on Android) and every engine behaviour:
if the engine rejects the allow-fade-out stop request, the stop returns false,
issues no release and leaves the registry, every entry included, unchanged; if
the engine accepts it, the stop returns true, releases the handle and removes
the entry of `k`.  So the release call is issued exactly when the stop call
succeeded, the entry of `k` is gone exactly then, and the entry of every other
key is unchanged in both cases. -/
theorem C17_stop_atomic (env : Env) (k : String) (b : FmodBridge) (j : FmodJni)
    (hb hj : Handle)
    (hbn : b.event_instances_.keys.Nodup) (hbf : b.event_instances_.find k = some hb)
    (hjn : j.eventInstances.keys.Nodup) (hjf : j.eventInstances.find k = some hj) :
    (((env b.world.log.length).ok = false →
        b.StopEvent env k = (false, { b with world := { b.world with log := b.world.log ++
          [Studio_EventInstance_Stop hb FMOD_STUDIO_STOP_ALLOWFADEOUT] } })) ∧
      ((env b.world.log.length).ok = true →
        b.StopEvent env k = (true, { b with
          event_instances_ := b.event_instances_.erase k,
          world := { b.world with log := b.world.log ++
            [Studio_EventInstance_Stop hb FMOD_STUDIO_STOP_ALLOWFADEOUT,
             Studio_EventInstance_Release hb] } })) ∧
      (Studio_EventInstance_Release hb ∈
          (b.StopEvent env k).2.world.log.drop b.world.log.length ↔
        (env b.world.log.length).ok = true) ∧
      ((b.StopEvent env k).2.event_instances_.find k = none ↔
        (env b.world.log.length).ok = true) ∧
      (∀ k1, k1 ≠ k →
        (b.StopEvent env k).2.event_instances_.find k1 = b.event_instances_.find k1)) ∧
    (((env j.world.log.length).ok = false →
        j.nativeStopEvent env k = (false, { j with world := { j.world with log := j.world.log ++
          [Studio_EventInstance_Stop hj FMOD_STUDIO_STOP_ALLOWFADEOUT] } })) ∧
      ((env j.world.log.length).ok = true →
        j.nativeStopEvent env k = (true, { j with
          eventInstances := j.eventInstances.erase k,
          world := { j.world with log := j.world.log ++
            [Studio_EventInstance_Stop hj FMOD_STUDIO_STOP_ALLOWFADEOUT,
             Studio_EventInstance_Release hj] } })) ∧
      (Studio_EventInstance_Release hj ∈
          (j.nativeStopEvent env k).2.world.log.drop j.world.log.length ↔
        (env j.world.log.length).ok = true) ∧
      ((j.nativeStopEvent env k).2.eventInstances.find k = none ↔
        (env j.world.log.length).ok = true) ∧
      (∀ k1, k1 ≠ k →
        (j.nativeStopEvent env k).2.eventInstances.find k1 = j.eventInstances.find k1)) :=
  ⟨bridge_StopEvent_present env k b hb hbn hbf, jni_nativeStopEvent_present env k j hj hjn hjf⟩

/-- C17, witness: `event:/A` is stored under handle 2 and the engine rejects the
stop request (engine call 9 on Windows, 8 on Android): the stop returns false. -/
theorem C17_stop_atomic_witness :
    ((FmodBridge.ready.PlayEvent (Env.good FMOD_STUDIO_PLAYBACK_PLAYING) "event:/A").2.StopEvent
        (Env.failAt 9 FMOD_STUDIO_PLAYBACK_PLAYING) "event:/A").1 = false :=
  congrArg Prod.fst
    ((C17_stop_atomic (Env.failAt 9 FMOD_STUDIO_PLAYBACK_PLAYING) "event:/A"
      (FmodBridge.ready.PlayEvent (Env.good FMOD_STUDIO_PLAYBACK_PLAYING) "event:/A").2
      (FmodJni.ready.nativePlayEvent (Env.good FMOD_STUDIO_PLAYBACK_PLAYING) "event:/A").2
      2 2 (by decide) (by decide) (by decide) (by decide)).1.1 (by decide))

/-! ## C16: which operations change which registry entries -/

theorem bridge_createInstance_frame (env : Env) (k : String) (b : FmodBridge) :
    (∀ key, key ≠ k →
      (FmodBridge.PlayEvent.createInstance env k b).2.event_instances_.find key
        = b.event_instances_.find key) ∧
    ((FmodBridge.PlayEvent.createInstance env k b).1 = false →
      (FmodBridge.PlayEvent.createInstance env k b).2.event_instances_
        = b.event_instances_) := by
  unfold FmodBridge.PlayEvent.createInstance
  simp only []
  split_ifs
  · exact ⟨fun _ _ => rfl, fun _ => rfl⟩
  · exact ⟨fun _ _ => rfl, fun _ => rfl⟩
  · exact ⟨fun key hk => registry_find_assign_other hk _, fun h => by simp at h⟩

theorem bridge_PlayEvent_frame (env : Env) (k : String) (b : FmodBridge) :
    (∀ key, key ≠ k →
      (b.PlayEvent env k).2.event_instances_.find key = b.event_instances_.find key) ∧
    (b.event_instances_.find k = none → (b.PlayEvent env k).1 = false →
      (b.PlayEvent env k).2.event_instances_.find k = none) := by
  unfold FmodBridge.PlayEvent
  split
  · exact ⟨fun _ _ => rfl, fun h _ => h⟩
  · next sys hs =>
    simp only []
    split
    · exact ⟨fun _ _ => rfl, fun h _ => h⟩
    · split
      · next inst hf =>
        split
        · exact ⟨fun _ _ => rfl, fun h _ => h⟩
        · refine ⟨fun key hk => ?_, fun h _ => ?_⟩
          · rw [(bridge_createInstance_frame env k _).1 key hk]
            exact registry_find_erase_other hk _
          · rw [hf] at h; cases h
      · next hf =>
        refine ⟨fun key hk => (bridge_createInstance_frame env k _).1 key hk, fun h ht => ?_⟩
        rw [(bridge_createInstance_frame env k _).2 ht]
        exact h

theorem jni_getEvent_frame (env : Env) (sys : Handle) (k : String) (j : FmodJni) :
    ∀ key, key ≠ k →
      (FmodJni.nativePlayEvent.getEvent env sys k j).2.eventInstances.find key
        = j.eventInstances.find key := by
  unfold FmodJni.nativePlayEvent.getEvent
  simp only []
  intro key hk
  split_ifs
  · rfl
  · rfl
  · rfl
  · exact registry_find_assign_other hk _

theorem jni_nativePlayEvent_frame (env : Env) (k : String) (j : FmodJni) :
    (∀ key, key ≠ k →
      (j.nativePlayEvent env k).2.eventInstances.find key = j.eventInstances.find key) ∧
    (j.eventInstances.find k = none → (j.nativePlayEvent env k).1 = false →
      (j.nativePlayEvent env k).2.eventInstances.find k = none) := by
  unfold FmodJni.nativePlayEvent
  split
  · exact ⟨fun _ _ => rfl, fun h _ => h⟩
  · next sys hs =>
    split
    · next inst hf =>
      refine ⟨fun key hk => ?_, fun h _ => ?_⟩
      · rw [jni_getEvent_frame env sys k _ key hk]
        exact registry_find_erase_other hk _
      · rw [hf] at h; cases h
    · next hf =>
      refine ⟨fun key hk => jni_getEvent_frame env sys k j key hk, fun h ht => ?_⟩
      rw [jni_getEvent_false env sys k j ht]
      exact h

theorem bridge_StopEvent_frame (env : Env) (k : String) (b : FmodBridge) :
    ∀ key, key ≠ k →
      (b.StopEvent env k).2.event_instances_.find key = b.event_instances_.find key := by
  unfold FmodBridge.StopEvent
  intro key hk
  split
  · rfl
  · simp only []
    split_ifs
    · rfl
    · exact registry_find_erase_other hk _

theorem jni_nativeStopEvent_frame (env : Env) (k : String) (j : FmodJni) :
    ∀ key, key ≠ k →
      (j.nativeStopEvent env k).2.eventInstances.find key = j.eventInstances.find key := by
  unfold FmodJni.nativeStopEvent
  intro key hk
  split
  · rfl
  · simp only []
    split_ifs
    · rfl
    · exact registry_find_erase_other hk _

theorem bridge_Initialize_registry (env : Env) (b : FmodBridge)
    (r : Bool × FmodBridge) (hr : b.Initialize env = some r) :
    r.2.event_instances_ = b.event_instances_ := by
  unfold FmodBridge.Initialize at hr
  simp only [] at hr
  split_ifs at hr <;>
    (injection hr with hr
     subst hr
     rfl)

theorem bridge_keeps_registry (env : Env) (b : FmodBridge) :
    (b.step env BridgeOp.Initialize).event_instances_ = b.event_instances_ ∧
    (∀ p, (b.LoadBank env p).2.event_instances_ = b.event_instances_) ∧
    (∀ k n v, (b.SetParameter env k n v).2.event_instances_ = b.event_instances_) ∧
    (∀ k p, (b.SetPaused env k p).2.event_instances_ = b.event_instances_) ∧
    (∀ k v, (b.SetVolume env k v).2.event_instances_ = b.event_instances_) ∧
    (∀ p, (b.SetMasterPaused env p).2.event_instances_ = b.event_instances_) ∧
    b.Update.event_instances_ = b.event_instances_ := by
  refine ⟨?_, ?_, ?_, ?_, ?_, ?_, ?_⟩
  · simp only [FmodBridge.step]
    split
    · next r hr => exact bridge_Initialize_registry env b r hr
    · rfl
  · intro p; unfold FmodBridge.LoadBank; split
    · rfl
    · simp only []; split_ifs <;> rfl
  · intro k n v; unfold FmodBridge.SetParameter; split
    · rfl
    · simp only []; split_ifs <;> rfl
  · intro k p; unfold FmodBridge.SetPaused; split
    · rfl
    · simp only []; split_ifs <;> rfl
  · intro k v; unfold FmodBridge.SetVolume; split
    · rfl
    · simp only []; split_ifs <;> rfl
  · intro p; exact (bridge_SetMasterPaused_spec env p b).1
  · unfold FmodBridge.Update; split <;> rfl

theorem jni_keeps_registry (env : Env) (j : FmodJni) :
    (j.nativeInitialize env).2.eventInstances = j.eventInstances ∧
    (∀ d, (j.nativeLoadBank env d).2.eventInstances = j.eventInstances) ∧
    (∀ k n v, (j.nativeSetParameter env k n v).2.eventInstances = j.eventInstances) ∧
    (∀ k p, (j.nativeSetPaused env k p).2.eventInstances = j.eventInstances) ∧
    (∀ k v, (j.nativeSetVolume env k v).2.eventInstances = j.eventInstances) ∧
    (∀ p, (j.nativeSetMasterPaused env p).2.eventInstances = j.eventInstances) ∧
    j.nativeUpdate.eventInstances = j.eventInstances := by
  refine ⟨?_, ?_, ?_, ?_, ?_, ?_, ?_⟩
  · unfold FmodJni.nativeInitialize; simp only []; split_ifs <;> rfl
  · intro p; unfold FmodJni.nativeLoadBank; split
    · rfl
    · simp only []; split_ifs <;> rfl
  · intro k n v; unfold FmodJni.nativeSetParameter; split
    · rfl
    · simp only []; split_ifs <;> rfl
  · intro k p; unfold FmodJni.nativeSetPaused; split
    · rfl
    · simp only []; split_ifs <;> rfl
  · intro k v; unfold FmodJni.nativeSetVolume; split
    · rfl
    · simp only []; split_ifs <;> rfl
  · intro p; exact (jni_nativeSetMasterPaused_spec env p j).1
  · unfold FmodJni.nativeUpdate; split <;> rfl

theorem registry_frame_of_same {P Q R : Prop} {key : String} {r1 r2 : Registry}
    (h : r2.find key = r1.find key) :
    (r1.find key = none → r2.find key ≠ none → P) ∧
    (r1.find key ≠ none → r2.find key = none → Q) ∧
    (∀ h1 h2, r1.find key = some h1 → r2.find key = some h2 → h1 ≠ h2 → R) := by
  rw [h]
  refine ⟨fun a b => absurd a b, fun a b => absurd b a, fun h1 h2 a b c => ?_⟩
  rw [a] at b
  exact absurd (Option.some.inj b) c

theorem bridge_step_frame (env : Env) (b : FmodBridge) (key : String) (op : BridgeOp) :
    (b.event_instances_.find key = none →
      (b.step env op).event_instances_.find key ≠ none →
      op = BridgeOp.PlayEvent key ∧ (b.PlayEvent env key).1 = true) ∧
    (b.event_instances_.find key ≠ none →
      (b.step env op).event_instances_.find key = none →
      op = BridgeOp.StopEvent key ∨ op = BridgeOp.PlayEvent key ∨ op = BridgeOp.Release) ∧
    (∀ h1 h2, b.event_instances_.find key = some h1 →
      (b.step env op).event_instances_.find key = some h2 → h1 ≠ h2 →
      op = BridgeOp.PlayEvent key ∨ op = BridgeOp.StopEvent key) := by
  have hk := bridge_keeps_registry env b
  cases op with
  | Initialize => exact registry_frame_of_same (by rw [hk.1])
  | LoadBank p => exact registry_frame_of_same (by simp only [FmodBridge.step]; rw [hk.2.1])
  | SetParameter k n v =>
    exact registry_frame_of_same (by simp only [FmodBridge.step]; rw [hk.2.2.1])
  | SetPaused k p =>
    exact registry_frame_of_same (by simp only [FmodBridge.step]; rw [hk.2.2.2.1])
  | SetVolume k v =>
    exact registry_frame_of_same (by simp only [FmodBridge.step]; rw [hk.2.2.2.2.1])
  | SetMasterPaused p =>
    exact registry_frame_of_same (by simp only [FmodBridge.step]; rw [hk.2.2.2.2.2.1])
  | Update => exact registry_frame_of_same (by simp only [FmodBridge.step]; rw [hk.2.2.2.2.2.2])
  | Release =>
    have hr : (b.step env BridgeOp.Release).event_instances_.find key = none := by
      simp only [FmodBridge.step, bridge_Release_registry, Registry.find]
    exact ⟨fun _ h => absurd hr h, fun _ _ => Or.inr (Or.inr rfl),
      fun _ _ _ h _ => by rw [hr] at h; cases h⟩
  | StopEvent k =>
    by_cases hkk : key = k
    · subst hkk
      exact ⟨fun hf hn => by
          rw [FmodBridge.step, bridge_StopEvent_absent env key b hf] at hn
          exact absurd hf hn,
        fun _ _ => Or.inl rfl, fun _ _ _ _ _ => Or.inr rfl⟩
    · exact registry_frame_of_same (by
        simp only [FmodBridge.step]; exact bridge_StopEvent_frame env k b key hkk)
  | PlayEvent k =>
    by_cases hkk : key = k
    · subst hkk
      refine ⟨fun hf hn => ⟨rfl, ?_⟩, fun _ _ => Or.inr (Or.inl rfl),
        fun _ _ _ _ _ => Or.inl rfl⟩
      cases ht : (b.PlayEvent env key).1 with
      | true => rfl
      | false => exact absurd ((bridge_PlayEvent_frame env key b).2 hf ht) hn
    · exact registry_frame_of_same (by
        simp only [FmodBridge.step]; exact (bridge_PlayEvent_frame env k b).1 key hkk)

theorem jni_step_frame (env : Env) (j : FmodJni) (key : String) (op : JniOp) :
    (j.eventInstances.find key = none →
      (j.step env op).eventInstances.find key ≠ none →
      op = JniOp.nativePlayEvent key ∧ (j.nativePlayEvent env key).1 = true) ∧
    (j.eventInstances.find key ≠ none →
      (j.step env op).eventInstances.find key = none →
      op = JniOp.nativeStopEvent key ∨ op = JniOp.nativePlayEvent key ∨
        op = JniOp.nativeRelease) ∧
    (∀ h1 h2, j.eventInstances.find key = some h1 →
      (j.step env op).eventInstances.find key = some h2 → h1 ≠ h2 →
      op = JniOp.nativePlayEvent key ∨ op = JniOp.nativeStopEvent key) := by
  have hk := jni_keeps_registry env j
  cases op with
  | nativeInitialize =>
    exact registry_frame_of_same (by simp only [FmodJni.step]; rw [hk.1])
  | nativeLoadBank p =>
    exact registry_frame_of_same (by simp only [FmodJni.step]; rw [hk.2.1])
  | nativeSetParameter k n v =>
    exact registry_frame_of_same (by simp only [FmodJni.step]; rw [hk.2.2.1])
  | nativeSetPaused k p =>
    exact registry_frame_of_same (by simp only [FmodJni.step]; rw [hk.2.2.2.1])
  | nativeSetVolume k v =>
    exact registry_frame_of_same (by simp only [FmodJni.step]; rw [hk.2.2.2.2.1])
  | nativeSetMasterPaused p =>
    exact registry_frame_of_same (by simp only [FmodJni.step]; rw [hk.2.2.2.2.2.1])
  | nativeUpdate =>
    exact registry_frame_of_same (by simp only [FmodJni.step]; rw [hk.2.2.2.2.2.2])
  | nativeRelease =>
    have hr : (j.step env JniOp.nativeRelease).eventInstances.find key = none := by
      simp only [FmodJni.step, jni_nativeRelease_registry, Registry.find]
    exact ⟨fun _ h => absurd hr h, fun _ _ => Or.inr (Or.inr rfl),
      fun _ _ _ h _ => by rw [hr] at h; cases h⟩
  | nativeStopEvent k =>
    by_cases hkk : key = k
    · subst hkk
      exact ⟨fun hf hn => by
          rw [FmodJni.step, jni_nativeStopEvent_absent env key j hf] at hn
          exact absurd hf hn,
        fun _ _ => Or.inl rfl, fun _ _ _ _ _ => Or.inr rfl⟩
    · exact registry_frame_of_same (by
        simp only [FmodJni.step]; exact jni_nativeStopEvent_frame env k j key hkk)
  | nativePlayEvent k =>
    by_cases hkk : key = k
    · subst hkk
      refine ⟨fun hf hn => ⟨rfl, ?_⟩, fun _ _ => Or.inr (Or.inl rfl),
        fun _ _ _ _ _ => Or.inl rfl⟩
      cases ht : (j.nativePlayEvent env key).1 with
      | true => rfl
      | false => exact absurd ((jni_nativePlayEvent_frame env key j).2 hf ht) hn
    · exact registry_frame_of_same (by
        simp only [FmodJni.step]; exact (jni_nativePlayEvent_frame env k j).1 key hkk)

/-- C16 (registry entry frame). For every state, every engine behaviour, every
operation and every key: if the key has no entry before the operation and has
one after it, the operation is a play of that key and it returned true; if the
key has an entry before and none after, the operation is a stop of that key, a
play of that key or `Release()`; `LoadBank`, `SetParameter`, `SetPaused`,
`SetVolume`, `SetMasterPaused` and `Update` leave the registry as it is; and if
the handle stored under the key differs before and after, the operation is a
play or a stop of that very key.  Stated for the Windows bridge (operation
`op`) and for the Android binding (operation `jop`). -/
theorem C16_registry_frame (env : Env) (b : FmodBridge) (j : FmodJni) (key : String)
    (op : BridgeOp) (jop : JniOp) :
    ((b.event_instances_.find key = none →
        (b.step env op).event_instances_.find key ≠ none →
        op = BridgeOp.PlayEvent key ∧ (b.PlayEvent env key).1 = true) ∧
      (b.event_instances_.find key ≠ none →
        (b.step env op).event_instances_.find key = none →
        op = BridgeOp.StopEvent key ∨ op = BridgeOp.PlayEvent key ∨ op = BridgeOp.Release) ∧
      (∀ h1 h2, b.event_instances_.find key = some h1 →
        (b.step env op).event_instances_.find key = some h2 → h1 ≠ h2 →
        op = BridgeOp.PlayEvent key ∨ op = BridgeOp.StopEvent key) ∧
      (∀ p, (b.LoadBank env p).2.event_instances_ = b.event_instances_) ∧
      (∀ k n v, (b.SetParameter env k n v).2.event_instances_ = b.event_instances_) ∧
      (∀ k p, (b.SetPaused env k p).2.event_instances_ = b.event_instances_) ∧
      (∀ k v, (b.SetVolume env k v).2.event_instances_ = b.event_instances_) ∧
      (∀ p, (b.SetMasterPaused env p).2.event_instances_ = b.event_instances_) ∧
      b.Update.event_instances_ = b.event_instances_) ∧
    ((j.eventInstances.find key = none →
        (j.step env jop).eventInstances.find key ≠ none →
        jop = JniOp.nativePlayEvent key ∧ (j.nativePlayEvent env key).1 = true) ∧
      (j.eventInstances.find key ≠ none →
        (j.step env jop).eventInstances.find key = none →
        jop = JniOp.nativeStopEvent key ∨ jop = JniOp.nativePlayEvent key ∨
          jop = JniOp.nativeRelease) ∧
      (∀ h1 h2, j.eventInstances.find key = some h1 →
        (j.step env jop).eventInstances.find key = some h2 → h1 ≠ h2 →
        jop = JniOp.nativePlayEvent key ∨ jop = JniOp.nativeStopEvent key) ∧
      (∀ d, (j.nativeLoadBank env d).2.eventInstances = j.eventInstances) ∧
      (∀ k n v, (j.nativeSetParameter env k n v).2.eventInstances = j.eventInstances) ∧
      (∀ k p, (j.nativeSetPaused env k p).2.eventInstances = j.eventInstances) ∧
      (∀ k v, (j.nativeSetVolume env k v).2.eventInstances = j.eventInstances) ∧
      (∀ p, (j.nativeSetMasterPaused env p).2.eventInstances = j.eventInstances) ∧
      j.nativeUpdate.eventInstances = j.eventInstances) :=
  ⟨⟨(bridge_step_frame env b key op).1, (bridge_step_frame env b key op).2.1,
      (bridge_step_frame env b key op).2.2, (bridge_keeps_registry env b).2⟩,
   ⟨(jni_step_frame env j key jop).1, (jni_step_frame env j key jop).2.1,
      (jni_step_frame env j key jop).2.2, (jni_keeps_registry env j).2⟩⟩

/-- C16, witness: the first play of `event:/A` on an initialized bridge adds the
entry of `event:/A`; the operation is the play of that key and it returned true. -/
theorem C16_registry_frame_witness :
    (BridgeOp.PlayEvent "event:/A" = BridgeOp.PlayEvent "event:/A" ∧
      (FmodBridge.ready.PlayEvent (Env.good FMOD_STUDIO_PLAYBACK_PLAYING) "event:/A").1
        = true) :=
  (C16_registry_frame (Env.good FMOD_STUDIO_PLAYBACK_PLAYING) FmodBridge.ready FmodJni.ready
    "event:/A" (BridgeOp.PlayEvent "event:/A") (JniOp.nativePlayEvent "event:/A")).1.1
    (by decide) (by decide)

/-! ## C13: the invalid-arguments boundary -/

theorem wellFormedArgs_eq (required : List (String × ArgKind)) (a : Option EncodableValue) :
    wellFormedArgs required a =
      match a.bind EncodableValue.getMap with
      | some m => required.all (fun r =>
          match EncodableMap.find r.1 m with
          | some v => v.hasKind r.2
          | none => false)
      | none => false := by
  cases a with
  | none => rfl
  | some v => cases v <;> rfl

theorem hasKind_string (v : EncodableValue) :
    v.hasKind ArgKind.string = v.getString.isSome := by cases v <;> rfl

theorem hasKind_bool (v : EncodableValue) :
    v.hasKind ArgKind.bool = v.getBool.isSome := by cases v <;> rfl

theorem hasKind_double (v : EncodableValue) :
    v.hasKind ArgKind.double = v.getDouble.isSome := by cases v <;> rfl

theorem hasKind_list (v : EncodableValue) :
    v.hasKind ArgKind.list = v.getList.isSome := by cases v <;> rfl

theorem invalidArgs_loadBanks (host : Host) (env : Env) (a : Option EncodableValue)
    (p : FmodFlutterPlugin) :
    (p.HandleMethodCall host env ⟨"loadBanks", a⟩).map (fun r => r.1.isInvalidArgs)
      = some (!(wellFormedArgs (requiredArgs ArgKind.list "loadBanks") a)) ∧
    (wellFormedArgs (requiredArgs ArgKind.list "loadBanks") a = false →
      (p.HandleMethodCall host env ⟨"loadBanks", a⟩).map Prod.snd = some p) := by
  rw [wellFormedArgs_eq]
  simp only [FmodFlutterPlugin.HandleMethodCall, requiredArgs]
  simp only [String.reduceEq, if_false, if_true, reduceIte]
  cases a.bind EncodableValue.getMap with
  | none => simp [FmodFlutterPlugin.invalidArgs, Reply.isInvalidArgs]
  | some m =>
    simp only [List.all_cons, List.all_nil, Bool.and_true, hasKind_string, hasKind_double,
      hasKind_bool, hasKind_list]
    cases EncodableMap.find "banks" m with
    | none => simp [FmodFlutterPlugin.invalidArgs, Reply.isInvalidArgs]
    | some v =>
      cases hv : v.getList <;>
        simp [FmodFlutterPlugin.invalidArgs, Reply.isInvalidArgs, hv]

theorem invalidArgs_playEvent (host : Host) (env : Env) (a : Option EncodableValue)
    (p : FmodFlutterPlugin) :
    (p.HandleMethodCall host env ⟨"playEvent", a⟩).map (fun r => r.1.isInvalidArgs)
      = some (!(wellFormedArgs (requiredArgs ArgKind.list "playEvent") a)) ∧
    (wellFormedArgs (requiredArgs ArgKind.list "playEvent") a = false →
      (p.HandleMethodCall host env ⟨"playEvent", a⟩).map Prod.snd = some p) := by
  rw [wellFormedArgs_eq]
  simp only [FmodFlutterPlugin.HandleMethodCall, requiredArgs]
  simp only [String.reduceEq, if_false, if_true, reduceIte]
  cases a.bind EncodableValue.getMap with
  | none => simp [FmodFlutterPlugin.invalidArgs, Reply.isInvalidArgs]
  | some m =>
    simp only [List.all_cons, List.all_nil, Bool.and_true, hasKind_string, hasKind_double,
      hasKind_bool, hasKind_list]
    cases EncodableMap.find "path" m with
    | none => simp [FmodFlutterPlugin.invalidArgs, Reply.isInvalidArgs]
    | some v =>
      cases hv : v.getString <;>
        simp [FmodFlutterPlugin.invalidArgs, Reply.isInvalidArgs, hv]

theorem invalidArgs_stopEvent (host : Host) (env : Env) (a : Option EncodableValue)
    (p : FmodFlutterPlugin) :
    (p.HandleMethodCall host env ⟨"stopEvent", a⟩).map (fun r => r.1.isInvalidArgs)
      = some (!(wellFormedArgs (requiredArgs ArgKind.list "stopEvent") a)) ∧
    (wellFormedArgs (requiredArgs ArgKind.list "stopEvent") a = false →
      (p.HandleMethodCall host env ⟨"stopEvent", a⟩).map Prod.snd = some p) := by
  rw [wellFormedArgs_eq]
  simp only [FmodFlutterPlugin.HandleMethodCall, requiredArgs]
  simp only [String.reduceEq, if_false, if_true, reduceIte]
  cases a.bind EncodableValue.getMap with
  | none => simp [FmodFlutterPlugin.invalidArgs, Reply.isInvalidArgs]
  | some m =>
    simp only [List.all_cons, List.all_nil, Bool.and_true, hasKind_string, hasKind_double,
      hasKind_bool, hasKind_list]
    cases EncodableMap.find "path" m with
    | none => simp [FmodFlutterPlugin.invalidArgs, Reply.isInvalidArgs]
    | some v =>
      cases hv : v.getString <;>
        simp [FmodFlutterPlugin.invalidArgs, Reply.isInvalidArgs, hv]

theorem invalidArgs_setParameter (host : Host) (env : Env) (a : Option EncodableValue)
    (p : FmodFlutterPlugin) :
    (p.HandleMethodCall host env ⟨"setParameter", a⟩).map (fun r => r.1.isInvalidArgs)
      = some (!(wellFormedArgs (requiredArgs ArgKind.list "setParameter") a)) ∧
    (wellFormedArgs (requiredArgs ArgKind.list "setParameter") a = false →
      (p.HandleMethodCall host env ⟨"setParameter", a⟩).map Prod.snd = some p) := by
  rw [wellFormedArgs_eq]
  simp only [FmodFlutterPlugin.HandleMethodCall, requiredArgs]
  simp only [String.reduceEq, if_false, if_true, reduceIte]
  cases a.bind EncodableValue.getMap with
  | none => simp [FmodFlutterPlugin.invalidArgs, Reply.isInvalidArgs]
  | some m =>
    simp only [List.all_cons, List.all_nil, Bool.and_true, hasKind_string, hasKind_double,
      hasKind_bool, hasKind_list]
    cases EncodableMap.find "path" m <;> cases EncodableMap.find "parameter" m <;>
      cases EncodableMap.find "value" m <;>
      simp [FmodFlutterPlugin.invalidArgs, Reply.isInvalidArgs]
    rename_i v1 v2 v3
    cases hv1 : v1.getString <;> cases hv2 : v2.getString <;> cases hv3 : v3.getDouble <;>
      simp [FmodFlutterPlugin.invalidArgs, Reply.isInvalidArgs, hv1, hv2, hv3]

theorem invalidArgs_setPaused (host : Host) (env : Env) (a : Option EncodableValue)
    (p : FmodFlutterPlugin) :
    (p.HandleMethodCall host env ⟨"setPaused", a⟩).map (fun r => r.1.isInvalidArgs)
      = some (!(wellFormedArgs (requiredArgs ArgKind.list "setPaused") a)) ∧
    (wellFormedArgs (requiredArgs ArgKind.list "setPaused") a = false →
      (p.HandleMethodCall host env ⟨"setPaused", a⟩).map Prod.snd = some p) := by
  rw [wellFormedArgs_eq]
  simp only [FmodFlutterPlugin.HandleMethodCall, requiredArgs]
  simp only [String.reduceEq, if_false, if_true, reduceIte]
  cases a.bind EncodableValue.getMap with
  | none => simp [FmodFlutterPlugin.invalidArgs, Reply.isInvalidArgs]
  | some m =>
    simp only [List.all_cons, List.all_nil, Bool.and_true, hasKind_string, hasKind_double,
      hasKind_bool, hasKind_list]
    cases EncodableMap.find "path" m <;> cases EncodableMap.find "paused" m <;>
      simp [FmodFlutterPlugin.invalidArgs, Reply.isInvalidArgs]
    rename_i v1 v2
    cases hv1 : v1.getString <;> cases hv2 : v2.getBool <;>
      simp [FmodFlutterPlugin.invalidArgs, Reply.isInvalidArgs, hv1, hv2]

theorem invalidArgs_setVolume (host : Host) (env : Env) (a : Option EncodableValue)
    (p : FmodFlutterPlugin) :
    (p.HandleMethodCall host env ⟨"setVolume", a⟩).map (fun r => r.1.isInvalidArgs)
      = some (!(wellFormedArgs (requiredArgs ArgKind.list "setVolume") a)) ∧
    (wellFormedArgs (requiredArgs ArgKind.list "setVolume") a = false →
      (p.HandleMethodCall host env ⟨"setVolume", a⟩).map Prod.snd = some p) := by
  rw [wellFormedArgs_eq]
  simp only [FmodFlutterPlugin.HandleMethodCall, requiredArgs]
  simp only [String.reduceEq, if_false, if_true, reduceIte]
  cases a.bind EncodableValue.getMap with
  | none => simp [FmodFlutterPlugin.invalidArgs, Reply.isInvalidArgs]
  | some m =>
    simp only [List.all_cons, List.all_nil, Bool.and_true, hasKind_string, hasKind_double,
      hasKind_bool, hasKind_list]
    cases EncodableMap.find "path" m <;> cases EncodableMap.find "volume" m <;>
      simp [FmodFlutterPlugin.invalidArgs, Reply.isInvalidArgs]
    rename_i v1 v2
    cases hv1 : v1.getString <;> cases hv2 : v2.getDouble <;>
      simp [FmodFlutterPlugin.invalidArgs, Reply.isInvalidArgs, hv1, hv2]

theorem invalidArgs_setMasterPaused (host : Host) (env : Env) (a : Option EncodableValue)
    (p : FmodFlutterPlugin) :
    (p.HandleMethodCall host env ⟨"setMasterPaused", a⟩).map (fun r => r.1.isInvalidArgs)
      = some (!(wellFormedArgs (requiredArgs ArgKind.list "setMasterPaused") a)) ∧
    (wellFormedArgs (requiredArgs ArgKind.list "setMasterPaused") a = false →
      (p.HandleMethodCall host env ⟨"setMasterPaused", a⟩).map Prod.snd = some p) := by
  rw [wellFormedArgs_eq]
  simp only [FmodFlutterPlugin.HandleMethodCall, requiredArgs]
  simp only [String.reduceEq, if_false, if_true, reduceIte]
  cases a.bind EncodableValue.getMap with
  | none => simp [FmodFlutterPlugin.invalidArgs, Reply.isInvalidArgs]
  | some m =>
    simp only [List.all_cons, List.all_nil, Bool.and_true, hasKind_string, hasKind_double,
      hasKind_bool, hasKind_list]
    cases EncodableMap.find "paused" m with
    | none => simp [FmodFlutterPlugin.invalidArgs, Reply.isInvalidArgs]
    | some v =>
      cases hv : v.getBool <;>
        simp [FmodFlutterPlugin.invalidArgs, Reply.isInvalidArgs, hv]

theorem loadBanksLoop_skips (host : Host) (env : Env) :
    ∀ (banks : EncodableList) (all_loaded : Bool) (p : FmodFlutterPlugin),
      FmodFlutterPlugin.loadBanksLoop host env banks all_loaded p
        = ((all_loaded && (loadBanksInOrder host env
              (banks.filterMap EncodableValue.getString) p.fmod_bridge_).1.all id),
           { fmod_bridge_ := (loadBanksInOrder host env
               (banks.filterMap EncodableValue.getString) p.fmod_bridge_).2,
             invoked := p.invoked ++
               (banks.filterMap EncodableValue.getString).map
                 (fun q => BridgeOp.LoadBank (ResolveAssetPath host q)) })
  | [], all_loaded, p => by
      simp [FmodFlutterPlugin.loadBanksLoop, loadBanksInOrder]
  | bank :: rest, all_loaded, p => by
      cases hv : bank.getString with
      | none =>
        simp only [FmodFlutterPlugin.loadBanksLoop, hv, List.filterMap_cons]
        exact loadBanksLoop_skips host env rest all_loaded p
      | some path =>
        simp only [FmodFlutterPlugin.loadBanksLoop, hv, List.filterMap_cons, loadBanksInOrder]
        rw [loadBanksLoop_skips host env rest]
        simp only [FmodFlutterPlugin.called, List.all_cons, id, List.append_assoc,
          List.singleton_append, List.map_cons]
        cases (p.fmod_bridge_.LoadBank env (ResolveAssetPath host path)).1 <;>
          cases all_loaded <;> simp

/-- C13, counterexample. A `loadBanks` call whose `banks` list holds the integer
42 is malformed in the sense of the claim (an element is not a string path),
yet the reply is not `INVALID_ARGS`: it is the success value `true`; and with
the list `["a.bank", 42]` the bridge operation `LoadBank("a.bank")` is invoked. -/
theorem C13_counterexample :
    wellFormedArgs (requiredArgs ArgKind.stringList "loadBanks")
        (some (.map [(.string "banks", .list [.int32 42])])) = false ∧
    (FmodFlutterPlugin.HandleMethodCall Host.plain (Env.good FMOD_STUDIO_PLAYBACK_PLAYING)
        { method_name := "loadBanks",
          arguments := some (.map [(.string "banks", .list [.int32 42])]) }
        { fmod_bridge_ := FmodBridge.ready, invoked := [] }).map
        (fun r => r.1.isInvalidArgs) = some false ∧
    (FmodFlutterPlugin.HandleMethodCall Host.plain (Env.good FMOD_STUDIO_PLAYBACK_PLAYING)
        { method_name := "loadBanks",
          arguments := some (.map [(.string "banks", .list [.int32 42])]) }
        { fmod_bridge_ := FmodBridge.ready, invoked := [] }).map Prod.fst
      = some (Reply.Success (some (.bool true))) ∧
    wellFormedArgs (requiredArgs ArgKind.stringList "loadBanks")
        (some (.map [(.string "banks", .list [.string "a.bank", .int32 42])])) = false ∧
    (FmodFlutterPlugin.HandleMethodCall Host.plain (Env.good FMOD_STUDIO_PLAYBACK_PLAYING)
        { method_name := "loadBanks",
          arguments := some (.map [(.string "banks", .list [.string "a.bank", .int32 42])]) }
        { fmod_bridge_ := FmodBridge.ready, invoked := [] }).map (fun r => r.2.invoked)
      = some [BridgeOp.LoadBank "a.bank"] := by
  refine ⟨by decide, by decide, rfl, by decide, by decide⟩

/-- C13, amended (invalid-arguments boundary). For each of `loadBanks`,
`playEvent`, `stopEvent`, `setParameter`, `setPaused`, `setVolume` and
`setMasterPaused`, every host and every engine behaviour, the handler returns
and its reply is the `INVALID_ARGS` error exactly when the arguments are not a
map, a required key is absent, or the value under a required key has the wrong
type, where the `banks` value is only required to be a list; in that case the
plugin, its bridge included, is unchanged and no bridge operation is invoked.
With arguments well formed in this sense the reply is never `INVALID_ARGS`,
whatever the engine does.  The elements of a `banks` list are not checked for
this error: for every list, the elements that are not strings are skipped,
wherever they stand, and the handler does with the string elements, in order,
what it does with the list of those strings alone: one `LoadBank` per resolved
path, and the reply true exactly when all of these returned true. -/
theorem C13_invalid_args_boundary (host : Host) (env : Env) (p : FmodFlutterPlugin) :
    (∀ (method : String) (a : Option EncodableValue), method ∈ boundaryMethods →
      (p.HandleMethodCall host env ⟨method, a⟩).map (fun r => r.1.isInvalidArgs)
        = some (!(wellFormedArgs (requiredArgs ArgKind.list method) a)) ∧
      (wellFormedArgs (requiredArgs ArgKind.list method) a = false →
        (p.HandleMethodCall host env ⟨method, a⟩).map Prod.snd = some p)) ∧
    (∀ (m : EncodableMap) (banks : EncodableList),
      EncodableMap.find "banks" m = some (EncodableValue.list banks) →
      p.HandleMethodCall host env ⟨"loadBanks", some (EncodableValue.map m)⟩
        = some (Reply.Success (some (EncodableValue.bool
            ((loadBanksInOrder host env (banks.filterMap EncodableValue.getString)
              p.fmod_bridge_).1.all id))),
           { fmod_bridge_ := (loadBanksInOrder host env
               (banks.filterMap EncodableValue.getString) p.fmod_bridge_).2,
             invoked := p.invoked ++
               (banks.filterMap EncodableValue.getString).map
                 (fun q => BridgeOp.LoadBank (ResolveAssetPath host q)) })) := by
  constructor
  · intro method a hm
    simp only [boundaryMethods, List.mem_cons, List.mem_singleton, List.not_mem_nil,
      or_false] at hm
    rcases hm with h | h | h | h | h | h | h <;> subst h
    · exact invalidArgs_loadBanks host env a p
    · exact invalidArgs_playEvent host env a p
    · exact invalidArgs_stopEvent host env a p
    · exact invalidArgs_setParameter host env a p
    · exact invalidArgs_setPaused host env a p
    · exact invalidArgs_setVolume host env a p
    · exact invalidArgs_setMasterPaused host env a p
  · intro m banks hbanks
    simp only [FmodFlutterPlugin.HandleMethodCall, String.reduceEq, if_false, if_true,
      reduceIte, Option.bind, EncodableValue.getMap, hbanks, EncodableValue.getList]
    rw [loadBanksLoop_skips]
    simp

/-- C13, witness: a `setParameter` call whose value is an integer instead of a
double is answered with `INVALID_ARGS`; a `loadBanks` call with the list
`[42, "a.bank"]` skips the integer and loads `a.bank`. -/
theorem C13_invalid_args_boundary_witness :
    (FmodFlutterPlugin.HandleMethodCall Host.plain (Env.good FMOD_STUDIO_PLAYBACK_PLAYING)
        { method_name := "setParameter",
          arguments := some (.map [(.string "path", .string "event:/A"),
            (.string "parameter", .string "p"), (.string "value", .int32 1)]) }
        { fmod_bridge_ := FmodBridge.ready, invoked := [] }).map (fun r => r.1.isInvalidArgs)
      = some true ∧
    (FmodFlutterPlugin.HandleMethodCall Host.plain (Env.good FMOD_STUDIO_PLAYBACK_PLAYING)
        { method_name := "loadBanks",
          arguments := some (.map [(.string "banks", .list [.int32 42, .string "a.bank"])]) }
        { fmod_bridge_ := FmodBridge.ready, invoked := [] }).map (fun r => r.2.invoked)
      = some [BridgeOp.LoadBank "a.bank"] :=
  ⟨((C13_invalid_args_boundary Host.plain (Env.good FMOD_STUDIO_PLAYBACK_PLAYING)
      { fmod_bridge_ := FmodBridge.ready, invoked := [] }).1 "setParameter"
      (some (.map [(.string "path", .string "event:/A"),
        (.string "parameter", .string "p"), (.string "value", .int32 1)]))
      (by decide)).1,
   congrArg (Option.map (fun r => r.2.invoked))
    ((C13_invalid_args_boundary Host.plain (Env.good FMOD_STUDIO_PLAYBACK_PLAYING)
      { fmod_bridge_ := FmodBridge.ready, invoked := [] }).2
      [(.string "banks", .list [.int32 42, .string "a.bank"])]
      [.int32 42, .string "a.bank"] rfl)⟩

/-! ## C14: loadBanks -/

theorem loadBanksLoop_strings (host : Host) (env : Env) :
    ∀ (paths : List String) (all_loaded : Bool) (p : FmodFlutterPlugin),
      FmodFlutterPlugin.loadBanksLoop host env (paths.map EncodableValue.string) all_loaded p
        = ((all_loaded && (loadBanksInOrder host env paths p.fmod_bridge_).1.all id),
           { fmod_bridge_ := (loadBanksInOrder host env paths p.fmod_bridge_).2,
             invoked := p.invoked ++
               paths.map (fun q => BridgeOp.LoadBank (ResolveAssetPath host q)) })
  | [], all_loaded, p => by
      simp [FmodFlutterPlugin.loadBanksLoop, loadBanksInOrder]
  | path :: rest, all_loaded, p => by
      simp only [List.map_cons, FmodFlutterPlugin.loadBanksLoop, EncodableValue.getString,
        loadBanksInOrder]
      rw [loadBanksLoop_strings host env rest]
      simp only [FmodFlutterPlugin.called, List.all_cons, id, List.append_assoc,
        List.singleton_append]
      cases (p.fmod_bridge_.LoadBank env (ResolveAssetPath host path)).1 <;>
        cases all_loaded <;> simp

theorem bridge_LoadBank_result (env : Env) (path : String) (b : FmodBridge) (sys : Handle)
    (hs : b.studio_system_ = some sys) :
    b.LoadBank env path = ((env b.world.log.length).ok,
      { b with world := { b.world with log := b.world.log ++
        [Studio_System_LoadBankFile sys path] } }) := by
  unfold FmodBridge.LoadBank
  rw [hs]
  simp only [World.result, World.emit]
  cases (env b.world.log.length).ok <;> simp

theorem loadBanksInOrder_length (host : Host) (env : Env) :
    ∀ (paths : List String) (b : FmodBridge),
      (loadBanksInOrder host env paths b).1.length = paths.length
  | [], b => rfl
  | path :: rest, b => by
      simp only [loadBanksInOrder, List.length_cons]
      rw [loadBanksInOrder_length host env rest]

theorem loadBanksInOrder_engine (host : Host) (env : Env) (sys : Handle) :
    ∀ (paths : List String) (b : FmodBridge), b.studio_system_ = some sys →
      (loadBanksInOrder host env paths b).1
        = (List.range paths.length).map (fun i => (env (b.world.log.length + i)).ok) ∧
      (loadBanksInOrder host env paths b).2.world.log
        = b.world.log ++
          paths.map (fun q => Studio_System_LoadBankFile sys (ResolveAssetPath host q)) ∧
      (loadBanksInOrder host env paths b).2.event_instances_ = b.event_instances_
  | [], b, _ => by simp [loadBanksInOrder]
  | path :: rest, b, hs => by
      simp only [loadBanksInOrder, bridge_LoadBank_result env _ b sys hs]
      have ih := loadBanksInOrder_engine host env sys rest
        { b with world := { b.world with log := b.world.log ++
          [Studio_System_LoadBankFile sys (ResolveAssetPath host path)] } } hs
      simp only [List.length_append, List.length_singleton] at ih
      rw [ih.1, ih.2.1, ih.2.2]
      refine ⟨?_, by simp, rfl⟩
      rw [List.length_cons, List.range_succ_eq_map]
      simp only [List.map_cons, List.map_map, Nat.add_zero, List.cons.injEq, true_and]
      apply List.map_congr_left
      intro i _
      simp only [Function.comp]
      rw [Nat.add_assoc, Nat.add_comm 1 i]

theorem loadBanksInOrder_uninitialized (host : Host) (env : Env) :
    ∀ (paths : List String) (b : FmodBridge), b.studio_system_ = none →
      (loadBanksInOrder host env paths b).1 = paths.map (fun _ => false) ∧
      (loadBanksInOrder host env paths b).2 = b
  | [], b, _ => by simp [loadBanksInOrder]
  | path :: rest, b, hs => by
      have h1 : b.LoadBank env (ResolveAssetPath host path) = (false, b) := by
        unfold FmodBridge.LoadBank
        rw [hs]
      simp only [loadBanksInOrder, h1, List.map_cons]
      have ih := loadBanksInOrder_uninitialized host env rest b hs
      rw [ih.1, ih.2]
      exact ⟨rfl, rfl⟩

/-- C14 (loadBanks result). For every host, every engine behaviour and every
`loadBanks` call whose `banks` value is a list of string paths: the handler
calls `LoadBank` on the resolved form of each path once, in list order, also
after a failure (the calls it makes and the bridge it leaves are those of
`loadBanksInOrder`), and replies with the boolean that is true if and only if
every one of these calls returned true; the empty list yields true.  On an
initialized bridge the i-th call is the i-th next engine call, a bank-file load
of the i-th resolved path, and succeeds exactly when the engine accepts it; on
an uninitialized bridge every call fails without engine call. -/
theorem C14_loadBanks_result (host : Host) (env : Env) (p : FmodFlutterPlugin)
    (m : EncodableMap) (paths : List String)
    (hbanks : EncodableMap.find "banks" m
      = some (EncodableValue.list (paths.map EncodableValue.string))) :
    p.HandleMethodCall host env ⟨"loadBanks", some (EncodableValue.map m)⟩
      = some (Reply.Success (some (EncodableValue.bool
          ((loadBanksInOrder host env paths p.fmod_bridge_).1.all id))),
         { fmod_bridge_ := (loadBanksInOrder host env paths p.fmod_bridge_).2,
           invoked := p.invoked ++
             paths.map (fun q => BridgeOp.LoadBank (ResolveAssetPath host q)) }) ∧
    (loadBanksInOrder host env paths p.fmod_bridge_).1.length = paths.length ∧
    ((loadBanksInOrder host env paths p.fmod_bridge_).1.all id = true ↔
      ∀ r, r ∈ (loadBanksInOrder host env paths p.fmod_bridge_).1 → r = true) ∧
    (paths = [] → (loadBanksInOrder host env paths p.fmod_bridge_).1.all id = true) ∧
    (∀ sys, p.fmod_bridge_.studio_system_ = some sys →
      (loadBanksInOrder host env paths p.fmod_bridge_).1
        = (List.range paths.length).map
            (fun i => (env (p.fmod_bridge_.world.log.length + i)).ok) ∧
      (loadBanksInOrder host env paths p.fmod_bridge_).2.world.log
        = p.fmod_bridge_.world.log ++
          paths.map (fun q => Studio_System_LoadBankFile sys (ResolveAssetPath host q))) ∧
    (p.fmod_bridge_.studio_system_ = none →
      (loadBanksInOrder host env paths p.fmod_bridge_).1 = paths.map (fun _ => false) ∧
      (loadBanksInOrder host env paths p.fmod_bridge_).2 = p.fmod_bridge_) := by
  refine ⟨?_, loadBanksInOrder_length host env paths _, ?_, ?_, ?_, ?_⟩
  · simp only [FmodFlutterPlugin.HandleMethodCall, String.reduceEq, if_false, if_true,
      reduceIte, Option.bind, EncodableValue.getMap, hbanks, EncodableValue.getList]
    rw [loadBanksLoop_strings]
    simp
  · simp [List.all_eq_true]
  · intro he; subst he; rfl
  · intro sys hs
    exact ⟨(loadBanksInOrder_engine host env sys paths _ hs).1,
      (loadBanksInOrder_engine host env sys paths _ hs).2.1⟩
  · intro hs
    exact loadBanksInOrder_uninitialized host env paths _ hs

/-- C14, witness: two banks on an initialized bridge; the engine rejects the
first load (engine call 6) and accepts the second: both are attempted, in
order, and the reply is false. -/
theorem C14_loadBanks_result_witness :
    FmodFlutterPlugin.HandleMethodCall Host.plain (Env.failAt 6 FMOD_STUDIO_PLAYBACK_PLAYING)
        ⟨"loadBanks", some (EncodableValue.map [(EncodableValue.string "banks",
          EncodableValue.list [EncodableValue.string "Master.bank",
            EncodableValue.string "Master.strings.bank"])])⟩
        { fmod_bridge_ := FmodBridge.ready, invoked := [] }
      = some (Reply.Success (some (EncodableValue.bool false)),
         { fmod_bridge_ := (loadBanksInOrder Host.plain
             (Env.failAt 6 FMOD_STUDIO_PLAYBACK_PLAYING)
             ["Master.bank", "Master.strings.bank"] FmodBridge.ready).2,
           invoked := [BridgeOp.LoadBank "Master.bank",
             BridgeOp.LoadBank "Master.strings.bank"] }) :=
  (C14_loadBanks_result Host.plain (Env.failAt 6 FMOD_STUDIO_PLAYBACK_PLAYING)
    { fmod_bridge_ := FmodBridge.ready, invoked := [] }
    [(EncodableValue.string "banks",
      EncodableValue.list [EncodableValue.string "Master.bank",
        EncodableValue.string "Master.strings.bank"])]
    ["Master.bank", "Master.strings.bank"] rfl).1

/-! ## C15: what the replies carry -/

/-- C15, counterexample. A well-formed `setMasterPaused` call on a bridge that
was never initialized: the bridge's `SetMasterPaused` returns false, and the
reply is the empty acknowledgement, not the boolean false. -/
theorem C15_counterexample :
    (FmodBridge.new.SetMasterPaused (Env.good FMOD_STUDIO_PLAYBACK_PLAYING) true).1 = false ∧
    (FmodFlutterPlugin.HandleMethodCall Host.plain (Env.good FMOD_STUDIO_PLAYBACK_PLAYING)
        ⟨"setMasterPaused", some (EncodableValue.map
          [(EncodableValue.string "paused", EncodableValue.bool true)])⟩
        { fmod_bridge_ := FmodBridge.new, invoked := [] }).map Prod.fst
      = some (Reply.Success none) ∧
    (FmodFlutterPlugin.HandleMethodCall Host.plain (Env.good FMOD_STUDIO_PLAYBACK_PLAYING)
        ⟨"setMasterPaused", some (EncodableValue.map
          [(EncodableValue.string "paused", EncodableValue.bool true)])⟩
        { fmod_bridge_ := FmodBridge.new, invoked := [] }).map Prod.fst
      ≠ some (Reply.Success (some (EncodableValue.bool false))) := by
  refine ⟨by decide, rfl, ?_⟩
  intro h
  have h2 : some (Reply.Success none)
      = some (Reply.Success (some (EncodableValue.bool false))) := h
  cases h2

/-- C15, amended (boundary outputs). For every host, engine behaviour and plugin
state.  `initialize`: when `Initialize` returns, the reply carries the boolean
it returned; when it does not return, neither does the handler.  For every
`setMasterPaused` call whose arguments are a map holding a boolean under
`paused`, the handler calls `SetMasterPaused` with it and replies with the
empty acknowledgement, discarding the boolean the bridge returned; likewise,
for every map holding the required values of the right type, `playEvent`,
`stopEvent`, `setParameter`, `setPaused` and `setVolume` call their bridge
operation with the decoded arguments and reply with the empty acknowledgement. -/
theorem C15_boundary_outputs (host : Host) (env : Env) (p : FmodFlutterPlugin) :
    (∀ (a : Option EncodableValue) (r : Bool × FmodBridge),
      p.fmod_bridge_.Initialize env = some r →
      p.HandleMethodCall host env ⟨"initialize", a⟩
        = some (Reply.Success (some (EncodableValue.bool r.1)),
            p.called BridgeOp.Initialize r.2)) ∧
    (∀ (a : Option EncodableValue), p.fmod_bridge_.Initialize env = none →
      p.HandleMethodCall host env ⟨"initialize", a⟩ = none) ∧
    (∀ (m : EncodableMap) (paused : Bool),
      EncodableMap.find "paused" m = some (EncodableValue.bool paused) →
      p.HandleMethodCall host env ⟨"setMasterPaused", some (EncodableValue.map m)⟩
        = some (Reply.Success none,
            p.called (BridgeOp.SetMasterPaused paused)
              (p.fmod_bridge_.SetMasterPaused env paused).2)) ∧
    (∀ (m : EncodableMap) (path : String),
      EncodableMap.find "path" m = some (EncodableValue.string path) →
      p.HandleMethodCall host env ⟨"playEvent", some (EncodableValue.map m)⟩
        = some (Reply.Success none,
            p.called (BridgeOp.PlayEvent path) (p.fmod_bridge_.PlayEvent env path).2) ∧
      p.HandleMethodCall host env ⟨"stopEvent", some (EncodableValue.map m)⟩
        = some (Reply.Success none,
            p.called (BridgeOp.StopEvent path) (p.fmod_bridge_.StopEvent env path).2)) ∧
    (∀ (m : EncodableMap) (path param : String) (value : F64),
      EncodableMap.find "path" m = some (EncodableValue.string path) →
      EncodableMap.find "parameter" m = some (EncodableValue.string param) →
      EncodableMap.find "value" m = some (EncodableValue.double value) →
      p.HandleMethodCall host env ⟨"setParameter", some (EncodableValue.map m)⟩
        = some (Reply.Success none,
            p.called (BridgeOp.SetParameter path param (host.toFloat value))
              (p.fmod_bridge_.SetParameter env path param (host.toFloat value)).2)) ∧
    (∀ (m : EncodableMap) (path : String) (paused : Bool),
      EncodableMap.find "path" m = some (EncodableValue.string path) →
      EncodableMap.find "paused" m = some (EncodableValue.bool paused) →
      p.HandleMethodCall host env ⟨"setPaused", some (EncodableValue.map m)⟩
        = some (Reply.Success none,
            p.called (BridgeOp.SetPaused path paused)
              (p.fmod_bridge_.SetPaused env path paused).2)) ∧
    (∀ (m : EncodableMap) (path : String) (volume : F64),
      EncodableMap.find "path" m = some (EncodableValue.string path) →
      EncodableMap.find "volume" m = some (EncodableValue.double volume) →
      p.HandleMethodCall host env ⟨"setVolume", some (EncodableValue.map m)⟩
        = some (Reply.Success none,
            p.called (BridgeOp.SetVolume path (host.toFloat volume))
              (p.fmod_bridge_.SetVolume env path (host.toFloat volume)).2)) := by
  refine ⟨?_, ?_, ?_, ?_, ?_, ?_, ?_⟩
  · intro a r hr
    simp [FmodFlutterPlugin.HandleMethodCall, hr]
  · intro a hr
    simp [FmodFlutterPlugin.HandleMethodCall, hr]
  · intro m paused h1
    simp [FmodFlutterPlugin.HandleMethodCall, Option.bind, EncodableValue.getMap, h1,
      EncodableValue.getBool]
  · intro m path h1
    constructor <;>
      simp [FmodFlutterPlugin.HandleMethodCall, Option.bind, EncodableValue.getMap, h1,
        EncodableValue.getString]
  · intro m path param value h1 h2 h3
    simp [FmodFlutterPlugin.HandleMethodCall, Option.bind, EncodableValue.getMap, h1, h2, h3,
      EncodableValue.getString, EncodableValue.getDouble]
  · intro m path paused h1 h2
    simp [FmodFlutterPlugin.HandleMethodCall, Option.bind, EncodableValue.getMap, h1, h2,
      EncodableValue.getString, EncodableValue.getBool]
  · intro m path volume h1 h2
    simp [FmodFlutterPlugin.HandleMethodCall, Option.bind, EncodableValue.getMap, h1, h2,
      EncodableValue.getString, EncodableValue.getDouble]

/-- C15, witness: the ordinary call `setMasterPaused` with arguments
`{paused: true}` on an initialized bridge with an accepting engine is answered
with the empty acknowledgement although the bridge returns true; the
`initialize` call on a fresh bridge is answered with the boolean true. -/
theorem C15_boundary_outputs_witness :
    (FmodBridge.ready.SetMasterPaused (Env.good FMOD_STUDIO_PLAYBACK_PLAYING) true).1 = true ∧
    (FmodFlutterPlugin.HandleMethodCall Host.plain (Env.good FMOD_STUDIO_PLAYBACK_PLAYING)
        ⟨"setMasterPaused", some (EncodableValue.map
          [(EncodableValue.string "paused", EncodableValue.bool true)])⟩
        { fmod_bridge_ := FmodBridge.ready, invoked := [] }).map Prod.fst
      = some (Reply.Success none) ∧
    (FmodFlutterPlugin.HandleMethodCall Host.plain (Env.good FMOD_STUDIO_PLAYBACK_PLAYING)
        ⟨"initialize", none⟩
        { fmod_bridge_ := FmodBridge.new, invoked := [] }).map Prod.fst
      = some (Reply.Success (some (EncodableValue.bool true))) :=
  ⟨by decide,
   congrArg (Option.map Prod.fst)
    ((C15_boundary_outputs Host.plain (Env.good FMOD_STUDIO_PLAYBACK_PLAYING)
      { fmod_bridge_ := FmodBridge.ready, invoked := [] }).2.2.1
      [(EncodableValue.string "paused", EncodableValue.bool true)] true rfl),
   congrArg (Option.map Prod.fst)
    ((C15_boundary_outputs Host.plain (Env.good FMOD_STUDIO_PLAYBACK_PLAYING)
      { fmod_bridge_ := FmodBridge.new, invoked := [] }).1 none
      (true, FmodBridge.ready) rfl)⟩

/-! ## The runs the program completes are runs of the model -/

theorem bridge_stepOrAbort_step (env : Env) (b b1 : FmodBridge) (op : BridgeOp)
    (h : b.stepOrAbort env op = some b1) : b.step env op = b1 := by
  cases op <;> simp only [FmodBridge.stepOrAbort, Option.some.injEq] at h <;>
    first
      | exact h
      | (simp only [FmodBridge.step]
         cases hr : b.Initialize env with
         | none => rw [hr] at h; cases h
         | some r => rw [hr] at h; simpa using h)

theorem bridge_exec_run (env : Env) :
    ∀ (ops : List BridgeOp) (b b1 : FmodBridge), b.exec env ops = some b1 →
      b.run env ops = b1
  | [], b, b1, h => by
      simp only [FmodBridge.exec, Option.some.injEq] at h
      simpa [FmodBridge.run] using h
  | op :: ops, b, b1, h => by
      simp only [FmodBridge.exec] at h
      cases hs : b.stepOrAbort env op with
      | none => rw [hs] at h; cases h
      | some b2 =>
        rw [hs] at h
        have h2 := bridge_exec_run env ops b2 b1 h
        rw [← bridge_stepOrAbort_step env b b2 op hs] at h2
        simpa [FmodBridge.run] using h2

end FmodFlutter
